import Mathlib

/-!
# Shell console of the bq769x battery management firmware (protocol/console.cc)

A shallow embedding of `protocol::Console`: the configuration and statistics
records, the validated setters, the command dispatcher, the serial line editor
and the periodic supervisor.  Machine integers are natural numbers or integers
reduced explicitly to their width.  Everything outside console.cc (the bq769x0
driver, the serial port, the timer, the EEPROM) appears as explicit state or
as an explicit input, and every externally visible action is appended to a
trace.
-/

namespace protocol

/-! ## Machine integers -/

/-- Conversion to uint8_t. -/
def u8 (x : Int) : Nat := (x % 256).toNat

/-- Conversion to uint16_t. -/
def u16 (x : Int) : Nat := (x % 65536).toNat

/-- Conversion to uint32_t. -/
def u32 (x : Int) : Nat := (x % 4294967296).toNat

/-- Conversion to int16_t (the 16 bit int of the AVR target). -/
def s16 (x : Int) : Int := (x + 32768) % 65536 - 32768

/-- Conversion to int32_t. -/
def s32 (x : Int) : Int := (x + 2147483648) % 4294967296 - 2147483648

/-- Conversion to bool and back to an integer: 1 for every nonzero value. -/
def toBool01 (x : Int) : Nat := if x = 0 then 0 else 1

/-! ## C strings

A `const char *` is the list of bytes found from the pointer onwards; reading
past the end of the list reads the terminator. -/

/-- Byte at offset `i` of a C string. -/
def cget (s : List Nat) (i : Nat) : Nat := s.getD i 0

/-- The libc classification isspace. -/
def isspace (c : Nat) : Bool := c == 32 || (9 ≤ c && c ≤ 13)

/-- The libc classification isdigit. -/
def isdigit (c : Nat) : Bool := 48 ≤ c && c ≤ 57

/-- Decimal digits at the head of a string, accumulated onto `acc`. -/
def digitsVal : List Nat → Nat → Nat
  | [], acc => acc
  | c :: cs, acc => if isdigit c then digitsVal cs (acc * 10 + (c - 48)) else acc

/-- Decimal conversion shared by atoi and atol: leading white space, an
optional sign, then digits up to the first other byte. -/
def strtol10 (s : List Nat) : Int :=
  match s.dropWhile isspace with
  | 45 :: r => - (digitsVal r 0 : Int)
  | 43 :: r => (digitsVal r 0 : Int)
  | r => (digitsVal r 0 : Int)

/-- The libc atoi on the AVR target: the result is a 16 bit int, the
accumulation wraps. -/
def atoi (s : List Nat) : Int := s16 (strtol10 s)

/-- The libc atol: the result is a 32 bit long. -/
def atol (s : List Nat) : Int := s32 (strtol10 s)

/-- The libc strlen: number of bytes before the first terminator. -/
def strlen_P : List Nat → Nat
  | [] => 0
  | c :: cs => if c = 0 then 0 else strlen_P cs + 1

/-- The libc strncmp, reduced to what the caller tests: 0 when the first `n`
bytes agree (or both strings end together before that), 1 otherwise. -/
def strncmp_P : List Nat → List Nat → Nat → Nat
  | _, _, 0 => 0
  | a, b, n + 1 =>
    if cget a 0 ≠ cget b 0 then 1
    else if cget a 0 = 0 then 0
    else strncmp_P (a.drop 1) (b.drop 1) n

/-! ## Records shared with the driver -/

/-- The configuration record `devices::bq769_conf`.  Its declaration
(devices/bq769x0.h) is not part of console.cc; every field has the width of
the local variable its setter parses into (flags hold 0 or 1 in one byte). -/
structure bq769_conf where
  Allow_Charging : Nat
  Allow_Discharging : Nat
  BQ_dbg : Nat
  RT_bits : Nat
  RS_uOhm : Nat
  RT_Beta : List Nat
  Cell_CapaNom_mV : Nat
  Cell_CapaFull_mV : Nat
  Batt_CapaNom_mAsec : Int
  CurrentThresholdIdle_mA : Nat
  Cell_TempCharge_min : Int
  Cell_TempCharge_max : Int
  Cell_TempDischarge_min : Int
  Cell_TempDischarge_max : Int
  BalancingInCharge : Nat
  BalancingEnable : Nat
  BalancingCellMin_mV : Int
  BalancingCellMaxDifference_mV : Nat
  BalancingIdleTimeMin_s : Nat
  Cell_OCD_mA : Int
  Cell_OCD_ms : Nat
  Cell_SCD_mA : Nat
  Cell_SCD_us : Nat
  Cell_ODP_mA : Nat
  Cell_ODP_ms : Nat
  Cell_OVP_mV : Nat
  Cell_OVP_sec : Nat
  Cell_UVP_mV : Nat
  Cell_UVP_sec : Nat
  adcCellsOffset_ : List Int
  ts : Nat
  crc8 : Nat
  deriving DecidableEq, Repr

/-- The statistics record `devices::bq769_stats` (declaration in
devices/bq769x0.h, not part of console.cc); the fields are those console.cc
reads or writes. -/
structure bq769_stats where
  adcGain_ : Nat
  adcOffset_ : Int
  batCycles_ : Nat
  chargedTimes_ : Nat
  idCellMinVoltage_ : Nat
  idCellMaxVoltage_ : Nat
  idleTimestamp_ : Nat
  chargeTimestamp_ : Nat
  errorCounter_ : List Nat
  errorTimestamps_ : List Nat
  cellIdMap_ : List Nat
  cellVoltages_ : List Nat
  temperatures_ : List Int
  ts : Nat
  crc8 : Nat
  deriving DecidableEq, Repr

/-! ## External actions and the trace -/

/-- State-changing operations of the driver object `bq` (devices::bq769x0),
with the arguments console.cc passes. -/
inductive BqCall
  | begin
  | update
  | resetSOC (percent : Nat)
  | enableCharging
  | disableCharging
  | enableDischarging
  | disableDischarging
  | setShortCircuitProtection (mA us : Nat)
  | setOvercurrentChargeProtection (mA : Int) (ms : Nat)
  | setOvercurrentDischargeProtection (mA ms : Nat)
  | setCellUndervoltageProtection (mV sec : Nat)
  | setCellOvervoltageProtection (mV sec : Nat)
  | printRegisters
  | shutdown
  deriving DecidableEq, Repr

/-- The enumeration PrintParam of console.h. -/
inductive PrintParam
  | Conf_Allow_Charging
  | Conf_Allow_Discharging
  | Conf_BQ_dbg
  | Conf_RT_bits
  | Conf_RS_uOhm
  | Conf_RT_Beta
  | Conf_Cell_CapaNom_mV
  | Conf_Cell_CapaFull_mV
  | Conf_Batt_CapaNom_mAsec
  | Conf_CurrentThresholdIdle_mA
  | Conf_Cell_TempCharge_min
  | Conf_Cell_TempCharge_max
  | Conf_Cell_TempDischarge_min
  | Conf_Cell_TempDischarge_max
  | Conf_BalancingInCharge
  | Conf_BalancingEnable
  | Conf_BalancingCellMin_mV
  | Conf_BalancingCellMaxDifference_mV
  | Conf_BalancingIdleTimeMin_s
  | Conf_Cell_OCD_mA
  | Conf_Cell_OCD_ms
  | Conf_Cell_SCD_mA
  | Conf_Cell_SCD_us
  | Conf_Cell_ODP_mA
  | Conf_Cell_ODP_ms
  | Conf_Cell_OVP_mV
  | Conf_Cell_OVP_sec
  | Conf_Cell_UVP_mV
  | Conf_Cell_UVP_sec
  | Conf_adcCellsOffset
  | Conf_ts
  | Conf_CRC8
  deriving DecidableEq, Repr

/-- The member functions registered in handleCommand; a value of this type is
a `SerialCommandHandler` (pointer to member function). -/
inductive Handler
  | cmd_conf_print
  | cmd_stats_print
  | cmd_stats_save
  | command_restore
  | command_save
  | command_bqregs
  | command_print
  | command_wdreset
  | command_bootloader
  | command_freemem
  | command_format_EEMEM
  | command_help
  | command_shutdown
  | cmd_Allow_Charging
  | cmd_Allow_Discharging
  | cmd_BQ_dbg
  | cmd_RT_bits
  | cmd_RS_uOhm
  | cmd_RT_Beta
  | cmd_Cell_CapaNom_mV
  | cmd_Cell_CapaFull_mV
  | cmd_Batt_CapaNom_mAsec
  | cmd_CurrentThresholdIdle_mA
  | cmd_Cell_TempCharge_min
  | cmd_Cell_TempCharge_max
  | cmd_Cell_TempDischarge_min
  | cmd_Cell_TempDischarge_max
  | cmd_BalancingInCharge
  | cmd_BalancingEnable
  | cmd_BalancingCellMin_mV
  | cmd_BalancingCellMaxDifference_mV
  | cmd_BalancingIdleTimeMin_s
  | cmd_Cell_OCD_mA
  | cmd_Cell_OCD_ms
  | cmd_Cell_SCD_mA
  | cmd_Cell_SCD_us
  | cmd_Cell_ODP_mA
  | cmd_Cell_ODP_ms
  | cmd_Cell_OVP_mV
  | cmd_Cell_OVP_sec
  | cmd_Cell_UVP_mV
  | cmd_Cell_UVP_sec
  deriving DecidableEq, Repr

/-- Fixed texts written to the console stream. -/
inductive Msg
  | stats_saved
  | unknown_command
  | prompt
  | available_commands
  | shutdown_hlp
  | overvoltage
  | undervoltage
  | short_circuit
  | overcurrent_charge
  | difference_too_big
  | conf_load
  | stats_load
  | bad_crc
  | load_ok
  | banner
  deriving DecidableEq, Repr

/-- One externally visible action of the console.  Line ends and the rendering
of numbers are not recorded. -/
inductive Event
  | bq (call : BqCall)
  | handler (h : Handler)
  | write_help (cmd : List Nat)
  | print_conf (p : PrintParam)
  | print_all_stats
  | debug_print (uptime : Nat)
  | msg (m : Msg)
  | ser_write (ch : Nat)
  | eeprom_write_conf
  | eeprom_write_stats
  | eeprom_write_byte (addr : Nat) (value : Nat)
  | wdt_reset
  | free_mem
  | forceRestart
  | do_reboot
  | job (level : Nat)
  deriving DecidableEq, Repr

/-- The enumeration Console::SerialState. -/
inductive SerialState
  | CONSOLE_STARTUP
  | CONSOLE_ACCUMULATING
  | CONSOLE_COMMAND
  deriving DecidableEq, Repr

/-- The macro CONS_BUFF of console.h. -/
def CONS_BUFF : Nat := 100

/-- The macro BackSpace of console.h. -/
def BackSpace : Nat := 0x08

/-- The macro Delete of console.h. -/
def Delete : Nat := 0x7F

/-- Carriage return. -/
def CR : Nat := 13

/-- Line feed. -/
def LF : Nat := 10

/-- The keyword texts of console_strings.h, one per registered handler.  The
header is not part of the sources at hand, so the texts are a parameter of the
dispatcher. -/
structure console_strings where
  STR_cmd_conf_print : List Nat
  STR_cmd_stats_print : List Nat
  STR_cmd_stats_save : List Nat
  STR_CMD_RESTORE : List Nat
  STR_CMD_SAVE : List Nat
  STR_CMD_BQREGS : List Nat
  STR_CMD_PRINT : List Nat
  STR_CMD_WDRESET : List Nat
  STR_CMD_BOOTLOADER : List Nat
  STR_CMD_FREEMEM : List Nat
  STR_CMD_EPFORMAT : List Nat
  STR_CMD_HELP : List Nat
  STR_CMD_SHUTDOWN : List Nat
  STR_cmd_Allow_Charging : List Nat
  STR_cmd_Allow_Discharging : List Nat
  STR_cmd_BQ_dbg : List Nat
  STR_cmd_RT_bits : List Nat
  STR_cmd_RS_uOhm : List Nat
  STR_cmd_RT_Beta : List Nat
  STR_cmd_Cell_CapaNom_mV : List Nat
  STR_cmd_Cell_CapaFull_mV : List Nat
  STR_cmd_Batt_CapaNom_mAsec : List Nat
  STR_cmd_CurrentThresholdIdle_mA : List Nat
  STR_cmd_Cell_TempCharge_min : List Nat
  STR_cmd_Cell_TempCharge_max : List Nat
  STR_cmd_Cell_TempDischarge_min : List Nat
  STR_cmd_Cell_TempDischarge_max : List Nat
  STR_cmd_BalancingInCharge : List Nat
  STR_cmd_BalancingEnable : List Nat
  STR_cmd_BalancingCellMin_mV : List Nat
  STR_cmd_BalancingCellMaxDifference_mV : List Nat
  STR_cmd_BalancingIdleTimeMin_s : List Nat
  STR_cmd_Cell_OCD_mA : List Nat
  STR_cmd_Cell_OCD_ms : List Nat
  STR_cmd_Cell_SCD_mA : List Nat
  STR_cmd_Cell_SCD_us : List Nat
  STR_cmd_Cell_ODP_mA : List Nat
  STR_cmd_Cell_ODP_ms : List Nat
  STR_cmd_Cell_OVP_mV : List Nat
  STR_cmd_Cell_OVP_sec : List Nat
  STR_cmd_Cell_UVP_mV : List Nat
  STR_cmd_Cell_UVP_sec : List Nat

/-- What console.cc takes from headers that are not part of the sources at
hand: the keyword texts, the macros of devices/bq769x0.h (the thermistor
mask, which IC the build selects, the fault bits of the status byte), and the
macro E2END of avr/io.h (the last address of the EEPROM).  The branch of
conf_default under IC_BQ76930 names an undeclared object, so a build that
compiles does not define that macro. -/
structure Build extends console_strings where
  E2END : Nat
  BQ769X0_THERMISTORS : Nat
  IC_BQ76940 : Bool
  STAT_OV : Nat
  STAT_UV : Nat
  STAT_SCD : Nat
  STAT_OCD : Nat

/-- The state of a `Console` object together with the part of the machine it
acts on: the two EEPROM images, the timer value, the pending serial input and
the trace of actions performed so far. -/
structure Console where
  bq769x_conf : bq769_conf
  bq769x_stats : bq769_stats
  alertInterruptFlag_ : Bool
  handle_result : Bool
  param_len : Nat
  handle_len : Nat
  m_lastUpdate : Nat
  m_oldMillis : Nat
  m_millisOverflows : Nat
  len : Nat
  m_BatCycles_prev : Nat
  m_ChargedTimes_prev : Nat
  shd : Nat
  buffer : List Nat
  state : SerialState
  handle_buffer : List Nat
  param : Option (List Nat)
  In_EEPROM_conf : bq769_conf
  In_EEPROM_stats : bq769_stats
  millis : Nat
  ser_rx : List Nat
  trace : List Event
  deriving DecidableEq, Repr

/-- What one call of the driver poll `bq.update()` hands back: the fault byte
it returns, the statistics record as the driver leaves it (the driver holds a
reference to it), and the cell voltages its getters report afterwards. -/
structure BqPoll where
  error : Nat
  stats : bq769_stats
  maxCellVoltage : Nat
  minCellVoltage : Nat
  deriving DecidableEq, Repr

namespace Console

/-- Append one action to the trace. -/
def emit (c : Console) (e : Event) : Console := { c with trace := c.trace ++ [e] }

/-- The value `mcu::Timer::millis()` returns, a uint32_t. -/
def Timer_millis (c : Console) : Nat := c.millis % 4294967296

end Console

/-! ## Checksum -/

/-- Little-endian bytes of an unsigned value stored in `n` bytes. -/
def le_bytes : Nat → Nat → List Nat
  | 0, _ => []
  | n + 1, x => x % 256 :: le_bytes n (x / 256)

/-- Bytes of an array of unsigned elements of `n` bytes each. -/
def arr_bytes (n : Nat) : List Nat → List Nat
  | [] => []
  | x :: xs => le_bytes n x ++ arr_bytes n xs

/-- Bytes of an array of signed elements of `n` bytes each. -/
def arr_bytes_s (n : Nat) : List Int → List Nat
  | [] => []
  | x :: xs => le_bytes n (x % (256 ^ n : Nat)).toNat ++ arr_bytes_s n xs

/-- The `sizeof(bq769x_conf)` bytes of a configuration record: the AVR target
has no padding, the fields follow each other in declaration order, the
checksum byte comes last. -/
def conf_bytes (r : bq769_conf) : List Nat :=
  le_bytes 1 r.Allow_Charging ++ le_bytes 1 r.Allow_Discharging ++ le_bytes 1 r.BQ_dbg
  ++ le_bytes 1 r.RT_bits ++ le_bytes 4 r.RS_uOhm ++ arr_bytes 2 r.RT_Beta
  ++ le_bytes 2 r.Cell_CapaNom_mV ++ le_bytes 2 r.Cell_CapaFull_mV
  ++ le_bytes 4 (u32 r.Batt_CapaNom_mAsec) ++ le_bytes 4 r.CurrentThresholdIdle_mA
  ++ le_bytes 2 (u16 r.Cell_TempCharge_min) ++ le_bytes 2 (u16 r.Cell_TempCharge_max)
  ++ le_bytes 2 (u16 r.Cell_TempDischarge_min) ++ le_bytes 2 (u16 r.Cell_TempDischarge_max)
  ++ le_bytes 1 r.BalancingInCharge ++ le_bytes 1 r.BalancingEnable
  ++ le_bytes 4 (u32 r.BalancingCellMin_mV) ++ le_bytes 1 r.BalancingCellMaxDifference_mV
  ++ le_bytes 2 r.BalancingIdleTimeMin_s
  ++ le_bytes 4 (u32 r.Cell_OCD_mA) ++ le_bytes 2 r.Cell_OCD_ms
  ++ le_bytes 4 r.Cell_SCD_mA ++ le_bytes 2 r.Cell_SCD_us
  ++ le_bytes 4 r.Cell_ODP_mA ++ le_bytes 2 r.Cell_ODP_ms
  ++ le_bytes 2 r.Cell_OVP_mV ++ le_bytes 2 r.Cell_OVP_sec
  ++ le_bytes 2 r.Cell_UVP_mV ++ le_bytes 2 r.Cell_UVP_sec
  ++ arr_bytes_s 1 r.adcCellsOffset_ ++ le_bytes 4 r.ts ++ le_bytes 1 r.crc8

/-- The `sizeof(bq769x_stats)` bytes of a statistics record, checksum byte
last. -/
def stats_bytes (r : bq769_stats) : List Nat :=
  le_bytes 2 r.adcGain_ ++ le_bytes 1 (u8 r.adcOffset_)
  ++ le_bytes 2 r.batCycles_ ++ le_bytes 2 r.chargedTimes_
  ++ le_bytes 1 r.idCellMinVoltage_ ++ le_bytes 1 r.idCellMaxVoltage_
  ++ le_bytes 4 r.idleTimestamp_ ++ le_bytes 4 r.chargeTimestamp_
  ++ arr_bytes 2 r.errorCounter_ ++ arr_bytes 4 r.errorTimestamps_
  ++ arr_bytes 1 r.cellIdMap_ ++ arr_bytes 2 r.cellVoltages_
  ++ arr_bytes_s 2 r.temperatures_ ++ le_bytes 4 r.ts ++ le_bytes 1 r.crc8

/-- One of the eight shift steps of the CRC-8 update. -/
def crc8_shift (data : Nat) : Nat :=
  if data &&& 0x80 ≠ 0 then ((data <<< 1) % 256) ^^^ 0x07 else (data <<< 1) % 256

/-- Modelled from the spec: `devices::_crc8_ccitt_update` is not part of the
sources at hand; the spec calls it a single-byte cyclic-redundancy accumulator
(CRC-8), taken here with the CCITT polynomial 0x07 of the function of the same
name in avr-libc. -/
def crc8_ccitt_update (inCrc inData : Nat) : Nat :=
  crc8_shift^[8] ((inCrc ^^^ inData) % 256)

/-- The function gencrc8: the accumulator folded over the first `len` bytes. -/
def gencrc8 (data : List Nat) (len : Nat) : Nat :=
  (data.take len).foldl crc8_ccitt_update 0

namespace Console

/-! ## Persistence -/

/-- Console::stats_save. -/
def stats_save (c : Console) : Console :=
  let s1 := { c.bq769x_stats with ts := c.Timer_millis }
  let s2 := { s1 with crc8 := gencrc8 (stats_bytes s1) ((stats_bytes s1).length - 1) }
  { c with bq769x_stats := s2, In_EEPROM_stats := s2,
           trace := c.trace ++ [Event.eeprom_write_stats] }

/-- Console::conf_save. -/
def conf_save (c : Console) : Console :=
  let r1 := { c.bq769x_conf with ts := c.Timer_millis }
  let r2 := { r1 with crc8 := gencrc8 (conf_bytes r1) ((conf_bytes r1).length - 1) }
  { c with bq769x_conf := r2, In_EEPROM_conf := r2,
           trace := c.trace ++ [Event.eeprom_write_conf] }

/-- The assignments of Console::conf_default on a record.  RT_Beta[1] and
RT_Beta[2] are assigned only in a build for the BQ76940; adcCellsOffset_ is
zeroed in place. -/
def conf_default_rec (b : Build) (r : bq769_conf) : bq769_conf :=
  { r with
    BQ_dbg := 0
    Allow_Charging := 1
    Allow_Discharging := 1
    RT_bits := b.BQ769X0_THERMISTORS
    RS_uOhm := 1000
    RT_Beta := if b.IC_BQ76940 then ((r.RT_Beta.set 0 3435).set 1 3435).set 2 3435
               else r.RT_Beta.set 0 3435
    Cell_CapaNom_mV := 3600
    Cell_CapaFull_mV := 4180
    Batt_CapaNom_mAsec := 360000
    CurrentThresholdIdle_mA := 100
    Cell_TempCharge_min := 0
    Cell_TempCharge_max := 500
    Cell_TempDischarge_min := -200
    Cell_TempDischarge_max := 650
    BalancingInCharge := 1
    BalancingEnable := 1
    BalancingCellMin_mV := 3600
    BalancingCellMaxDifference_mV := 10
    BalancingIdleTimeMin_s := 1800
    Cell_OCD_mA := 5500
    Cell_OCD_ms := 3000
    Cell_SCD_mA := 80000
    Cell_SCD_us := 200
    Cell_ODP_mA := 40000
    Cell_ODP_ms := 2000
    Cell_OVP_mV := 4200
    Cell_OVP_sec := 2
    Cell_UVP_mV := 2850
    Cell_UVP_sec := 2
    adcCellsOffset_ := r.adcCellsOffset_.map (fun _ => 0) }

/-- Console::conf_default. -/
def conf_default (b : Build) (c : Console) : Console :=
  { c with bq769x_conf := conf_default_rec b c.bq769x_conf }

/-- Console::conf_begin_protect. -/
def conf_begin_protect (c : Console) : Console :=
  let r := c.bq769x_conf
  { c with trace := c.trace ++
    [ Event.bq (BqCall.setShortCircuitProtection r.Cell_SCD_mA r.Cell_SCD_us),
      Event.bq (BqCall.setOvercurrentChargeProtection r.Cell_OCD_mA r.Cell_OCD_ms),
      Event.bq (BqCall.setOvercurrentDischargeProtection r.Cell_ODP_mA r.Cell_ODP_ms),
      Event.bq (BqCall.setCellUndervoltageProtection r.Cell_UVP_mV r.Cell_UVP_sec),
      Event.bq (BqCall.setCellOvervoltageProtection r.Cell_OVP_mV r.Cell_OVP_sec) ] }

/-- The memset of Console::stats_load: every byte of the record becomes 0. -/
def stats_zero (s : bq769_stats) : bq769_stats :=
  { adcGain_ := 0, adcOffset_ := 0, batCycles_ := 0, chargedTimes_ := 0,
    idCellMinVoltage_ := 0, idCellMaxVoltage_ := 0, idleTimestamp_ := 0,
    chargeTimestamp_ := 0,
    errorCounter_ := s.errorCounter_.map (fun _ => 0),
    errorTimestamps_ := s.errorTimestamps_.map (fun _ => 0),
    cellIdMap_ := s.cellIdMap_.map (fun _ => 0),
    cellVoltages_ := s.cellVoltages_.map (fun _ => 0),
    temperatures_ := s.temperatures_.map (fun _ => 0),
    ts := 0, crc8 := 0 }

/-- Console::stats_load. -/
def stats_load (c : Console) : Console :=
  let c1 := c.emit (Event.msg Msg.stats_load)
  let c2 := { c1 with bq769x_stats := c1.In_EEPROM_stats }
  if c2.bq769x_stats.crc8 ≠
      gencrc8 (stats_bytes c2.bq769x_stats) ((stats_bytes c2.bq769x_stats).length - 1) then
    let c3 := c2.emit (Event.msg Msg.bad_crc)
    stats_save { c3 with bq769x_stats := stats_zero c3.bq769x_stats }
  else c2.emit (Event.msg Msg.load_ok)

/-- Console::conf_load. -/
def conf_load (b : Build) (c : Console) : Console :=
  let c1 := c.emit (Event.msg Msg.conf_load)
  let c2 := { c1 with bq769x_conf := c1.In_EEPROM_conf }
  if c2.bq769x_conf.crc8 ≠
      gencrc8 (conf_bytes c2.bq769x_conf) ((conf_bytes c2.bq769x_conf).length - 1) then
    conf_save ((conf_default b c2).emit (Event.msg Msg.bad_crc))
  else c2.emit (Event.msg Msg.load_ok)

/-- Console::write_help: the usage line of one command. -/
def write_help (c : Console) (cmd : List Nat) : Console := c.emit (Event.write_help cmd)

/-- Console::print_conf. -/
def print_conf (c : Console) (p : PrintParam) : Console := c.emit (Event.print_conf p)

/-- All values of PrintParam from FIRST to LAST. -/
def allPrintParams : List PrintParam :=
  [ .Conf_Allow_Charging, .Conf_Allow_Discharging, .Conf_BQ_dbg, .Conf_RT_bits, .Conf_RS_uOhm,
    .Conf_RT_Beta, .Conf_Cell_CapaNom_mV, .Conf_Cell_CapaFull_mV, .Conf_Batt_CapaNom_mAsec,
    .Conf_CurrentThresholdIdle_mA, .Conf_Cell_TempCharge_min, .Conf_Cell_TempCharge_max,
    .Conf_Cell_TempDischarge_min, .Conf_Cell_TempDischarge_max, .Conf_BalancingInCharge,
    .Conf_BalancingEnable, .Conf_BalancingCellMin_mV, .Conf_BalancingCellMaxDifference_mV,
    .Conf_BalancingIdleTimeMin_s, .Conf_Cell_OCD_mA, .Conf_Cell_OCD_ms, .Conf_Cell_SCD_mA,
    .Conf_Cell_SCD_us, .Conf_Cell_ODP_mA, .Conf_Cell_ODP_ms, .Conf_Cell_OVP_mV,
    .Conf_Cell_OVP_sec, .Conf_Cell_UVP_mV, .Conf_Cell_UVP_sec, .Conf_adcCellsOffset,
    .Conf_ts, .Conf_CRC8 ]

/-- Console::print_all_conf. -/
def print_all_conf (c : Console) : Console := allPrintParams.foldl print_conf c

/-- Console::print_all_stats. -/
def print_all_stats (c : Console) : Console := c.emit Event.print_all_stats

/-- Console::debug_print: the uptime is computed in 32 bits from the overflow
count and the timer. -/
def debug_print (c : Console) : Console :=
  let uptime := (c.m_millisOverflows * (0xffffffff / 1000)) % 4294967296
  let uptime := (uptime + c.Timer_millis / 1000) % 4294967296
  c.emit (Event.debug_print uptime)

/-! ## Setters

Every setter reads the argument view (`param`, `param_len`) left by
compare_cmd. -/

/-- The call `atoi(param + off)`. -/
def atoi_param (c : Console) (off : Nat) : Int := atoi ((c.param.getD []).drop off)

/-- Replace the configuration record. -/
def withConf (c : Console) (r : bq769_conf) : Console := { c with bq769x_conf := r }

/-- Console::cmd_Allow_Charging. -/
def cmd_Allow_Charging (_b : Build) (c : Console) : Console :=
  let c1 :=
    if c.param_len ≠ 0 then
      let c2 := c.withConf { c.bq769x_conf with Allow_Charging := toBool01 (c.atoi_param 0) }
      if c2.bq769x_conf.Allow_Charging ≠ 0 then c2.emit (Event.bq BqCall.enableCharging)
      else c2.emit (Event.bq BqCall.disableCharging)
    else c
  c1.print_conf PrintParam.Conf_Allow_Charging

/-- Console::cmd_Allow_Discharging. -/
def cmd_Allow_Discharging (_b : Build) (c : Console) : Console :=
  let c1 :=
    if c.param_len ≠ 0 then
      let c2 := c.withConf { c.bq769x_conf with Allow_Discharging := toBool01 (c.atoi_param 0) }
      if c2.bq769x_conf.Allow_Discharging ≠ 0 then c2.emit (Event.bq BqCall.enableDischarging)
      else c2.emit (Event.bq BqCall.disableDischarging)
    else c
  c1.print_conf PrintParam.Conf_Allow_Discharging

/-- Console::cmd_BQ_dbg. -/
def cmd_BQ_dbg (_b : Build) (c : Console) : Console :=
  let c1 :=
    if c.param_len ≠ 0 then
      c.withConf { c.bq769x_conf with BQ_dbg := toBool01 (c.atoi_param 0) }
    else c
  c1.print_conf PrintParam.Conf_BQ_dbg

/-- One statement `if (x) RT_bits |= (1 << i); else RT_bits &= ~(1 << i);`. -/
def rt_bit (bits : Nat) (i : Nat) (x : Nat) : Nat :=
  if x ≠ 0 then u8 (bits ||| (1 <<< i)) else u8 (bits &&& (0xFFFF - (1 <<< i)))

/-- Console::cmd_RT_bits. -/
def cmd_RT_bits (b : Build) (c : Console) : Console :=
  let c1 :=
    if c.param_len ≠ 0 then
      if c.param_len = 5 then
        let x := u8 (c.atoi_param 0)
        let y := u8 (c.atoi_param 2)
        let z := u8 (c.atoi_param 4)
        c.withConf { c.bq769x_conf with
          RT_bits := rt_bit (rt_bit (rt_bit c.bq769x_conf.RT_bits 0 x) 1 y) 2 z }
      else c.write_help b.STR_cmd_RT_bits
    else c
  c1.print_conf PrintParam.Conf_RT_bits

/-- Console::cmd_RS_uOhm. -/
def cmd_RS_uOhm (b : Build) (c : Console) : Console :=
  let c1 :=
    if c.param_len ≠ 0 then
      let sr := u32 (c.atoi_param 0)
      if sr ≠ 0 then c.withConf { c.bq769x_conf with RS_uOhm := sr }
      else c.write_help b.STR_cmd_RS_uOhm
    else c
  c1.print_conf PrintParam.Conf_RS_uOhm

/-- Console::cmd_RT_Beta. -/
def cmd_RT_Beta (b : Build) (c : Console) : Console :=
  let c1 :=
    if c.param_len ≠ 0 then
      if c.param_len = 14 then
        c.withConf { c.bq769x_conf with
          RT_Beta := ((c.bq769x_conf.RT_Beta.set 0 (u16 (c.atoi_param 0))).set 1
            (u16 (c.atoi_param 5))).set 2 (u16 (c.atoi_param 10)) }
      else c.write_help b.STR_cmd_RT_Beta
    else c
  c1.print_conf PrintParam.Conf_RT_Beta

/-- Console::cmd_Cell_CapaNom_mV. -/
def cmd_Cell_CapaNom_mV (b : Build) (c : Console) : Console :=
  let c1 :=
    if c.param_len ≠ 0 then
      if c.param_len = 4 then
        c.withConf { c.bq769x_conf with Cell_CapaNom_mV := u16 (c.atoi_param 0) }
      else c.write_help b.STR_cmd_Cell_CapaNom_mV
    else c
  c1.print_conf PrintParam.Conf_Cell_CapaNom_mV

/-- Console::cmd_Cell_CapaFull_mV. -/
def cmd_Cell_CapaFull_mV (b : Build) (c : Console) : Console :=
  let c1 :=
    if c.param_len ≠ 0 then
      if c.param_len = 4 then
        c.withConf { c.bq769x_conf with Cell_CapaFull_mV := u16 (c.atoi_param 0) }
      else c.write_help b.STR_cmd_Cell_CapaFull_mV
    else c
  c1.print_conf PrintParam.Conf_Cell_CapaFull_mV

/-- Console::cmd_Batt_CapaNom_mAsec: the argument goes through atol and the
product is formed in 32 bit signed arithmetic. -/
def cmd_Batt_CapaNom_mAsec (b : Build) (c : Console) : Console :=
  let c1 :=
    if c.param_len ≠ 0 then
      let t := atol (c.param.getD [])
      if t ≠ 0 then c.withConf { c.bq769x_conf with Batt_CapaNom_mAsec := s32 (s32 (t * 60) * 60) }
      else c.write_help b.STR_cmd_Batt_CapaNom_mAsec
    else c
  c1.print_conf PrintParam.Conf_Batt_CapaNom_mAsec

/-- Console::cmd_CurrentThresholdIdle_mA. -/
def cmd_CurrentThresholdIdle_mA (b : Build) (c : Console) : Console :=
  let c1 :=
    if c.param_len ≠ 0 then
      let t := u32 (c.atoi_param 0)
      if t > 0 then c.withConf { c.bq769x_conf with CurrentThresholdIdle_mA := t }
      else c.write_help b.STR_cmd_CurrentThresholdIdle_mA
    else c
  c1.print_conf PrintParam.Conf_CurrentThresholdIdle_mA

/-- Console::cmd_Cell_TempCharge_min. -/
def cmd_Cell_TempCharge_min (b : Build) (c : Console) : Console :=
  let c1 :=
    if c.param_len ≠ 0 then
      let t := s16 (c.atoi_param 0)
      if t < c.bq769x_conf.Cell_TempCharge_max then
        c.withConf { c.bq769x_conf with Cell_TempCharge_min := t }
      else c.write_help b.STR_cmd_Cell_TempCharge_min
    else c
  c1.print_conf PrintParam.Conf_Cell_TempCharge_min

/-- Console::cmd_Cell_TempCharge_max. -/
def cmd_Cell_TempCharge_max (b : Build) (c : Console) : Console :=
  let c1 :=
    if c.param_len ≠ 0 then
      let t := s16 (c.atoi_param 0)
      if t > c.bq769x_conf.Cell_TempCharge_min then
        c.withConf { c.bq769x_conf with Cell_TempCharge_max := t }
      else c.write_help b.STR_cmd_Cell_TempCharge_max
    else c
  c1.print_conf PrintParam.Conf_Cell_TempCharge_max

/-- Console::cmd_Cell_TempDischarge_min. -/
def cmd_Cell_TempDischarge_min (b : Build) (c : Console) : Console :=
  let c1 :=
    if c.param_len ≠ 0 then
      let t := s16 (c.atoi_param 0)
      if t < c.bq769x_conf.Cell_TempDischarge_max then
        c.withConf { c.bq769x_conf with Cell_TempDischarge_min := t }
      else c.write_help b.STR_cmd_Cell_TempDischarge_min
    else c
  c1.print_conf PrintParam.Conf_Cell_TempDischarge_min

/-- Console::cmd_Cell_TempDischarge_max. -/
def cmd_Cell_TempDischarge_max (b : Build) (c : Console) : Console :=
  let c1 :=
    if c.param_len ≠ 0 then
      let t := s16 (c.atoi_param 0)
      if t > c.bq769x_conf.Cell_TempDischarge_min then
        c.withConf { c.bq769x_conf with Cell_TempDischarge_max := t }
      else c.write_help b.STR_cmd_Cell_TempDischarge_max
    else c
  c1.print_conf PrintParam.Conf_Cell_TempDischarge_max

/-- Console::cmd_BalancingInCharge. -/
def cmd_BalancingInCharge (_b : Build) (c : Console) : Console :=
  let c1 :=
    if c.param_len ≠ 0 then
      c.withConf { c.bq769x_conf with BalancingInCharge := toBool01 (c.atoi_param 0) }
    else c
  c1.print_conf PrintParam.Conf_BalancingInCharge

/-- Console::cmd_BalancingEnable. -/
def cmd_BalancingEnable (_b : Build) (c : Console) : Console :=
  let c1 :=
    if c.param_len ≠ 0 then
      c.withConf { c.bq769x_conf with BalancingEnable := toBool01 (c.atoi_param 0) }
    else c
  c1.print_conf PrintParam.Conf_BalancingEnable

/-- Console::cmd_BalancingCellMin_mV. -/
def cmd_BalancingCellMin_mV (b : Build) (c : Console) : Console :=
  let c1 :=
    if c.param_len ≠ 0 then
      let t := s32 (c.atoi_param 0)
      if t > 0 then c.withConf { c.bq769x_conf with BalancingCellMin_mV := t }
      else c.write_help b.STR_cmd_BalancingCellMin_mV
    else c
  c1.print_conf PrintParam.Conf_BalancingCellMin_mV

/-- Console::cmd_BalancingCellMaxDifference_mV. -/
def cmd_BalancingCellMaxDifference_mV (b : Build) (c : Console) : Console :=
  let c1 :=
    if c.param_len ≠ 0 then
      let t := u8 (c.atoi_param 0)
      if t > 0 then c.withConf { c.bq769x_conf with BalancingCellMaxDifference_mV := t }
      else c.write_help b.STR_cmd_BalancingCellMaxDifference_mV
    else c
  c1.print_conf PrintParam.Conf_BalancingCellMaxDifference_mV

/-- Console::cmd_BalancingIdleTimeMin_s. -/
def cmd_BalancingIdleTimeMin_s (b : Build) (c : Console) : Console :=
  let c1 :=
    if c.param_len ≠ 0 then
      let t := u16 (c.atoi_param 0)
      if t > 0 then c.withConf { c.bq769x_conf with BalancingIdleTimeMin_s := t }
      else c.write_help b.STR_cmd_BalancingIdleTimeMin_s
    else c
  c1.print_conf PrintParam.Conf_BalancingIdleTimeMin_s

/-- Console::cmd_Cell_OCD_mA. -/
def cmd_Cell_OCD_mA (b : Build) (c : Console) : Console :=
  let c1 :=
    if c.param_len ≠ 0 then
      let t := s32 (c.atoi_param 0)
      if t > 0 then
        let c2 := c.withConf { c.bq769x_conf with Cell_OCD_mA := t }
        c2.emit (Event.bq (BqCall.setOvercurrentChargeProtection
          c2.bq769x_conf.Cell_OCD_mA c2.bq769x_conf.Cell_OCD_ms))
      else c.write_help b.STR_cmd_Cell_OCD_mA
    else c
  c1.print_conf PrintParam.Conf_Cell_OCD_mA

/-- Console::cmd_Cell_OCD_ms. -/
def cmd_Cell_OCD_ms (b : Build) (c : Console) : Console :=
  let c1 :=
    if c.param_len ≠ 0 then
      let t := u16 (c.atoi_param 0)
      if t > 0 then
        let c2 := c.withConf { c.bq769x_conf with Cell_OCD_ms := t }
        c2.emit (Event.bq (BqCall.setOvercurrentChargeProtection
          c2.bq769x_conf.Cell_OCD_mA c2.bq769x_conf.Cell_OCD_ms))
      else c.write_help b.STR_cmd_Cell_OCD_ms
    else c
  c1.print_conf PrintParam.Conf_Cell_OCD_ms

/-- Console::cmd_Cell_SCD_mA. -/
def cmd_Cell_SCD_mA (b : Build) (c : Console) : Console :=
  let c1 :=
    if c.param_len ≠ 0 then
      let t := u32 (c.atoi_param 0)
      if t > 0 then
        let c2 := c.withConf { c.bq769x_conf with Cell_SCD_mA := t }
        c2.emit (Event.bq (BqCall.setShortCircuitProtection
          c2.bq769x_conf.Cell_SCD_mA c2.bq769x_conf.Cell_SCD_us))
      else c.write_help b.STR_cmd_Cell_SCD_mA
    else c
  c1.print_conf PrintParam.Conf_Cell_SCD_mA

/-- Console::cmd_Cell_SCD_us. -/
def cmd_Cell_SCD_us (b : Build) (c : Console) : Console :=
  let c1 :=
    if c.param_len ≠ 0 then
      let t := u16 (c.atoi_param 0)
      if t > 0 then
        let c2 := c.withConf { c.bq769x_conf with Cell_SCD_us := t }
        c2.emit (Event.bq (BqCall.setShortCircuitProtection
          c2.bq769x_conf.Cell_SCD_mA c2.bq769x_conf.Cell_SCD_us))
      else c.write_help b.STR_cmd_Cell_SCD_us
    else c
  c1.print_conf PrintParam.Conf_Cell_SCD_us

/-- Console::cmd_Cell_ODP_mA. -/
def cmd_Cell_ODP_mA (b : Build) (c : Console) : Console :=
  let c1 :=
    if c.param_len ≠ 0 then
      let t := u32 (c.atoi_param 0)
      if t > 0 then
        let c2 := c.withConf { c.bq769x_conf with Cell_ODP_mA := t }
        c2.emit (Event.bq (BqCall.setOvercurrentDischargeProtection
          c2.bq769x_conf.Cell_ODP_mA c2.bq769x_conf.Cell_ODP_ms))
      else c.write_help b.STR_cmd_Cell_ODP_mA
    else c
  c1.print_conf PrintParam.Conf_Cell_ODP_mA

/-- Console::cmd_Cell_ODP_ms. -/
def cmd_Cell_ODP_ms (b : Build) (c : Console) : Console :=
  let c1 :=
    if c.param_len ≠ 0 then
      let t := u16 (c.atoi_param 0)
      if t > 0 then
        let c2 := c.withConf { c.bq769x_conf with Cell_ODP_ms := t }
        c2.emit (Event.bq (BqCall.setOvercurrentDischargeProtection
          c2.bq769x_conf.Cell_ODP_mA c2.bq769x_conf.Cell_ODP_ms))
      else c.write_help b.STR_cmd_Cell_ODP_ms
    else c
  c1.print_conf PrintParam.Conf_Cell_ODP_ms

/-- Console::cmd_Cell_OVP_mV. -/
def cmd_Cell_OVP_mV (b : Build) (c : Console) : Console :=
  let c1 :=
    if c.param_len ≠ 0 then
      let t := u16 (c.atoi_param 0)
      if t > c.bq769x_conf.Cell_UVP_mV then
        let c2 := c.withConf { c.bq769x_conf with Cell_OVP_mV := t }
        c2.emit (Event.bq (BqCall.setCellOvervoltageProtection
          c2.bq769x_conf.Cell_OVP_mV c2.bq769x_conf.Cell_OVP_sec))
      else c.write_help b.STR_cmd_Cell_OVP_mV
    else c
  c1.print_conf PrintParam.Conf_Cell_OVP_mV

/-- Console::cmd_Cell_OVP_sec. -/
def cmd_Cell_OVP_sec (_b : Build) (c : Console) : Console :=
  let c1 :=
    if c.param_len ≠ 0 then
      let c2 := c.withConf { c.bq769x_conf with Cell_OVP_sec := u16 (c.atoi_param 0) }
      c2.emit (Event.bq (BqCall.setCellOvervoltageProtection
        c2.bq769x_conf.Cell_OVP_mV c2.bq769x_conf.Cell_OVP_sec))
    else c
  c1.print_conf PrintParam.Conf_Cell_OVP_sec

/-- Console::cmd_Cell_UVP_mV. -/
def cmd_Cell_UVP_mV (b : Build) (c : Console) : Console :=
  let c1 :=
    if c.param_len ≠ 0 then
      let t := u16 (c.atoi_param 0)
      if t < c.bq769x_conf.Cell_OVP_mV then
        let c2 := c.withConf { c.bq769x_conf with Cell_UVP_mV := t }
        c2.emit (Event.bq (BqCall.setCellUndervoltageProtection
          c2.bq769x_conf.Cell_UVP_mV c2.bq769x_conf.Cell_UVP_sec))
      else c.write_help b.STR_cmd_Cell_UVP_mV
    else c
  c1.print_conf PrintParam.Conf_Cell_UVP_mV

/-- Console::cmd_Cell_UVP_sec. -/
def cmd_Cell_UVP_sec (_b : Build) (c : Console) : Console :=
  let c1 :=
    if c.param_len ≠ 0 then
      let c2 := c.withConf { c.bq769x_conf with Cell_UVP_sec := u16 (c.atoi_param 0) }
      c2.emit (Event.bq (BqCall.setCellUndervoltageProtection
        c2.bq769x_conf.Cell_UVP_mV c2.bq769x_conf.Cell_UVP_sec))
    else c
  c1.print_conf PrintParam.Conf_Cell_UVP_sec

/-! ## Commands without argument -/

/-- Console::cmd_conf_print. -/
def cmd_conf_print (c : Console) : Console := c.print_all_conf

/-- Console::cmd_stats_print. -/
def cmd_stats_print (c : Console) : Console := c.print_all_stats

/-- Console::cmd_stats_save. -/
def cmd_stats_save (c : Console) : Console := c.stats_save.emit (Event.msg Msg.stats_saved)

/-- Console::command_restore. -/
def command_restore (b : Build) (c : Console) : Console := (c.conf_default b).conf_begin_protect

/-- Console::command_save. -/
def command_save (c : Console) : Console := c.conf_save

/-- Console::command_print. -/
def command_print (c : Console) : Console := c.debug_print

/-- Console::command_bqregs. -/
def command_bqregs (c : Console) : Console := c.emit (Event.bq BqCall.printRegisters)

/-- Console::command_wdreset.  The forced restart is recorded; the state is
the one the restart finds. -/
def command_wdreset (c : Console) : Console := c.stats_save.emit Event.forceRestart

/-- Console::command_freemem. -/
def command_freemem (c : Console) : Console := c.emit Event.free_mem

/-- Console::command_shutdown. -/
def command_shutdown (c : Console) : Console :=
  (c.stats_save.emit (Event.msg Msg.shutdown_hlp)).emit (Event.bq BqCall.shutdown)

/-- The keywords in the order Console::command_help lists them. -/
def helpOrder (b : Build) : List (List Nat) :=
  [ b.STR_cmd_conf_print, b.STR_cmd_stats_print, b.STR_cmd_stats_save, b.STR_CMD_RESTORE,
    b.STR_CMD_SAVE, b.STR_CMD_BQREGS, b.STR_CMD_PRINT, b.STR_CMD_WDRESET, b.STR_CMD_BOOTLOADER,
    b.STR_CMD_FREEMEM, b.STR_CMD_EPFORMAT, b.STR_CMD_HELP, b.STR_CMD_SHUTDOWN,
    b.STR_cmd_Allow_Charging, b.STR_cmd_Allow_Discharging, b.STR_cmd_BQ_dbg, b.STR_cmd_RT_bits,
    b.STR_cmd_RS_uOhm, b.STR_cmd_RT_Beta, b.STR_cmd_Cell_CapaNom_mV, b.STR_cmd_Cell_CapaFull_mV,
    b.STR_cmd_Batt_CapaNom_mAsec, b.STR_cmd_CurrentThresholdIdle_mA,
    b.STR_cmd_Cell_TempCharge_min, b.STR_cmd_Cell_TempCharge_max,
    b.STR_cmd_Cell_TempDischarge_min, b.STR_cmd_Cell_TempDischarge_max,
    b.STR_cmd_BalancingInCharge, b.STR_cmd_BalancingEnable, b.STR_cmd_BalancingCellMin_mV,
    b.STR_cmd_BalancingCellMaxDifference_mV, b.STR_cmd_BalancingIdleTimeMin_s,
    b.STR_cmd_Cell_OCD_mA, b.STR_cmd_Cell_OCD_ms, b.STR_cmd_Cell_SCD_mA, b.STR_cmd_Cell_SCD_us,
    b.STR_cmd_Cell_ODP_mA, b.STR_cmd_Cell_ODP_ms, b.STR_cmd_Cell_OVP_mV, b.STR_cmd_Cell_OVP_sec,
    b.STR_cmd_Cell_UVP_mV, b.STR_cmd_Cell_UVP_sec ]

/-- Console::command_help. -/
def command_help (b : Build) (c : Console) : Console :=
  (helpOrder b).foldl write_help (c.emit (Event.msg Msg.available_commands))

/-- Console::command_bootloader.  The jump to the boot loader is recorded. -/
def command_bootloader (c : Console) : Console := c.emit Event.do_reboot

/-- The record whose bytes are all 0xff. -/
def conf_erased (r : bq769_conf) : bq769_conf :=
  { Allow_Charging := 0xff, Allow_Discharging := 0xff, BQ_dbg := 0xff, RT_bits := 0xff,
    RS_uOhm := 0xffffffff, RT_Beta := r.RT_Beta.map (fun _ => 0xffff),
    Cell_CapaNom_mV := 0xffff, Cell_CapaFull_mV := 0xffff, Batt_CapaNom_mAsec := -1,
    CurrentThresholdIdle_mA := 0xffffffff, Cell_TempCharge_min := -1,
    Cell_TempCharge_max := -1, Cell_TempDischarge_min := -1, Cell_TempDischarge_max := -1,
    BalancingInCharge := 0xff, BalancingEnable := 0xff, BalancingCellMin_mV := -1,
    BalancingCellMaxDifference_mV := 0xff, BalancingIdleTimeMin_s := 0xffff,
    Cell_OCD_mA := -1, Cell_OCD_ms := 0xffff, Cell_SCD_mA := 0xffffffff,
    Cell_SCD_us := 0xffff, Cell_ODP_mA := 0xffffffff, Cell_ODP_ms := 0xffff,
    Cell_OVP_mV := 0xffff, Cell_OVP_sec := 0xffff, Cell_UVP_mV := 0xffff,
    Cell_UVP_sec := 0xffff, adcCellsOffset_ := r.adcCellsOffset_.map (fun _ => -1),
    ts := 0xffffffff, crc8 := 0xff }

/-- The statistics record whose bytes are all 0xff. -/
def stats_erased (s : bq769_stats) : bq769_stats :=
  { adcGain_ := 0xffff, adcOffset_ := -1, batCycles_ := 0xffff, chargedTimes_ := 0xffff,
    idCellMinVoltage_ := 0xff, idCellMaxVoltage_ := 0xff, idleTimestamp_ := 0xffffffff,
    chargeTimestamp_ := 0xffffffff,
    errorCounter_ := s.errorCounter_.map (fun _ => 0xffff),
    errorTimestamps_ := s.errorTimestamps_.map (fun _ => 0xffffffff),
    cellIdMap_ := s.cellIdMap_.map (fun _ => 0xff),
    cellVoltages_ := s.cellVoltages_.map (fun _ => 0xffff),
    temperatures_ := s.temperatures_.map (fun _ => -1),
    ts := 0xffffffff, crc8 := 0xff }

/-- The actions of the loop of Console::command_format_EEMEM over the
addresses below `n`: the byte 0xff is written to the address, a dot is written
to the serial port and the watchdog is reset. -/
def format_events (n : Nat) : List Event :=
  (List.range n).flatMap
    (fun i => [Event.eeprom_write_byte i 0xff, Event.ser_write 0x2E, Event.wdt_reset])

/-- Console::command_format_EEMEM: every EEPROM byte from address 0 to E2END
becomes 0xff, and with it the two images. -/
def command_format_EEMEM (b : Build) (c : Console) : Console :=
  { c with In_EEPROM_conf := conf_erased c.In_EEPROM_conf,
           In_EEPROM_stats := stats_erased c.In_EEPROM_stats,
           trace := c.trace ++ format_events (b.E2END + 1) }

/-! ## Dispatcher -/

/-- The call `(this->*handler)()`.  The entry into the handler is recorded in
the trace before its body runs. -/
def invoke (b : Build) (h : Handler) (c : Console) : Console :=
  let c := c.emit (Event.handler h)
  match h with
  | .cmd_conf_print => c.cmd_conf_print
  | .cmd_stats_print => c.cmd_stats_print
  | .cmd_stats_save => c.cmd_stats_save
  | .command_restore => c.command_restore b
  | .command_save => c.command_save
  | .command_bqregs => c.command_bqregs
  | .command_print => c.command_print
  | .command_wdreset => c.command_wdreset
  | .command_bootloader => c.command_bootloader
  | .command_freemem => c.command_freemem
  | .command_format_EEMEM => c.command_format_EEMEM b
  | .command_help => c.command_help b
  | .command_shutdown => c.command_shutdown
  | .cmd_Allow_Charging => c.cmd_Allow_Charging b
  | .cmd_Allow_Discharging => c.cmd_Allow_Discharging b
  | .cmd_BQ_dbg => c.cmd_BQ_dbg b
  | .cmd_RT_bits => c.cmd_RT_bits b
  | .cmd_RS_uOhm => c.cmd_RS_uOhm b
  | .cmd_RT_Beta => c.cmd_RT_Beta b
  | .cmd_Cell_CapaNom_mV => c.cmd_Cell_CapaNom_mV b
  | .cmd_Cell_CapaFull_mV => c.cmd_Cell_CapaFull_mV b
  | .cmd_Batt_CapaNom_mAsec => c.cmd_Batt_CapaNom_mAsec b
  | .cmd_CurrentThresholdIdle_mA => c.cmd_CurrentThresholdIdle_mA b
  | .cmd_Cell_TempCharge_min => c.cmd_Cell_TempCharge_min b
  | .cmd_Cell_TempCharge_max => c.cmd_Cell_TempCharge_max b
  | .cmd_Cell_TempDischarge_min => c.cmd_Cell_TempDischarge_min b
  | .cmd_Cell_TempDischarge_max => c.cmd_Cell_TempDischarge_max b
  | .cmd_BalancingInCharge => c.cmd_BalancingInCharge b
  | .cmd_BalancingEnable => c.cmd_BalancingEnable b
  | .cmd_BalancingCellMin_mV => c.cmd_BalancingCellMin_mV b
  | .cmd_BalancingCellMaxDifference_mV => c.cmd_BalancingCellMaxDifference_mV b
  | .cmd_BalancingIdleTimeMin_s => c.cmd_BalancingIdleTimeMin_s b
  | .cmd_Cell_OCD_mA => c.cmd_Cell_OCD_mA b
  | .cmd_Cell_OCD_ms => c.cmd_Cell_OCD_ms b
  | .cmd_Cell_SCD_mA => c.cmd_Cell_SCD_mA b
  | .cmd_Cell_SCD_us => c.cmd_Cell_SCD_us b
  | .cmd_Cell_ODP_mA => c.cmd_Cell_ODP_mA b
  | .cmd_Cell_ODP_ms => c.cmd_Cell_ODP_ms b
  | .cmd_Cell_OVP_mV => c.cmd_Cell_OVP_mV b
  | .cmd_Cell_OVP_sec => c.cmd_Cell_OVP_sec b
  | .cmd_Cell_UVP_mV => c.cmd_Cell_UVP_mV b
  | .cmd_Cell_UVP_sec => c.cmd_Cell_UVP_sec b

/-- Console::compare_cmd. -/
def compare_cmd (b : Build) (name_P : List Nat) (handler : Handler) (c : Console) : Console :=
  let cmd_len := strlen_P name_P % 256
  if strncmp_P c.handle_buffer name_P cmd_len = 0 then
    let c1 :=
      if c.handle_len > cmd_len ∧ cget c.handle_buffer cmd_len = 32 then
        invoke b handler { c with param := some (c.handle_buffer.drop (cmd_len + 1)),
                                  param_len := (c.handle_len - cmd_len - 1) % 256 }
      else
        invoke b handler { c with param := none, param_len := 0 }
    { c1 with handle_result := true }
  else c

/-- The calls of compare_cmd in Console::handleCommand, in source order. -/
def registry (b : Build) : List (List Nat × Handler) :=
  [ (b.STR_cmd_conf_print, .cmd_conf_print),
    (b.STR_cmd_stats_print, .cmd_stats_print),
    (b.STR_cmd_stats_save, .cmd_stats_save),
    (b.STR_CMD_RESTORE, .command_restore),
    (b.STR_CMD_SAVE, .command_save),
    (b.STR_CMD_BQREGS, .command_bqregs),
    (b.STR_CMD_PRINT, .command_print),
    (b.STR_CMD_WDRESET, .command_wdreset),
    (b.STR_CMD_BOOTLOADER, .command_bootloader),
    (b.STR_CMD_FREEMEM, .command_freemem),
    (b.STR_CMD_EPFORMAT, .command_format_EEMEM),
    (b.STR_CMD_HELP, .command_help),
    (b.STR_CMD_SHUTDOWN, .command_shutdown),
    (b.STR_cmd_Allow_Charging, .cmd_Allow_Charging),
    (b.STR_cmd_Allow_Discharging, .cmd_Allow_Discharging),
    (b.STR_cmd_BQ_dbg, .cmd_BQ_dbg),
    (b.STR_cmd_RT_bits, .cmd_RT_bits),
    (b.STR_cmd_RS_uOhm, .cmd_RS_uOhm),
    (b.STR_cmd_RT_Beta, .cmd_RT_Beta),
    (b.STR_cmd_Cell_CapaNom_mV, .cmd_Cell_CapaNom_mV),
    (b.STR_cmd_Cell_CapaFull_mV, .cmd_Cell_CapaFull_mV),
    (b.STR_cmd_Batt_CapaNom_mAsec, .cmd_Batt_CapaNom_mAsec),
    (b.STR_cmd_CurrentThresholdIdle_mA, .cmd_CurrentThresholdIdle_mA),
    (b.STR_cmd_Cell_TempCharge_min, .cmd_Cell_TempCharge_min),
    (b.STR_cmd_Cell_TempCharge_max, .cmd_Cell_TempCharge_max),
    (b.STR_cmd_Cell_TempDischarge_min, .cmd_Cell_TempDischarge_min),
    (b.STR_cmd_Cell_TempDischarge_max, .cmd_Cell_TempDischarge_max),
    (b.STR_cmd_BalancingInCharge, .cmd_BalancingInCharge),
    (b.STR_cmd_BalancingEnable, .cmd_BalancingEnable),
    (b.STR_cmd_BalancingCellMin_mV, .cmd_BalancingCellMin_mV),
    (b.STR_cmd_BalancingCellMaxDifference_mV, .cmd_BalancingCellMaxDifference_mV),
    (b.STR_cmd_BalancingIdleTimeMin_s, .cmd_BalancingIdleTimeMin_s),
    (b.STR_cmd_Cell_OCD_mA, .cmd_Cell_OCD_mA),
    (b.STR_cmd_Cell_OCD_ms, .cmd_Cell_OCD_ms),
    (b.STR_cmd_Cell_SCD_mA, .cmd_Cell_SCD_mA),
    (b.STR_cmd_Cell_SCD_us, .cmd_Cell_SCD_us),
    (b.STR_cmd_Cell_ODP_mA, .cmd_Cell_ODP_mA),
    (b.STR_cmd_Cell_ODP_ms, .cmd_Cell_ODP_ms),
    (b.STR_cmd_Cell_OVP_mV, .cmd_Cell_OVP_mV),
    (b.STR_cmd_Cell_OVP_sec, .cmd_Cell_OVP_sec),
    (b.STR_cmd_Cell_UVP_mV, .cmd_Cell_UVP_mV),
    (b.STR_cmd_Cell_UVP_sec, .cmd_Cell_UVP_sec) ]

/-- The sequence of compare_cmd calls over a list of registry entries. -/
def compare_all (b : Build) : List (List Nat × Handler) → Console → Console
  | [], c => c
  | e :: es, c => compare_all b es (compare_cmd b e.1 e.2 c)

/-- Console::handleCommand; the second component is the returned bool. -/
def handleCommand (b : Build) (c : Console) (buffer : List Nat) (len : Nat) : Console × Bool :=
  if cget buffer 0 = 0 then (c, false)
  else
    let c1 := { c with handle_result := false, handle_buffer := buffer, handle_len := len }
    let c2 := compare_all b (registry b) c1
    let c3 := if ¬ c2.handle_result then c2.emit (Event.msg Msg.unknown_command) else c2
    (c3, c3.handle_result)

/-! ## Serial line editor -/

/-- The pre-decrement `--len` on a uint8_t. -/
def dec8 (n : Nat) : Nat := (n + 255) % 256

/-- The post-increment `len++` on a uint8_t. -/
def inc8 (n : Nat) : Nat := (n + 1) % 256

/-- The body of the while loop of Console::Recv, run over the pending bytes
`rx`: the loop ends when the input is exhausted or a line is finalized. -/
def recv_loop : List Nat → Console → Console
  | [], c => { c with ser_rx := [] }
  | ch :: rest, c =>
    let c1 := c.emit (Event.ser_write ch)
    let c2 := if ch = CR then c1.emit (Event.ser_write LF) else c1
    let c3 :=
      if ch = BackSpace ∨ ch = Delete then
        if c2.len ≠ 0 then { c2 with len := dec8 c2.len, buffer := c2.buffer.set (dec8 c2.len) 0 }
        else c2
      else
        if ch ≠ LF then { c2 with buffer := c2.buffer.set c2.len ch, len := inc8 c2.len }
        else c2
    if c3.len = CONS_BUFF ∨ ch = CR then
      { c3 with len := dec8 c3.len, buffer := c3.buffer.set (dec8 c3.len) 0,
                state := SerialState.CONSOLE_COMMAND, ser_rx := rest }
    else recv_loop rest c3

/-- Console::Recv; the second component is the returned bool. -/
def Recv (b : Build) (c : Console) : Console × Bool :=
  match c.state with
  | .CONSOLE_STARTUP => ({ c with state := SerialState.CONSOLE_ACCUMULATING }, false)
  | .CONSOLE_ACCUMULATING => (recv_loop c.ser_rx c, !c.ser_rx.isEmpty)
  | .CONSOLE_COMMAND =>
    let c1 := (handleCommand b c c.buffer c.len).1
    let c2 := c1.emit (Event.msg Msg.prompt)
    ({ c2 with len := 0, state := SerialState.CONSOLE_ACCUMULATING }, false)

/-! ## Supervisor -/

/-- A statement `if (cond) cout << text;`. -/
def say_if (c : Console) (cond : Bool) (m : Msg) : Console :=
  if cond then c.emit (Event.msg m) else c

/-- The body of `if (error & STAT_UV)` in Console::update: the notice, the
countdown, and the shutdown when the countdown reaches zero. -/
def update_undervoltage (c : Console) : Console :=
  let c1 := c.emit (Event.msg Msg.undervoltage)
  let c2 := { c1 with shd := dec8 c1.shd }
  if c2.shd = 0 then c2.command_shutdown else c2

/-- The two statements of Console::update that persist the statistics when a
lifetime counter differs from the value remembered. -/
def update_counters (c : Console) : Console :=
  let c1 :=
    if c.bq769x_stats.batCycles_ ≠ c.m_BatCycles_prev then
      stats_save { c with m_BatCycles_prev := c.bq769x_stats.batCycles_ }
    else c
  if c1.bq769x_stats.chargedTimes_ ≠ c1.m_ChargedTimes_prev then
    stats_save { c1 with m_ChargedTimes_prev := c1.bq769x_stats.chargedTimes_ }
  else c1

/-- The overflow accounting of Console::update. -/
def update_millis (now : Nat) (c : Console) : Console :=
  let c1 :=
    if c.m_oldMillis > now then
      { c with m_millisOverflows := (c.m_millisOverflows + 1) % 4294967296 }
    else c
  { c1 with m_oldMillis := now }

/-- The statements `job = 1; error = bq.update(); m_lastUpdate = now;` of
Console::update: the driver poll leaves the statistics record as `p.stats`. -/
def update_poll (c0 : Console) (now : Nat) (p : BqPoll) : Console :=
  let c1 := c0.emit (Event.job 1)
  let c2 := { c1 with bq769x_stats := p.stats, trace := c1.trace ++ [Event.bq BqCall.update] }
  { c2 with m_lastUpdate := now }

/-- The block of Console::update behind the cadence test, from `job = 1` to
`job = 0`; `p` is what the driver poll hands back. -/
def update_work (b : Build) (c0 : Console) (now : Nat) (p : BqPoll) : Console :=
  let error := p.error % 256
  let c3 := c0.update_poll now p
  let c4 := c3.say_if (error &&& b.STAT_OV != 0) Msg.overvoltage
  let c5 := if error &&& b.STAT_UV ≠ 0 then c4.update_undervoltage else c4
  let c6 := c5.say_if (error &&& b.STAT_SCD != 0) Msg.short_circuit
  let c7 := c6.say_if (error &&& b.STAT_OCD != 0) Msg.overcurrent_charge
  let c9 := c7.update_counters
  let bigDelta := u16 ((p.maxCellVoltage : Int) - (p.minCellVoltage : Int))
  let c10 := c9.say_if (decide (bigDelta > 100)) Msg.difference_too_big
  let c12 := c10.update_millis now
  c12.emit (Event.job 0)

/-- Console::update.  `p` is what the driver poll hands back if this call
reaches it; the second component is the returned bool. -/
def update (b : Build) (c : Console) (force : Bool) (p : BqPoll) : Console × Bool :=
  let c0 := { c with alertInterruptFlag_ := force }
  let now : Nat := c0.Timer_millis
  if u32 ((now : Int) - (c0.m_lastUpdate : Int)) ≥ 250 then
    (update_work b c0 now p, false)
  else (c0, force)

/-- The constructor Console::Console, on a machine whose EEPROM holds the two
given images and whose timer shows `millis`.  Members the constructor leaves
uninitialized (the line buffer, the argument view) start empty. -/
def new (b : Build) (ee_conf : bq769_conf) (ee_stats : bq769_stats) (millis : Nat)
    (rx : List Nat) : Console :=
  let c0 : Console :=
    { bq769x_conf := ee_conf, bq769x_stats := ee_stats, alertInterruptFlag_ := false,
      handle_result := false, param_len := 0, handle_len := 0, m_lastUpdate := 0,
      m_oldMillis := 0, m_millisOverflows := 0, len := 0, m_BatCycles_prev := 0,
      m_ChargedTimes_prev := 0, shd := 0, buffer := List.replicate CONS_BUFF 0,
      state := SerialState.CONSOLE_STARTUP, handle_buffer := [], param := none,
      In_EEPROM_conf := ee_conf, In_EEPROM_stats := ee_stats, millis := millis,
      ser_rx := rx, trace := [Event.msg Msg.banner] }
  let c1 := (c0.conf_load b).stats_load
  { c1 with m_BatCycles_prev := c1.bq769x_stats.batCycles_,
            m_ChargedTimes_prev := c1.bq769x_stats.chargedTimes_,
            shd := 255 }

end Console

/-! ## A concrete build -/

/-- The bytes of a text. -/
def bytes (s : String) : List Nat := s.toList.map Char.toNat

/-- Modelled from the spec: console_strings.h and devices/bq769x0.h are not
part of the sources at hand.  The keywords of the commands listed in the
command table of the spec (section 6) are the ones given there; the spec does
not spell the keywords of the remaining parameter commands, which stand here
under the name of their configuration field.  The fault bits are those of the
status byte of the bq769x0 (OCD, SCD, OV, UV from bit 0 upwards), the build is
the one for the BQ76940 with three thermistors, and the EEPROM is the one of
1024 bytes of the ATmega328P. -/
def specBuild : Build :=
  { STR_cmd_conf_print := bytes "conf"
    STR_cmd_stats_print := bytes "stats"
    STR_cmd_stats_save := bytes "stats_save"
    STR_CMD_RESTORE := bytes "restore"
    STR_CMD_SAVE := bytes "save"
    STR_CMD_BQREGS := bytes "bqregs"
    STR_CMD_PRINT := bytes "print"
    STR_CMD_WDRESET := bytes "wdreset"
    STR_CMD_BOOTLOADER := bytes "bootloader"
    STR_CMD_FREEMEM := bytes "freemem"
    STR_CMD_EPFORMAT := bytes "epformat"
    STR_CMD_HELP := bytes "help"
    STR_CMD_SHUTDOWN := bytes "shutdown"
    STR_cmd_Allow_Charging := bytes "charge"
    STR_cmd_Allow_Discharging := bytes "discharge"
    STR_cmd_BQ_dbg := bytes "BQ_dbg"
    STR_cmd_RT_bits := bytes "RT_bits"
    STR_cmd_RS_uOhm := bytes "RS_uOhm"
    STR_cmd_RT_Beta := bytes "RT_Beta"
    STR_cmd_Cell_CapaNom_mV := bytes "Cell_CapaNom_mV"
    STR_cmd_Cell_CapaFull_mV := bytes "Cell_CapaFull_mV"
    STR_cmd_Batt_CapaNom_mAsec := bytes "Batt_CapaNom_mAsec"
    STR_cmd_CurrentThresholdIdle_mA := bytes "CurrentThresholdIdle_mA"
    STR_cmd_Cell_TempCharge_min := bytes "Cell_TempCharge_min"
    STR_cmd_Cell_TempCharge_max := bytes "Cell_TempCharge_max"
    STR_cmd_Cell_TempDischarge_min := bytes "Cell_TempDischarge_min"
    STR_cmd_Cell_TempDischarge_max := bytes "Cell_TempDischarge_max"
    STR_cmd_BalancingInCharge := bytes "BalancingInCharge"
    STR_cmd_BalancingEnable := bytes "BalancingEnable"
    STR_cmd_BalancingCellMin_mV := bytes "BalancingCellMin_mV"
    STR_cmd_BalancingCellMaxDifference_mV := bytes "BalancingCellMaxDifference_mV"
    STR_cmd_BalancingIdleTimeMin_s := bytes "BalancingIdleTimeMin_s"
    STR_cmd_Cell_OCD_mA := bytes "Cell_OCD_mA"
    STR_cmd_Cell_OCD_ms := bytes "Cell_OCD_ms"
    STR_cmd_Cell_SCD_mA := bytes "Cell_SCD_mA"
    STR_cmd_Cell_SCD_us := bytes "Cell_SCD_us"
    STR_cmd_Cell_ODP_mA := bytes "Cell_ODP_mA"
    STR_cmd_Cell_ODP_ms := bytes "Cell_ODP_ms"
    STR_cmd_Cell_OVP_mV := bytes "Cell_OVP_mV"
    STR_cmd_Cell_OVP_sec := bytes "Cell_OVP_sec"
    STR_cmd_Cell_UVP_mV := bytes "Cell_UVP_mV"
    STR_cmd_Cell_UVP_sec := bytes "Cell_UVP_sec"
    E2END := 0x3FF
    BQ769X0_THERMISTORS := 7
    IC_BQ76940 := true
    STAT_OV := 0x04
    STAT_UV := 0x08
    STAT_SCD := 0x02
    STAT_OCD := 0x01 }

/-- A configuration image with room for three thermistors and fifteen cells,
all bytes zero. -/
def conf_blank : bq769_conf :=
  { Allow_Charging := 0, Allow_Discharging := 0, BQ_dbg := 0, RT_bits := 0, RS_uOhm := 0,
    RT_Beta := [0, 0, 0], Cell_CapaNom_mV := 0, Cell_CapaFull_mV := 0, Batt_CapaNom_mAsec := 0,
    CurrentThresholdIdle_mA := 0, Cell_TempCharge_min := 0, Cell_TempCharge_max := 0,
    Cell_TempDischarge_min := 0, Cell_TempDischarge_max := 0, BalancingInCharge := 0,
    BalancingEnable := 0, BalancingCellMin_mV := 0, BalancingCellMaxDifference_mV := 0,
    BalancingIdleTimeMin_s := 0, Cell_OCD_mA := 0, Cell_OCD_ms := 0, Cell_SCD_mA := 0,
    Cell_SCD_us := 0, Cell_ODP_mA := 0, Cell_ODP_ms := 0, Cell_OVP_mV := 0, Cell_OVP_sec := 0,
    Cell_UVP_mV := 0, Cell_UVP_sec := 0, adcCellsOffset_ := List.replicate 15 0,
    ts := 0, crc8 := 0xff }

/-- A statistics image of ten fault kinds, fifteen cells and three
thermistors, all bytes zero. -/
def stats_blank : bq769_stats :=
  { adcGain_ := 0, adcOffset_ := 0, batCycles_ := 0, chargedTimes_ := 0,
    idCellMinVoltage_ := 0, idCellMaxVoltage_ := 0, idleTimestamp_ := 0, chargeTimestamp_ := 0,
    errorCounter_ := List.replicate 10 0, errorTimestamps_ := List.replicate 10 0,
    cellIdMap_ := List.replicate 15 0, cellVoltages_ := List.replicate 15 0,
    temperatures_ := List.replicate 3 0, ts := 0, crc8 := 0xff }

/-- A console as the constructor leaves it on a machine with blank EEPROM
images: the configuration is restored to the defaults. -/
def console0 : Console := Console.new specBuild conf_blank stats_blank 0 []

/-! ## Notions used by the properties -/

/-- The cross-field rule of the voltage thresholds. -/
def uvp_lt_ovp (r : bq769_conf) : Prop := r.Cell_UVP_mV < r.Cell_OVP_mV

instance (r : bq769_conf) : Decidable (uvp_lt_ovp r) := by
  unfold uvp_lt_ovp; infer_instance

/-- Successive calls of handleCommand, one per finalized line (buffer and
length). -/
def run_lines (b : Build) (c : Console) : List (List Nat × Nat) → Console
  | [] => c
  | l :: ls => run_lines b (Console.handleCommand b c l.1 l.2).1 ls

/-- The console while the dispatcher runs a handler on the argument text
`arg`: the argument view compare_cmd leaves for `keyword arg`. -/
def with_arg (c : Console) (arg : String) : Console :=
  { c with param := some (bytes arg), param_len := (bytes arg).length }

/-- The handlers that get or set one configuration parameter. -/
def isSetter : Handler → Bool
  | .cmd_conf_print | .cmd_stats_print | .cmd_stats_save | .command_restore | .command_save
  | .command_bqregs | .command_print | .command_wdreset | .command_bootloader
  | .command_freemem | .command_format_EEMEM | .command_help | .command_shutdown => false
  | _ => true

/-- The handlers entered, in order, according to a trace. -/
def handlersOf : List Event → List Handler
  | [] => []
  | Event.handler h :: es => h :: handlersOf es
  | _ :: es => handlersOf es

/-- The driver operations performed, in order, according to a trace. -/
def bqCallsOf : List Event → List BqCall
  | [] => []
  | Event.bq k :: es => k :: bqCallsOf es
  | _ :: es => bqCallsOf es

/-- The usage hints printed, in order, according to a trace. -/
def helpsOf : List Event → List (List Nat)
  | [] => []
  | Event.write_help k :: es => k :: helpsOf es
  | _ :: es => helpsOf es

/-- The part of the trace of `c2` that was appended after `c1`. -/
def new_trace (c1 c2 : Console) : List Event := c2.trace.drop c1.trace.length

/-- The test compare_cmd makes before it calls the handler of keyword `kw` on
the line `line`. -/
def cmd_matches (line kw : List Nat) : Bool := strncmp_P line kw (strlen_P kw % 256) == 0

/-- The keywords of a build are pairwise different, shorter than 256 bytes and
free of spaces and terminators. -/
def keywords_ok (b : Build) : Prop :=
  ((Console.registry b).map Prod.fst).Nodup ∧
  ∀ e ∈ Console.registry b, e.1.length < 256 ∧ ∀ x ∈ e.1, x ≠ 0 ∧ x ≠ 32

instance (b : Build) : Decidable (keywords_ok b) := by
  unfold keywords_ok; infer_instance

/-- Every keyword the line starts with is followed, in the line, by the
terminator or by a space. -/
def delimited_line (b : Build) (line : List Nat) : Prop :=
  ∀ e ∈ Console.registry b, cmd_matches line e.1 = true →
    cget line (strlen_P e.1 % 256) = 0 ∨ cget line (strlen_P e.1 % 256) = 32

instance (b : Build) (line : List Nat) : Decidable (delimited_line b line) := by
  unfold delimited_line; infer_instance

/-- A freshly constructed console (blank EEPROM images) with the bytes `rx`
pending on the serial port. -/
def console_rx (rx : List Nat) : Console := Console.new specBuild conf_blank stats_blank 0 rx

/-- `n` successive calls of Console::Recv. -/
def recv_n (b : Build) : Nat → Console → Console
  | 0, c => c
  | n + 1, c => recv_n b n (Console.Recv b c).1

/-- One step of the reference line editor of the spec: a backspace or delete
byte removes the last kept character (nothing to remove on an empty line), a
line feed is dropped, every other byte is appended. -/
def refStep (kept : List Nat) (ch : Nat) : List Nat :=
  if ch = BackSpace ∨ ch = Delete then kept.dropLast
  else if ch = LF then kept
  else kept ++ [ch]

/-- The reference line editor of the spec: the bytes are processed from left
to right, starting from the empty line. -/
def refEdit (input : List Nat) : List Nat := input.foldl refStep []

/-- The line held in the buffer: its first `len` bytes. -/
def Console.line (c : Console) : List Nat := c.buffer.take c.len

/-- A byte that is neither an edit key nor a line end. -/
def ordinary (ch : Nat) : Prop := ch ≠ CR ∧ ch ≠ LF ∧ ch ≠ BackSpace ∧ ch ≠ Delete

instance (ch : Nat) : Decidable (ordinary ch) := by
  unfold ordinary; infer_instance

/-- One call of the supervisor by the main loop: the timer value at the call,
the force flag, and what the driver poll hands back. -/
structure Tick where
  millis : Nat
  force : Bool
  poll : BqPoll
  deriving DecidableEq, Repr

/-- The console after one call of Console::update. -/
def tick (b : Build) (c : Console) (t : Tick) : Console :=
  (Console.update b { c with millis := t.millis } t.force t.poll).1

/-- The console after successive calls of Console::update. -/
def run_ticks (b : Build) : Console → List Tick → Console
  | c, [] => c
  | c, t :: ts => run_ticks b (tick b c t) ts

/-- The call `t` of the supervisor passes the cadence test of Console::update
in state `c`. -/
def fires (c : Console) (t : Tick) : Bool :=
  decide (u32 (((t.millis % 4294967296 : Nat) : Int) - (c.m_lastUpdate : Int)) ≥ 250)

/-- Every call of the run passes the cadence test in the state it meets. -/
def all_fire (b : Build) : Console → List Tick → Bool
  | _, [] => true
  | c, t :: ts => fires c t && all_fire b (tick b c t) ts

/-- The fault byte of the poll carries the undervoltage bit. -/
def uv_flagged (b : Build) (t : Tick) : Prop := (t.poll.error % 256) &&& b.STAT_UV ≠ 0

instance (b : Build) (t : Tick) : Decidable (uv_flagged b t) := by
  unfold uv_flagged; infer_instance

/-- The shutdown sequence of Console::command_shutdown as it shows in a trace:
the statistics are written to the EEPROM, the notice is printed, the driver is
told to shut down. -/
def shutdown_seq : List Event :=
  [Event.eeprom_write_stats, Event.msg Msg.shutdown_hlp, Event.bq BqCall.shutdown]

/-- A step from `c` to `c2` that leaves the countdown and the time of the last
poll alone and only appends actions that are not driver operations. -/
def quiet_step (c c2 : Console) : Prop :=
  c2.shd = c.shd ∧ c2.m_lastUpdate = c.m_lastUpdate ∧
  ∃ evs, c2.trace = c.trace ++ evs ∧ bqCallsOf evs = []

/-- The poll of one supervisor call that reports undervoltage and statistics
unchanged since construction. -/
def uv_poll : BqPoll :=
  { error := 0x08, stats := console0.bq769x_stats, maxCellVoltage := 3000,
    minCellVoltage := 2800 }

/-- A run of `n` supervisor calls 250 ms apart after time `m`, each reporting
undervoltage. -/
def uv_run_from : Nat → Nat → List Tick
  | _, 0 => []
  | m, n + 1 => { millis := m + 250, force := false, poll := uv_poll } :: uv_run_from (m + 250) n

/-- A run of 255 supervisor calls 250 ms apart, each reporting undervoltage. -/
def uv_run : List Tick := uv_run_from 0 255

/-- The number of times the statistics record is written to the EEPROM,
according to a trace. -/
def statsWritesOf : List Event → Nat
  | [] => 0
  | Event.eeprom_write_stats :: es => statsWritesOf es + 1
  | _ :: es => statsWritesOf es

/-- The number of times the driver is told to shut down, according to a
trace. -/
def shutdownsOf : List Event → Nat
  | [] => 0
  | Event.bq BqCall.shutdown :: es => shutdownsOf es + 1
  | _ :: es => shutdownsOf es

/-- The cadence test of Console::update at the timer value the console
shows. -/
def gate_open (c : Console) : Prop :=
  250 ≤ u32 ((c.Timer_millis : Int) - (c.m_lastUpdate : Int))

instance (c : Console) : Decidable (gate_open c) := by
  unfold gate_open; infer_instance

/-- The driver was polled between `c` and `c2`. -/
def polled (c c2 : Console) : Prop := BqCall.update ∈ bqCallsOf (new_trace c c2)

instance (c c2 : Console) : Decidable (polled c c2) := by
  unfold polled; infer_instance

/-- The actions Console::update appends when it passes the cadence test in
state `c0` and the poll hands back `p`. -/
def work_events (b : Build) (c0 : Console) (p : BqPoll) : List Event :=
  [Event.job 1, Event.bq BqCall.update]
  ++ (if p.error % 256 &&& b.STAT_OV ≠ 0 then [Event.msg Msg.overvoltage] else [])
  ++ (if p.error % 256 &&& b.STAT_UV ≠ 0 then
        Event.msg Msg.undervoltage :: (if Console.dec8 c0.shd = 0 then shutdown_seq else [])
      else [])
  ++ (if p.error % 256 &&& b.STAT_SCD ≠ 0 then [Event.msg Msg.short_circuit] else [])
  ++ (if p.error % 256 &&& b.STAT_OCD ≠ 0 then [Event.msg Msg.overcurrent_charge] else [])
  ++ (if p.stats.batCycles_ ≠ c0.m_BatCycles_prev then [Event.eeprom_write_stats] else [])
  ++ (if p.stats.chargedTimes_ ≠ c0.m_ChargedTimes_prev then [Event.eeprom_write_stats]
      else [])
  ++ (if u16 ((p.maxCellVoltage : Int) - (p.minCellVoltage : Int)) > 100 then
        [Event.msg Msg.difference_too_big]
      else [])
  ++ [Event.job 0]

/-- The call `t` passes the cadence test in state `c` and carries the
undervoltage bit. -/
def fired_uv (b : Build) (c : Console) (t : Tick) : Bool :=
  fires c t && decide (uv_flagged b t)

/-- The number of calls of a run that pass the cadence test in the state they
meet and carry the undervoltage bit. -/
def count_fired_uv (b : Build) : Console → List Tick → Nat
  | _, [] => 0
  | c, t :: ts => (if fired_uv b c t then 1 else 0) + count_fired_uv b (tick b c t) ts

/-- The poll of one supervisor call that reports no fault and statistics
unchanged since construction. -/
def quiet_poll : BqPoll :=
  { error := 0, stats := console0.bq769x_stats, maxCellVoltage := 3000,
    minCellVoltage := 2950 }

/-- A console whose last poll happened 100 ms before the 32 bit timer wraps
and whose timer now shows 200: 300 ms have elapsed across the wrap. -/
def console_wrap : Console :=
  { (tick specBuild console0 { millis := 4294967196, force := false, poll := quiet_poll }) with
    millis := 200 }

/-- A freshly constructed console 100 ms after start: fewer than 250 ms since
the time of the last poll. -/
def console_early : Console := { console0 with millis := 100 }

/-- A freshly constructed console 250 ms after start. -/
def console_due : Console := { console0 with millis := 250 }

/-- A supervisor call at time 63750 whose poll reports no fault. -/
def c11_quiet_tick : Tick := { millis := 63750, force := false, poll := quiet_poll }

/-- A supervisor call at time 64000 whose poll reports undervoltage. -/
def c11_uv_tick : Tick := { millis := 64000, force := false, poll := uv_poll }

/-- 254 supervisor calls 250 ms apart that report undervoltage, then one call
that reports no fault. -/
def c11_run : List Tick := uv_run_from 0 254 ++ [c11_quiet_tick]

/-- The console of console0 after one field of each stored image was changed
behind its back: the stored checksums are those of the old contents. -/
def console_corrupt : Console :=
  { console0 with
    In_EEPROM_conf := { console0.In_EEPROM_conf with Cell_OVP_mV := 4201 }
    In_EEPROM_stats := { console0.In_EEPROM_stats with batCycles_ := 7 } }

/-- ASCII text of a list of decimal digits (most significant first). -/
def digits_text (ds : List Nat) : List Nat := ds.map (· + 48)

/-- The number a list of decimal digits (most significant first) denotes. -/
def decimal_value (ds : List Nat) : Nat := ds.foldl (fun a d => a * 10 + d) 0

/-- The argument view compare_cmd leaves for a line `keyword s`: `param`
points at the text `s`, which the terminator of the line follows, and
`param_len` is its length. -/
def arg_text (c : Console) (s : List Nat) : Prop :=
  c.param_len = s.length ∧ (c.param.getD []).take s.length = s ∧
    cget (c.param.getD []) s.length = 0

instance (c : Console) (s : List Nat) : Decidable (arg_text c s) := by
  unfold arg_text; infer_instance

/-- The poll of one supervisor call that reports overvoltage, short circuit
and overcurrent together, but no undervoltage, and statistics unchanged since
construction. -/
def faults_poll : BqPoll :=
  { error := 0x07, stats := console0.bq769x_stats, maxCellVoltage := 4300,
    minCellVoltage := 2950 }

/-- A supervisor call at time 250 whose poll reports every fault but
undervoltage. -/
def faults_tick : Tick := { millis := 250, force := false, poll := faults_poll }

/-- The poll of one supervisor call that reports no fault and one battery
cycle more than at construction. -/
def cycle_poll : BqPoll :=
  { error := 0, stats := { console0.bq769x_stats with batCycles_ := 1 },
    maxCellVoltage := 3000, minCellVoltage := 2950 }

/-- A supervisor call at time 250 after which the cycle counter reads 1. -/
def cycle_tick : Tick := { millis := 250, force := false, poll := cycle_poll }

/-- The uptime Console::debug_print prints, according to the trace it
appends. -/
def uptimesOf : List Event → List Nat
  | [] => []
  | Event.debug_print u :: es => u :: uptimesOf es
  | _ :: es => uptimesOf es

/-- A console whose last poll happened at timer value 4294967196, 100 ms
before the 32 bit timer wraps. -/
def console_before_wrap : Console :=
  tick specBuild console0 { millis := 4294967196, force := false, poll := quiet_poll }

/-- The supervisor call 300 ms later, when the timer has wrapped and shows
200. -/
def wrap_tick : Tick := { millis := 4294967496, force := false, poll := quiet_poll }

/-- One event of a run of the system as far as the uptime goes: a call of
Console::update, or a call of Console::debug_print at the time `millis` (the
time since start in milliseconds; the 32 bit timer shows it modulo 2^32). -/
inductive Step
  | tick (t : Tick)
  | print (millis : Nat)
  deriving DecidableEq, Repr

/-- The time of a step. -/
def Step.time : Step → Nat
  | .tick t => t.millis
  | .print m => m

/-- The console after one step. -/
def step (b : Build) (c : Console) : Step → Console
  | .tick t => tick b c t
  | .print m => Console.debug_print { c with millis := m }

/-- The console after successive steps. -/
def run_steps (b : Build) : Console → List Step → Console
  | c, [] => c
  | c, s :: ss => run_steps b (step b c s) ss

/-- The uptime in seconds at the time `T` in milliseconds, the way the code
counts it: 4294967 for each full period of the 32 bit timer and the thousands
of the rest. -/
def uptime_of (T : Nat) : Nat := T / 4294967296 * 4294967 + T % 4294967296 / 1000

/-- A run in which the overflow accounting keeps up with the timer: times do
not go back (`L` is the time of the step before), a supervisor call that
passes the cadence test comes less than one timer period after the last one
that did (`A` is its time), and Console::debug_print runs in the timer period
of the last supervisor call that passed the cadence test. -/
def steady (b : Build) : Console → Nat → Nat → List Step → Prop
  | _, _, _, [] => True
  | c, A, L, Step.print m :: rest =>
      L ≤ m ∧ m / 4294967296 = A / 4294967296 ∧ steady b (step b c (Step.print m)) A m rest
  | c, A, L, Step.tick t :: rest =>
      L ≤ t.millis ∧ (fires c t = true → t.millis < A + 4294967296) ∧
        steady b (tick b c t) (if fires c t then t.millis else A) t.millis rest

/-- A run over the wrap of the timer: a poll 96 ms before the wrap, a reading
of the uptime, then 146 ms later (the timer shows 50) a supervisor call and a
second reading. -/
def c21_run : List Step :=
  [ Step.tick { millis := 4294967200, force := false, poll := quiet_poll },
    Step.print 4294967200,
    Step.tick { millis := 4294967346, force := false, poll := quiet_poll },
    Step.print 4294967346 ]

/-- Whether a run is steady can be computed. -/
def steady_dec (b : Build) :
    ∀ (ss : List Step) (c : Console) (A L : Nat), Decidable (steady b c A L ss)
  | [], _, _, _ => isTrue trivial
  | Step.print m :: rest, c, A, L =>
      have := steady_dec b rest (step b c (Step.print m)) A m
      inferInstanceAs (Decidable (L ≤ m ∧ m / 4294967296 = A / 4294967296 ∧
        steady b (step b c (Step.print m)) A m rest))
  | Step.tick t :: rest, c, A, L =>
      have := steady_dec b rest (tick b c t) (if fires c t then t.millis else A) t.millis
      inferInstanceAs (Decidable (L ≤ t.millis ∧
        (fires c t = true → t.millis < A + 4294967296) ∧
        steady b (tick b c t) (if fires c t then t.millis else A) t.millis rest))

instance (b : Build) (c : Console) (A L : Nat) (ss : List Step) :
    Decidable (steady b c A L ss) := steady_dec b ss c A L

/-- A run over the wrap of the timer in which the supervisor call after the
wrap passes the cadence test: a poll 96 ms before the wrap, a reading, a poll
296 ms later (the timer shows 200), a reading, and a reading 1.8 s later. -/
def c21_steady_run : List Step :=
  [ Step.tick { millis := 4294967200, force := false, poll := quiet_poll },
    Step.print 4294967200,
    Step.tick { millis := 4294967496, force := false, poll := quiet_poll },
    Step.print 4294967496,
    Step.print 4294969296 ]

/-- The supervisor call number `k` of a run with one call every 4294966296
ms, one second less than the period of the 32 bit timer. -/
def wrap_tick_at (k : Nat) : Tick :=
  { millis := k * 4294966296, force := false, poll := quiet_poll }

/-- The first `n` supervisor calls of that run. -/
def wrap_run : Nat → List Tick
  | 0 => []
  | n + 1 => wrap_run n ++ [wrap_tick_at (n + 1)]

/-- A run of 1001 such supervisor calls with a reading of the uptime right
after the 1000th and right after the 1001st call. -/
def c21_long_run : List Step :=
  (wrap_run 1000).map Step.tick ++
    [Step.print (1000 * 4294966296), Step.tick (wrap_tick_at 1001),
     Step.print (1001 * 4294966296)]

/-- A console whose configuration was changed by the operator: overvoltage
threshold 4100 mV, thermistor coefficients 3000, 3100 and 3200. -/
def console_custom : Console :=
  { console0 with
    bq769x_conf := { console0.bq769x_conf with
      Cell_OVP_mV := 4100
      RT_Beta := [3000, 3100, 3200] } }

/-- The console while Console::handleCommand compares the line `line` with
the keywords. -/
def console_line (line : String) : Console :=
  { console0 with
    handle_result := false
    handle_buffer := bytes line
    handle_len := (bytes line).length }

/-- A setter that tests its parsed value for positivity: the function, its
keyword, the parameter it prints, the conversion of the atoi result to the
type of the local variable of the setter (uint32_t, int32_t, uint16_t or
uint8_t), and the field it assigns. -/
structure PositivitySetter where
  run : Console → Console
  keyword : List Nat
  shown : PrintParam
  conv : Int → Int
  field : bq769_conf → Int

/-- The setters of console.cc that test the parsed value for positivity, each
with the type of its local variable. -/
def positivity_setters (b : Build) : List PositivitySetter :=
  [ { run := Console.cmd_RS_uOhm b, keyword := b.STR_cmd_RS_uOhm,
      shown := PrintParam.Conf_RS_uOhm,
      conv := fun v => (u32 v : Int), field := fun r => (r.RS_uOhm : Int) },
    { run := Console.cmd_CurrentThresholdIdle_mA b, keyword := b.STR_cmd_CurrentThresholdIdle_mA,
      shown := PrintParam.Conf_CurrentThresholdIdle_mA,
      conv := fun v => (u32 v : Int), field := fun r => (r.CurrentThresholdIdle_mA : Int) },
    { run := Console.cmd_BalancingCellMin_mV b, keyword := b.STR_cmd_BalancingCellMin_mV,
      shown := PrintParam.Conf_BalancingCellMin_mV,
      conv := s32, field := fun r => r.BalancingCellMin_mV },
    { run := Console.cmd_BalancingCellMaxDifference_mV b,
      keyword := b.STR_cmd_BalancingCellMaxDifference_mV,
      shown := PrintParam.Conf_BalancingCellMaxDifference_mV,
      conv := fun v => (u8 v : Int), field := fun r => (r.BalancingCellMaxDifference_mV : Int) },
    { run := Console.cmd_BalancingIdleTimeMin_s b, keyword := b.STR_cmd_BalancingIdleTimeMin_s,
      shown := PrintParam.Conf_BalancingIdleTimeMin_s,
      conv := fun v => (u16 v : Int), field := fun r => (r.BalancingIdleTimeMin_s : Int) },
    { run := Console.cmd_Cell_OCD_mA b, keyword := b.STR_cmd_Cell_OCD_mA,
      shown := PrintParam.Conf_Cell_OCD_mA,
      conv := s32, field := fun r => r.Cell_OCD_mA },
    { run := Console.cmd_Cell_OCD_ms b, keyword := b.STR_cmd_Cell_OCD_ms,
      shown := PrintParam.Conf_Cell_OCD_ms,
      conv := fun v => (u16 v : Int), field := fun r => (r.Cell_OCD_ms : Int) },
    { run := Console.cmd_Cell_SCD_mA b, keyword := b.STR_cmd_Cell_SCD_mA,
      shown := PrintParam.Conf_Cell_SCD_mA,
      conv := fun v => (u32 v : Int), field := fun r => (r.Cell_SCD_mA : Int) },
    { run := Console.cmd_Cell_SCD_us b, keyword := b.STR_cmd_Cell_SCD_us,
      shown := PrintParam.Conf_Cell_SCD_us,
      conv := fun v => (u16 v : Int), field := fun r => (r.Cell_SCD_us : Int) },
    { run := Console.cmd_Cell_ODP_mA b, keyword := b.STR_cmd_Cell_ODP_mA,
      shown := PrintParam.Conf_Cell_ODP_mA,
      conv := fun v => (u32 v : Int), field := fun r => (r.Cell_ODP_mA : Int) },
    { run := Console.cmd_Cell_ODP_ms b, keyword := b.STR_cmd_Cell_ODP_ms,
      shown := PrintParam.Conf_Cell_ODP_ms,
      conv := fun v => (u16 v : Int), field := fun r => (r.Cell_ODP_ms : Int) } ]

/-- The test Console::conf_load and Console::stats_load make, on the bytes of
the image: the last byte equals gencrc8 of the bytes before it. -/
def crc_ok (img : List Nat) : Prop :=
  img.getLast? = some (gencrc8 img (img.length - 1))

instance (img : List Nat) : Decidable (crc_ok img) := by
  unfold crc_ok; infer_instance

/-- One step back of the CRC-8 shift register: the inverse of crc8_shift on
bytes. -/
def crc8_unshift (data : Nat) : Nat :=
  if data &&& 1 ≠ 0 then ((data ^^^ 0x07) >>> 1) ||| 0x80 else data >>> 1

/-- The configuration image console0 saves, read back after the low byte of
the overvoltage threshold (offset 61) was changed from 104 to 105. -/
def conf_one_byte_off : bq769_conf :=
  { console0.conf_save.In_EEPROM_conf with Cell_OVP_mV := 4201 }

/-- The statistics image console0 saves, read back after the low byte of the
cycle counter (offset 3) was changed from 0 to 7. -/
def stats_one_byte_off : bq769_stats :=
  { console0.stats_save.In_EEPROM_stats with batCycles_ := 7 }

/-- The ordering of the temperature limits: minimum below maximum, for
charging and for discharging. -/
def temp_ordered (r : bq769_conf) : Prop :=
  r.Cell_TempCharge_min < r.Cell_TempCharge_max ∧
  r.Cell_TempDischarge_min < r.Cell_TempDischarge_max

instance (r : bq769_conf) : Decidable (temp_ordered r) := by
  unfold temp_ordered; infer_instance

/-- The parameter a configuration-parameter command prints: the argument of
the call of print_conf that ends its handler. -/
def shown_param : Handler → Option PrintParam
  | .cmd_Allow_Charging => some .Conf_Allow_Charging
  | .cmd_Allow_Discharging => some .Conf_Allow_Discharging
  | .cmd_BQ_dbg => some .Conf_BQ_dbg
  | .cmd_RT_bits => some .Conf_RT_bits
  | .cmd_RS_uOhm => some .Conf_RS_uOhm
  | .cmd_RT_Beta => some .Conf_RT_Beta
  | .cmd_Cell_CapaNom_mV => some .Conf_Cell_CapaNom_mV
  | .cmd_Cell_CapaFull_mV => some .Conf_Cell_CapaFull_mV
  | .cmd_Batt_CapaNom_mAsec => some .Conf_Batt_CapaNom_mAsec
  | .cmd_CurrentThresholdIdle_mA => some .Conf_CurrentThresholdIdle_mA
  | .cmd_Cell_TempCharge_min => some .Conf_Cell_TempCharge_min
  | .cmd_Cell_TempCharge_max => some .Conf_Cell_TempCharge_max
  | .cmd_Cell_TempDischarge_min => some .Conf_Cell_TempDischarge_min
  | .cmd_Cell_TempDischarge_max => some .Conf_Cell_TempDischarge_max
  | .cmd_BalancingInCharge => some .Conf_BalancingInCharge
  | .cmd_BalancingEnable => some .Conf_BalancingEnable
  | .cmd_BalancingCellMin_mV => some .Conf_BalancingCellMin_mV
  | .cmd_BalancingCellMaxDifference_mV => some .Conf_BalancingCellMaxDifference_mV
  | .cmd_BalancingIdleTimeMin_s => some .Conf_BalancingIdleTimeMin_s
  | .cmd_Cell_OCD_mA => some .Conf_Cell_OCD_mA
  | .cmd_Cell_OCD_ms => some .Conf_Cell_OCD_ms
  | .cmd_Cell_SCD_mA => some .Conf_Cell_SCD_mA
  | .cmd_Cell_SCD_us => some .Conf_Cell_SCD_us
  | .cmd_Cell_ODP_mA => some .Conf_Cell_ODP_mA
  | .cmd_Cell_ODP_ms => some .Conf_Cell_ODP_ms
  | .cmd_Cell_OVP_mV => some .Conf_Cell_OVP_mV
  | .cmd_Cell_OVP_sec => some .Conf_Cell_OVP_sec
  | .cmd_Cell_UVP_mV => some .Conf_Cell_UVP_mV
  | .cmd_Cell_UVP_sec => some .Conf_Cell_UVP_sec
  | _ => none

/-- The bound of the line buffer: the length is at most CONS_BUFF - 1 and the
array has its CONS_BUFF bytes. -/
def len_ok (c : Console) : Prop := c.len ≤ CONS_BUFF - 1 ∧ c.buffer.length = CONS_BUFF

instance (c : Console) : Decidable (len_ok c) := by
  unfold len_ok; infer_instance

/-- The first part of one iteration of the byte loop of Console::Recv, up to
the test that ends the line: echo, then erase or append. -/
def recv_body (ch : Nat) (c : Console) : Console :=
  let c1 := c.emit (Event.ser_write ch)
  let c2 := if ch = CR then c1.emit (Event.ser_write LF) else c1
  if ch = BackSpace ∨ ch = Delete then
    if c2.len ≠ 0 then { c2 with len := Console.dec8 c2.len,
                                 buffer := c2.buffer.set (Console.dec8 c2.len) 0 }
    else c2
  else
    if ch ≠ LF then { c2 with buffer := c2.buffer.set c2.len ch, len := Console.inc8 c2.len }
    else c2

/-- The test `len == CONS_BUFF || ch == CR` that ends the line, after the byte
`ch` was processed in state `c`. -/
def finalizes (ch : Nat) (c : Console) : Prop := (recv_body ch c).len = CONS_BUFF ∨ ch = CR

instance (ch : Nat) (c : Console) : Decidable (finalizes ch c) := by
  unfold finalizes; infer_instance

/-- The indices of `buffer` one iteration of the byte loop writes to, in
order: `buffer[--len]` of the erase or `buffer[len++]` of the append, then
`buffer[--len]` of the terminator when the line ends. -/
def recv_writes (ch : Nat) (c : Console) : List Nat :=
  (if ch = BackSpace ∨ ch = Delete then (if c.len ≠ 0 then [Console.dec8 c.len] else [])
   else (if ch ≠ LF then [c.len] else []))
  ++ (if finalizes ch c then [Console.dec8 (recv_body ch c).len] else [])

/-- The iterations of the byte loop of Console::Recv over the pending bytes:
each byte read, with the state at the start of its iteration. -/
def recv_iters : List Nat → Console → List (Nat × Console)
  | [], _ => []
  | ch :: rest, c =>
    (ch, c) :: (if finalizes ch c then [] else recv_iters rest (recv_body ch c))

/-- What happens to the console between two moments: the main loop calls
Console::Recv or Console::update, or bytes arrive on the serial port. -/
inductive Op
  | recv
  | tick (t : Tick)
  | arrive (bytes : List Nat)
  deriving DecidableEq, Repr

/-- The console after one such event. -/
def op_step (b : Build) (c : Console) : Op → Console
  | .recv => (Console.Recv b c).1
  | .tick t => tick b c t
  | .arrive bytes => { c with ser_rx := c.ser_rx ++ bytes }

/-- The console after successive events. -/
def run_ops (b : Build) : Console → List Op → Console
  | c, [] => c
  | c, o :: os => run_ops b (op_step b c o) os

/-- A freshly constructed console after its first call of Console::Recv, with
the bytes of `hi`, a backspace, `o` and a carriage return pending. -/
def console_typing : Console :=
  run_ops specBuild (Console.new specBuild conf_blank stats_blank 0 [104, 105, 8, 111, 13])
    [Op.recv]

/-- The bytes that arrive on the serial port during the events `ops`, in
their order of arrival. -/
def arrived : List Op → List Nat
  | [] => []
  | Op.recv :: os => arrived os
  | Op.tick _ :: os => arrived os
  | Op.arrive bytes :: os => bytes ++ arrived os

/-- A console in the Accumulating state with the byte `h` pending. -/
def console_h : Console := recv_n specBuild 1 (console_rx [104])

/-- The bytes `e`, backspace, `e` reach the console in two arrivals, each
followed by a call of Console::Recv, with a call of Console::update in
between. -/
def typing_ops : List Op :=
  [Op.arrive [101], Op.recv, Op.tick cycle_tick, Op.arrive [8, 101], Op.recv]

/-- A console in the Accumulating state with 60 bytes `a` pending. -/
def console_60 : Console := recv_n specBuild 1 (console_rx (List.replicate 60 97))

/-- A call of Console::Recv, the arrival of 30 more bytes `a`, and a second
call of Console::Recv. -/
def overflow_ops : List Op := [Op.recv, Op.arrive (List.replicate 30 97), Op.recv]

end protocol

/-! # Properties -/

namespace protocol

open Console

/-! ## Shape of the handlers -/

theorem foldl_emit {α : Type} (f : α → Event) (l : List α) (c : Console) :
    l.foldl (fun c x => c.emit (f x)) c = { c with trace := c.trace ++ l.map f } := by
  induction l generalizing c with
  | nil => simp
  | cons x xs ih => rw [List.foldl_cons, ih]; simp [Console.emit]

theorem print_all_conf_eq (c : Console) :
    c.print_all_conf = { c with trace := c.trace ++ allPrintParams.map Event.print_conf } := by
  unfold print_all_conf
  exact foldl_emit Event.print_conf allPrintParams c

theorem command_help_eq (b : Build) (c : Console) :
    c.command_help b = { c with trace := c.trace ++
      (Event.msg Msg.available_commands :: (helpOrder b).map Event.write_help) } := by
  unfold command_help
  have := foldl_emit Event.write_help (helpOrder b) (c.emit (Event.msg Msg.available_commands))
  simpa [Console.write_help, Console.emit] using this

/-! ## Voltage thresholds -/

/-- C1: the undervoltage setter rejects every parsed value at or above the
current overvoltage threshold, and the overvoltage setter every parsed value
at or below the current undervoltage threshold; a rejected value leaves the
whole configuration record (both thresholds included) as it was, and with a
non-empty argument the only output is the usage hint and the parameter. -/
theorem C1_cross_field_reject (b : Build) (c : Console) :
    (c.bq769x_conf.Cell_OVP_mV ≤ u16 (c.atoi_param 0) →
      (c.cmd_Cell_UVP_mV b).bq769x_conf = c.bq769x_conf ∧
      (c.param_len ≠ 0 → (c.cmd_Cell_UVP_mV b).trace = c.trace ++
        [Event.write_help b.STR_cmd_Cell_UVP_mV, Event.print_conf .Conf_Cell_UVP_mV])) ∧
    (u16 (c.atoi_param 0) ≤ c.bq769x_conf.Cell_UVP_mV →
      (c.cmd_Cell_OVP_mV b).bq769x_conf = c.bq769x_conf ∧
      (c.param_len ≠ 0 → (c.cmd_Cell_OVP_mV b).trace = c.trace ++
        [Event.write_help b.STR_cmd_Cell_OVP_mV, Event.print_conf .Conf_Cell_OVP_mV])) := by
  constructor
  · intro h
    have h2 : ¬ u16 (c.atoi_param 0) < c.bq769x_conf.Cell_OVP_mV := by omega
    constructor
    · simp only [cmd_Cell_UVP_mV, h2, if_false, write_help, print_conf, Console.emit]
      split_ifs <;> rfl
    · intro hp
      simp [cmd_Cell_UVP_mV, h2, hp, write_help, print_conf, Console.emit]
  · intro h
    have h2 : ¬ u16 (c.atoi_param 0) > c.bq769x_conf.Cell_UVP_mV := by omega
    constructor
    · simp only [cmd_Cell_OVP_mV, h2, if_false, write_help, print_conf, Console.emit]
      split_ifs <;> rfl
    · intro hp
      simp [cmd_Cell_OVP_mV, h2, hp, write_help, print_conf, Console.emit]

/-- Witness of C1: on the default thresholds (2850 and 4200) the undervoltage
setter rejects "4200" and the overvoltage setter rejects "2850". -/
theorem C1_cross_field_reject_witness :
    ((with_arg console0 "4200").cmd_Cell_UVP_mV specBuild).bq769x_conf =
      (with_arg console0 "4200").bq769x_conf ∧
    ((with_arg console0 "2850").cmd_Cell_OVP_mV specBuild).bq769x_conf =
      (with_arg console0 "2850").bq769x_conf :=
  ⟨((C1_cross_field_reject specBuild (with_arg console0 "4200")).1 (by decide!)).1,
   ((C1_cross_field_reject specBuild (with_arg console0 "2850")).2 (by decide!)).1⟩

set_option maxHeartbeats 4000000 in
theorem invoke_uvp_lt_ovp (b : Build) (h : Handler) (c : Console)
    (hi : c.bq769x_conf.Cell_UVP_mV < c.bq769x_conf.Cell_OVP_mV) :
    (invoke b h c).bq769x_conf.Cell_UVP_mV < (invoke b h c).bq769x_conf.Cell_OVP_mV := by
  cases h <;>
    simp only [invoke, print_all_conf_eq, command_help_eq, cmd_conf_print, cmd_stats_print,
      cmd_stats_save, command_restore, command_save, command_bqregs, command_print,
      command_wdreset, command_bootloader, command_freemem, command_format_EEMEM,
      command_shutdown, cmd_Allow_Charging, cmd_Allow_Discharging, cmd_BQ_dbg, cmd_RT_bits,
      cmd_RS_uOhm, cmd_RT_Beta, cmd_Cell_CapaNom_mV, cmd_Cell_CapaFull_mV,
      cmd_Batt_CapaNom_mAsec, cmd_CurrentThresholdIdle_mA, cmd_Cell_TempCharge_min,
      cmd_Cell_TempCharge_max, cmd_Cell_TempDischarge_min, cmd_Cell_TempDischarge_max,
      cmd_BalancingInCharge, cmd_BalancingEnable, cmd_BalancingCellMin_mV,
      cmd_BalancingCellMaxDifference_mV, cmd_BalancingIdleTimeMin_s, cmd_Cell_OCD_mA,
      cmd_Cell_OCD_ms, cmd_Cell_SCD_mA, cmd_Cell_SCD_us, cmd_Cell_ODP_mA, cmd_Cell_ODP_ms,
      cmd_Cell_OVP_mV, cmd_Cell_OVP_sec, cmd_Cell_UVP_mV, cmd_Cell_UVP_sec, Console.emit,
      withConf, print_conf, write_help, print_all_stats, debug_print, stats_save, conf_save,
      conf_default, conf_default_rec, conf_begin_protect] <;>
    (try split_ifs) <;> (try simp only []) <;> (try omega)

theorem compare_cmd_uvp_lt_ovp (b : Build) (name_P : List Nat) (h : Handler) (c : Console)
    (hi : uvp_lt_ovp c.bq769x_conf) : uvp_lt_ovp (compare_cmd b name_P h c).bq769x_conf := by
  unfold uvp_lt_ovp at hi ⊢
  unfold compare_cmd
  simp only []
  split_ifs
  · exact invoke_uvp_lt_ovp b h _ hi
  · exact invoke_uvp_lt_ovp b h _ hi
  · exact hi

theorem compare_all_uvp_lt_ovp (b : Build) (es : List (List Nat × Handler)) (c : Console)
    (hi : uvp_lt_ovp c.bq769x_conf) : uvp_lt_ovp (compare_all b es c).bq769x_conf := by
  induction es generalizing c with
  | nil => exact hi
  | cons e es ih => exact ih _ (compare_cmd_uvp_lt_ovp b e.1 e.2 c hi)

theorem handleCommand_uvp_lt_ovp (b : Build) (c : Console) (buffer : List Nat) (len : Nat)
    (hi : uvp_lt_ovp c.bq769x_conf) :
    uvp_lt_ovp (handleCommand b c buffer len).1.bq769x_conf := by
  unfold handleCommand
  split_ifs with h0
  · exact hi
  · have h1 := compare_all_uvp_lt_ovp b (registry b)
      { c with handle_result := false, handle_buffer := buffer, handle_len := len } hi
    simp only []
    split_ifs
    · exact h1
    · exact h1

/-- C2: the undervoltage threshold is strictly below the overvoltage threshold
after conf_default (2850 and 4200), and the order is kept by handleCommand on
every line, hence by every sequence of lines in any order. -/
theorem C2_uvp_lt_ovp_invariant (b : Build) :
    (∀ c : Console, uvp_lt_ovp (c.conf_default b).bq769x_conf ∧
      (c.conf_default b).bq769x_conf.Cell_UVP_mV = 2850 ∧
      (c.conf_default b).bq769x_conf.Cell_OVP_mV = 4200) ∧
    (∀ (c : Console) (buffer : List Nat) (len : Nat), uvp_lt_ovp c.bq769x_conf →
      uvp_lt_ovp (handleCommand b c buffer len).1.bq769x_conf) ∧
    (∀ (c : Console) (lines : List (List Nat × Nat)), uvp_lt_ovp c.bq769x_conf →
      uvp_lt_ovp (run_lines b c lines).bq769x_conf) := by
  refine ⟨fun c => ⟨?_, rfl, rfl⟩, handleCommand_uvp_lt_ovp b, ?_⟩
  · simp [uvp_lt_ovp, conf_default, conf_default_rec]
  · intro c lines
    induction lines generalizing c with
    | nil => exact id
    | cons l ls ih => exact fun hi => ih _ (handleCommand_uvp_lt_ovp b c l.1 l.2 hi)

/-- Witness of C2: from the defaults, an undervoltage edit above the
overvoltage threshold followed by an overvoltage edit below the undervoltage
threshold keeps the order. -/
theorem C2_uvp_lt_ovp_invariant_witness :
    uvp_lt_ovp console0.bq769x_conf ∧
    uvp_lt_ovp (run_lines specBuild console0
      [(bytes "Cell_UVP_mV 4300", 16), (bytes "Cell_OVP_mV 2000", 16)]).bq769x_conf :=
  ⟨by decide!, (C2_uvp_lt_ovp_invariant specBuild).2.2 console0 _ (by decide!)⟩

/-! ## Setters and persistence -/

/-- C3, as stated, fails: on a console whose stored image equals the record,
the overvoltage setter accepts "4100" and changes the record, and the stored
image keeps the old value and no EEPROM write happens. -/
theorem C3_setter_leaves_eeprom_stale :
    console0.In_EEPROM_conf = console0.bq769x_conf ∧
    ((with_arg console0 "4100").cmd_Cell_OVP_mV specBuild).bq769x_conf.Cell_OVP_mV = 4100 ∧
    ((with_arg console0 "4100").cmd_Cell_OVP_mV specBuild).In_EEPROM_conf.Cell_OVP_mV = 4200 ∧
    ((with_arg console0 "4100").cmd_Cell_OVP_mV specBuild).In_EEPROM_conf ≠
      ((with_arg console0 "4100").cmd_Cell_OVP_mV specBuild).bq769x_conf ∧
    Event.eeprom_write_conf ∉
      new_trace console0 ((with_arg console0 "4100").cmd_Cell_OVP_mV specBuild) := by
  decide!

set_option maxHeartbeats 4000000 in
/-- C3, amended: no parameter command writes the configuration to the EEPROM,
whether it accepts its argument or not (the stored image is the same before
and after, and the trace shows no configuration write); the record is
persisted by the command `save`, after which the stored image equals the
record in memory. -/
theorem C3_setters_do_not_persist (b : Build) :
    (∀ (h : Handler) (c : Console), isSetter h = true →
      (invoke b h c).In_EEPROM_conf = c.In_EEPROM_conf ∧
      Event.eeprom_write_conf ∉ new_trace c (invoke b h c)) ∧
    (∀ c : Console, (invoke b .command_save c).In_EEPROM_conf =
      (invoke b .command_save c).bq769x_conf) := by
  constructor
  · intro h c hs
    cases h <;> (try (simp [isSetter] at hs)) <;>
      simp only [new_trace, invoke, cmd_Allow_Charging, cmd_Allow_Discharging, cmd_BQ_dbg,
        cmd_RT_bits, cmd_RS_uOhm, cmd_RT_Beta, cmd_Cell_CapaNom_mV, cmd_Cell_CapaFull_mV,
        cmd_Batt_CapaNom_mAsec, cmd_CurrentThresholdIdle_mA, cmd_Cell_TempCharge_min,
        cmd_Cell_TempCharge_max, cmd_Cell_TempDischarge_min, cmd_Cell_TempDischarge_max,
        cmd_BalancingInCharge, cmd_BalancingEnable, cmd_BalancingCellMin_mV,
        cmd_BalancingCellMaxDifference_mV, cmd_BalancingIdleTimeMin_s, cmd_Cell_OCD_mA,
        cmd_Cell_OCD_ms, cmd_Cell_SCD_mA, cmd_Cell_SCD_us, cmd_Cell_ODP_mA, cmd_Cell_ODP_ms,
        cmd_Cell_OVP_mV, cmd_Cell_OVP_sec, cmd_Cell_UVP_mV, cmd_Cell_UVP_sec, Console.emit,
        withConf, print_conf, write_help] <;>
      split_ifs <;>
      simp [List.append_assoc, List.drop_left]
  · intro c
    simp [invoke, command_save, conf_save, Console.emit]

/-- Witness of C3, amended: the overvoltage setter on "4100". -/
theorem C3_setters_do_not_persist_witness :
    (invoke specBuild .cmd_Cell_OVP_mV (with_arg console0 "4100")).In_EEPROM_conf =
      (with_arg console0 "4100").In_EEPROM_conf ∧
    Event.eeprom_write_conf ∉ new_trace (with_arg console0 "4100")
      (invoke specBuild .cmd_Cell_OVP_mV (with_arg console0 "4100")) :=
  (C3_setters_do_not_persist specBuild).1 .cmd_Cell_OVP_mV (with_arg console0 "4100") rfl

set_option maxHeartbeats 4000000 in
/-- C4: whenever a parameter command prints a usage hint (the reject branch),
the configuration record after the command is the record before it, and the
command has performed no driver operation. -/
theorem C4_reject_leaves_conf (b : Build) (h : Handler) (c : Console)
    (hs : isSetter h = true) (hrej : helpsOf (new_trace c (invoke b h c)) ≠ []) :
    (invoke b h c).bq769x_conf = c.bq769x_conf ∧
    bqCallsOf (new_trace c (invoke b h c)) = [] := by
  cases h <;> (try (simp [isSetter] at hs)) <;>
    simp only [new_trace, invoke, cmd_Allow_Charging, cmd_Allow_Discharging, cmd_BQ_dbg,
      cmd_RT_bits, cmd_RS_uOhm, cmd_RT_Beta, cmd_Cell_CapaNom_mV, cmd_Cell_CapaFull_mV,
      cmd_Batt_CapaNom_mAsec, cmd_CurrentThresholdIdle_mA, cmd_Cell_TempCharge_min,
      cmd_Cell_TempCharge_max, cmd_Cell_TempDischarge_min, cmd_Cell_TempDischarge_max,
      cmd_BalancingInCharge, cmd_BalancingEnable, cmd_BalancingCellMin_mV,
      cmd_BalancingCellMaxDifference_mV, cmd_BalancingIdleTimeMin_s, cmd_Cell_OCD_mA,
      cmd_Cell_OCD_ms, cmd_Cell_SCD_mA, cmd_Cell_SCD_us, cmd_Cell_ODP_mA, cmd_Cell_ODP_ms,
      cmd_Cell_OVP_mV, cmd_Cell_OVP_sec, cmd_Cell_UVP_mV, cmd_Cell_UVP_sec, Console.emit,
      withConf, print_conf, write_help] at hrej ⊢ <;>
    split_ifs at hrej ⊢ <;>
    simp only [List.append_assoc, List.drop_left, helpsOf, bqCallsOf, List.cons_append,
      List.nil_append, ne_eq, not_true_eq_false, and_self] at hrej ⊢

/-- Witness of C4: the shunt resistance setter rejects "0". -/
theorem C4_reject_leaves_conf_witness :
    (invoke specBuild .cmd_RS_uOhm (with_arg console0 "0")).bq769x_conf =
      (with_arg console0 "0").bq769x_conf ∧
    bqCallsOf (new_trace (with_arg console0 "0")
      (invoke specBuild .cmd_RS_uOhm (with_arg console0 "0"))) = [] :=
  C4_reject_leaves_conf specBuild .cmd_RS_uOhm (with_arg console0 "0") rfl (by decide!)

/-! ## Dispatcher -/

theorem handlersOf_append (a c : List Event) :
    handlersOf (a ++ c) = handlersOf a ++ handlersOf c := by
  induction a with
  | nil => rfl
  | cons e es ih => cases e <;> simp [handlersOf, ih]

theorem handlersOf_format_events (n : Nat) : handlersOf (format_events n) = [] := by
  unfold format_events
  induction List.range n with
  | nil => rfl
  | cons i l ih =>
    rw [List.flatMap_cons, handlersOf_append, ih]
    rfl

set_option maxHeartbeats 4000000 in
theorem invoke_frame (b : Build) (h : Handler) (c : Console) :
    (invoke b h c).handle_buffer = c.handle_buffer ∧
    (invoke b h c).handle_len = c.handle_len ∧
    (∃ evs, (invoke b h c).trace = c.trace ++ evs ∧ handlersOf evs = [h]) := by
  cases h <;>
    simp only [invoke, print_all_conf_eq, command_help_eq, cmd_conf_print, cmd_stats_print,
      cmd_stats_save, command_restore, command_save, command_bqregs, command_print,
      command_wdreset, command_bootloader, command_freemem, command_format_EEMEM,
      command_shutdown, cmd_Allow_Charging, cmd_Allow_Discharging, cmd_BQ_dbg, cmd_RT_bits,
      cmd_RS_uOhm, cmd_RT_Beta, cmd_Cell_CapaNom_mV, cmd_Cell_CapaFull_mV,
      cmd_Batt_CapaNom_mAsec, cmd_CurrentThresholdIdle_mA, cmd_Cell_TempCharge_min,
      cmd_Cell_TempCharge_max, cmd_Cell_TempDischarge_min, cmd_Cell_TempDischarge_max,
      cmd_BalancingInCharge, cmd_BalancingEnable, cmd_BalancingCellMin_mV,
      cmd_BalancingCellMaxDifference_mV, cmd_BalancingIdleTimeMin_s, cmd_Cell_OCD_mA,
      cmd_Cell_OCD_ms, cmd_Cell_SCD_mA, cmd_Cell_SCD_us, cmd_Cell_ODP_mA, cmd_Cell_ODP_ms,
      cmd_Cell_OVP_mV, cmd_Cell_OVP_sec, cmd_Cell_UVP_mV, cmd_Cell_UVP_sec, Console.emit,
      withConf, print_conf, write_help, print_all_stats, debug_print, stats_save, conf_save,
      conf_default, conf_default_rec, conf_begin_protect] <;>
    (try split_ifs) <;>
    simp only [List.append_assoc, true_and] <;>
    refine ⟨_, rfl, ?_⟩ <;>
    simp [handlersOf, handlersOf_append, handlersOf_format_events, allPrintParams, helpOrder]

theorem compare_cmd_frame (b : Build) (k : List Nat) (h : Handler) (c : Console) :
    (compare_cmd b k h c).handle_buffer = c.handle_buffer ∧
    (compare_cmd b k h c).handle_len = c.handle_len ∧
    (∃ evs, (compare_cmd b k h c).trace = c.trace ++ evs ∧
      handlersOf evs = if cmd_matches c.handle_buffer k then [h] else []) := by
  unfold compare_cmd cmd_matches
  simp only [beq_iff_eq]
  split_ifs with h1 h2
  · obtain ⟨f1, f2, evs, f3, f4⟩ := invoke_frame b h
      { c with param := some (c.handle_buffer.drop (strlen_P k % 256 + 1)),
               param_len := (c.handle_len - strlen_P k % 256 - 1) % 256 }
    exact ⟨f1, f2, evs, f3, f4⟩
  · obtain ⟨f1, f2, evs, f3, f4⟩ := invoke_frame b h { c with param := none, param_len := 0 }
    exact ⟨f1, f2, evs, f3, f4⟩
  · exact ⟨rfl, rfl, [], by simp, rfl⟩

theorem compare_all_frame (b : Build) (es : List (List Nat × Handler)) (c : Console) :
    (compare_all b es c).handle_buffer = c.handle_buffer ∧
    (compare_all b es c).handle_len = c.handle_len ∧
    (∃ evs, (compare_all b es c).trace = c.trace ++ evs ∧
      handlersOf evs =
        (es.filter (fun e => cmd_matches c.handle_buffer e.1)).map Prod.snd) := by
  induction es generalizing c with
  | nil => exact ⟨rfl, rfl, [], by simp [compare_all], rfl⟩
  | cons e es ih =>
    obtain ⟨f1, f2, evs, f3, f4⟩ := compare_cmd_frame b e.1 e.2 c
    obtain ⟨g1, g2, evs2, g3, g4⟩ := ih (compare_cmd b e.1 e.2 c)
    refine ⟨by simp only [compare_all, g1, f1], by simp only [compare_all, g2, f2],
      evs ++ evs2, by simp only [compare_all, g3, f3, List.append_assoc], ?_⟩
    rw [handlersOf_append, f4, g4, f1, List.filter_cons]
    split_ifs <;> simp

theorem handleCommand_handlers (b : Build) (c : Console) (buffer : List Nat) (len : Nat)
    (h0 : cget buffer 0 ≠ 0) :
    handlersOf (new_trace c (handleCommand b c buffer len).1) =
      ((registry b).filter (fun e => cmd_matches buffer e.1)).map Prod.snd := by
  obtain ⟨_, _, evs, g3, g4⟩ := compare_all_frame b (registry b)
    { c with handle_result := false, handle_buffer := buffer, handle_len := len }
  simp only [handleCommand, h0, if_false, new_trace]
  split_ifs <;> simp [Console.emit, g3, handlersOf_append, g4, handlersOf]

theorem cget_drop_one (a : List Nat) (i : Nat) : cget (a.drop 1) i = cget a (i + 1) := by
  cases a with
  | nil => simp [cget]
  | cons x xs => simp [cget]

theorem strlen_P_eq_length (k : List Nat) (hk : ∀ x ∈ k, x ≠ 0) : strlen_P k = k.length := by
  induction k with
  | nil => rfl
  | cons x xs ih =>
    have hx : x ≠ 0 := hk x (List.mem_cons_self x xs)
    simp [strlen_P, hx, ih (fun y hy => hk y (List.mem_cons_of_mem x hy))]

theorem strncmp_P_zero (n : Nat) : ∀ (a k : List Nat), n ≤ k.length → (∀ x ∈ k, x ≠ 0) →
    strncmp_P a k n = 0 → ∀ i, i < n → cget a i = cget k i := by
  induction n with
  | zero => intro a k _ _ _ i hi; omega
  | succ n ih =>
    intro a k hn hk h i hi
    cases k with
    | nil => simp at hn
    | cons x xs =>
      have hx : x ≠ 0 := hk x (List.mem_cons_self x xs)
      have hc : cget (x :: xs) 0 = x := by simp [cget]
      unfold strncmp_P at h
      rw [hc] at h
      split_ifs at h with h1 h2
      · exact absurd (h2 ▸ (not_not.mp h1)).symm hx
      · have h1' : cget a 0 = x := not_not.mp h1
        cases i with
        | zero => rw [h1', hc]
        | succ j =>
          have := ih (a.drop 1) xs (by simpa using hn)
            (fun y hy => hk y (List.mem_cons_of_mem x hy)) (by simpa using h) j (by omega)
          rw [cget_drop_one] at this
          rw [this]; simp [cget]

theorem cget_of_lt (k : List Nat) (i : Nat) (hi : i < k.length) : cget k i = k[i] := by
  simp [cget, List.getD_eq_getElem, hi]

theorem keyword_unique (line k1 k2 : List Nat)
    (h1 : k1.length < 256 ∧ ∀ x ∈ k1, x ≠ 0 ∧ x ≠ 32)
    (h2 : k2.length < 256 ∧ ∀ x ∈ k2, x ≠ 0 ∧ x ≠ 32)
    (m1 : cmd_matches line k1 = true) (m2 : cmd_matches line k2 = true)
    (d1 : cget line (strlen_P k1 % 256) = 0 ∨ cget line (strlen_P k1 % 256) = 32)
    (d2 : cget line (strlen_P k2 % 256) = 0 ∨ cget line (strlen_P k2 % 256) = 32) :
    k1 = k2 := by
  have z1 : ∀ x ∈ k1, x ≠ 0 := fun x hx => (h1.2 x hx).1
  have z2 : ∀ x ∈ k2, x ≠ 0 := fun x hx => (h2.2 x hx).1
  have e1 : strlen_P k1 % 256 = k1.length := by
    rw [strlen_P_eq_length k1 z1]; exact Nat.mod_eq_of_lt h1.1
  have e2 : strlen_P k2 % 256 = k2.length := by
    rw [strlen_P_eq_length k2 z2]; exact Nat.mod_eq_of_lt h2.1
  rw [e1] at d1
  rw [e2] at d2
  simp only [cmd_matches, beq_iff_eq, e1] at m1
  simp only [cmd_matches, beq_iff_eq, e2] at m2
  have p1 := strncmp_P_zero k1.length line k1 (le_refl _) z1 m1
  have p2 := strncmp_P_zero k2.length line k2 (le_refl _) z2 m2
  have hlen : k1.length = k2.length := by
    rcases Nat.lt_trichotomy k1.length k2.length with hlt | heq | hgt
    · exfalso
      have := p2 k1.length hlt
      rw [cget_of_lt k2 _ hlt] at this
      have hm := h2.2 _ (List.getElem_mem hlt)
      rw [this] at d1
      rcases d1 with d | d
      · exact hm.1 d
      · exact hm.2 d
    · exact heq
    · exfalso
      have := p1 k2.length hgt
      rw [cget_of_lt k1 _ hgt] at this
      have hm := h1.2 _ (List.getElem_mem hgt)
      rw [this] at d2
      rcases d2 with d | d
      · exact hm.1 d
      · exact hm.2 d
  apply List.ext_getElem hlen
  intro i hi1 hi2
  have a1 := p1 i hi1
  have a2 := p2 i hi2
  rw [cget_of_lt k1 i hi1] at a1
  rw [cget_of_lt k2 i hi2] at a2
  rw [← a1, ← a2]

theorem filter_eq_find {α β : Type} (p : α × β → Bool) (l : List (α × β))
    (hn : (l.map Prod.fst).Nodup)
    (hu : ∀ e1 ∈ l, ∀ e2 ∈ l, p e1 = true → p e2 = true → e1.1 = e2.1) :
    l.filter p = (l.find? p).toList := by
  induction l with
  | nil => rfl
  | cons e es ih =>
    rw [List.map_cons, List.nodup_cons] at hn
    have ih2 := ih hn.2 (fun e1 he1 e2 he2 =>
      hu e1 (List.mem_cons_of_mem e he1) e2 (List.mem_cons_of_mem e he2))
    by_cases hp : p e = true
    · have hnone : es.filter p = [] := by
        rw [List.filter_eq_nil_iff]
        intro a ha hpa
        have := hu e (List.mem_cons_self e es) a (List.mem_cons_of_mem e ha) hp hpa
        exact hn.1 (this ▸ List.mem_map_of_mem Prod.fst ha)
      simp [List.filter_cons, List.find?_cons, hp, hnone]
    · simp [List.filter_cons, List.find?_cons, hp, ih2]

theorem compare_all_no_match (b : Build) (es : List (List Nat × Handler)) (c : Console)
    (hn : ∀ e ∈ es, cmd_matches c.handle_buffer e.1 = false) : compare_all b es c = c := by
  induction es with
  | nil => rfl
  | cons e es ih =>
    have he := hn e (List.mem_cons_self e es)
    simp only [cmd_matches, beq_eq_false_iff_ne, ne_eq] at he
    have h1 : compare_cmd b e.1 e.2 c = c := by
      unfold compare_cmd
      simp only [he, if_false]
    rw [compare_all, h1]
    exact ih (fun e2 h2 => hn e2 (List.mem_cons_of_mem e h2))

/-- C5, evaluated at the failing input: the line "saved" starts with the
keyword "save" and goes on with a byte that is not a space; compare_cmd takes
it for the bare command, so handleCommand enters command_save (with an empty
argument), writes the configuration to the EEPROM and reports a match. -/
theorem C5_saved_runs_save :
    strncmp_P (bytes "saved") (bytes "save") 4 = 0 ∧ cget (bytes "saved") 4 ≠ 32 ∧
    (handleCommand specBuild console0 (bytes "saved") 5).2 = true ∧
    new_trace console0 (handleCommand specBuild console0 (bytes "saved") 5).1 =
      [Event.handler .command_save, Event.eeprom_write_conf] := by
  decide!

/-- C6, as stated, fails: the line "stats_save" enters two handlers, first the
one registered for "stats", then the one registered for "stats_save". -/
theorem C6_stats_save_runs_two_handlers :
    handlersOf (new_trace console0
      (handleCommand specBuild console0 (bytes "stats_save") 10).1) =
      [Handler.cmd_stats_print, Handler.cmd_stats_save] := by
  decide!

/-- C6, amended: handleCommand compares the line with every registered keyword
in registry order, with no early exit (handleCommand_handlers); on a line
where every keyword the line starts with is followed by the terminator or a
space, and with keywords that are pairwise different and free of spaces, it
enters at most one handler, the one of the first keyword in registry order
that matches. -/
theorem C6_delimited_line_one_handler (b : Build) (c : Console) (buffer : List Nat)
    (len : Nat) (hk : keywords_ok b) (h0 : cget buffer 0 ≠ 0) (hd : delimited_line b buffer) :
    handlersOf (new_trace c (handleCommand b c buffer len).1) =
      (((registry b).find? (fun e => cmd_matches buffer e.1)).toList).map Prod.snd ∧
    (handlersOf (new_trace c (handleCommand b c buffer len).1)).length ≤ 1 := by
  have key : handlersOf (new_trace c (handleCommand b c buffer len).1) =
      (((registry b).find? (fun e => cmd_matches buffer e.1)).toList).map Prod.snd := by
    rw [handleCommand_handlers b c buffer len h0]
    rw [filter_eq_find (fun e => cmd_matches buffer e.1) (registry b) hk.1]
    intro e1 he1 e2 he2 m1 m2
    exact keyword_unique buffer e1.1 e2.1 (hk.2 e1 he1) (hk.2 e2 he2) m1 m2
      (hd e1 he1 m1) (hd e2 he2 m2)
  refine ⟨key, ?_⟩
  rw [key]
  cases (registry b).find? (fun e => cmd_matches buffer e.1) <;> simp

/-- Witness of C6, amended: the line "stats 1" enters the handler registered
for "stats" and no other. -/
theorem C6_delimited_line_one_handler_witness :
    keywords_ok specBuild ∧ cget (bytes "stats 1") 0 ≠ 0 ∧
    delimited_line specBuild (bytes "stats 1") ∧
    handlersOf (new_trace console0 (handleCommand specBuild console0 (bytes "stats 1") 7).1) =
      [Handler.cmd_stats_print] :=
  ⟨by decide!, by decide!, by decide!,
   (C6_delimited_line_one_handler specBuild console0 (bytes "stats 1") 7
      (by decide!) (by decide!) (by decide!)).1.trans (by decide!)⟩

/-- C7, as stated, fails: the bytes NUL, "x", CR arrive on the serial port; the
line Recv finalizes has length 2 and starts no registered keyword, yet
handleCommand returns without the unknown-command notice. -/
theorem C7_nul_line_is_silent :
    (recv_n specBuild 2 (console_rx [0, 120, 13])).state = SerialState.CONSOLE_COMMAND ∧
    (recv_n specBuild 2 (console_rx [0, 120, 13])).len = 2 ∧
    (recv_n specBuild 2 (console_rx [0, 120, 13])).buffer.take 3 = [0, 120, 0] ∧
    (∀ e ∈ registry specBuild,
      cmd_matches (recv_n specBuild 2 (console_rx [0, 120, 13])).buffer e.1 = false) ∧
    (handleCommand specBuild (recv_n specBuild 2 (console_rx [0, 120, 13]))
      (recv_n specBuild 2 (console_rx [0, 120, 13])).buffer 2).2 = false ∧
    Event.msg Msg.unknown_command ∉
      new_trace (recv_n specBuild 2 (console_rx [0, 120, 13]))
        (recv_n specBuild 3 (console_rx [0, 120, 13])) := by
  decide!

/-- C7, amended: a line whose first byte is the terminator (the zero-length
line in particular) makes handleCommand return false and leaves the whole
state as it was, trace included; a line whose first byte is not the
terminator and on which compare_cmd matches no registered keyword makes it
return false, print the unknown-command notice once, enter no handler and
change nothing but the three members that describe the line. -/
theorem C7_empty_and_unknown (b : Build) (c : Console) (buffer : List Nat) (len : Nat) :
    (cget buffer 0 = 0 → handleCommand b c buffer len = (c, false)) ∧
    (cget buffer 0 ≠ 0 → (∀ e ∈ registry b, cmd_matches buffer e.1 = false) →
      handleCommand b c buffer len =
        ({ c with handle_result := false, handle_buffer := buffer, handle_len := len,
                  trace := c.trace ++ [Event.msg Msg.unknown_command] }, false)) := by
  constructor
  · intro h0
    simp [handleCommand, h0]
  · intro h0 hn
    have h1 := compare_all_no_match b (registry b)
      { c with handle_result := false, handle_buffer := buffer, handle_len := len } hn
    simp [handleCommand, h0, h1, Console.emit]

/-- Witness of C7, amended: the empty line and the line "xyz". -/
theorem C7_empty_and_unknown_witness :
    handleCommand specBuild console0 [0] 0 = (console0, false) ∧
    (handleCommand specBuild console0 (bytes "xyz") 3).2 = false ∧
    new_trace console0 (handleCommand specBuild console0 (bytes "xyz") 3).1 =
      [Event.msg Msg.unknown_command] :=
  ⟨(C7_empty_and_unknown specBuild console0 [0] 0).1 (by decide!),
   by rw [(C7_empty_and_unknown specBuild console0 (bytes "xyz") 3).2 (by decide!) (by decide!)],
   by rw [(C7_empty_and_unknown specBuild console0 (bytes "xyz") 3).2 (by decide!) (by decide!)]
      simp [new_trace]⟩

/-! ## Line editor -/

theorem take_set_self (l : List Nat) (i x : Nat) : (l.set i x).take i = l.take i := by
  apply List.ext_getElem?
  intro j
  rw [List.getElem?_take, List.getElem?_take]
  split
  · next h => rw [List.getElem?_set_ne (by omega)]
  · rfl

theorem take_succ_set (l : List Nat) (i x : Nat) (h : i < l.length) :
    (l.set i x).take (i + 1) = l.take i ++ [x] := by
  rw [List.take_succ, take_set_self, List.getElem?_set_self h]
  rfl

theorem cget_set_zero (l : List Nat) (i : Nat) : cget (l.set i 0) i = 0 := by
  unfold cget
  by_cases h : i < l.length
  · simp [List.getD_eq_getElem?_getD, List.getElem?_set_self h]
  · have hn : (l.set i 0)[i]? = none := List.getElem?_eq_none (by simp; omega)
    simp [List.getD_eq_getElem?_getD, hn]

/-- The loop invariant of the line editor. -/
theorem recv_loop_step (ch : Nat) (rest : List Nat) (c : Console)
    (hb : c.buffer.length = CONS_BUFF) (hl : c.len < CONS_BUFF) (hcr : ch ≠ CR)
    (hcap : (refStep c.line ch).length < CONS_BUFF) :
    ∃ c3 : Console, recv_loop (ch :: rest) c = recv_loop rest c3 ∧
      c3.buffer.length = CONS_BUFF ∧ c3.len < CONS_BUFF ∧ c3.line = refStep c.line ch ∧
      c3.state = c.state := by
  have hlen : c.line.length = c.len := by
    simp [Console.line, List.length_take, hb]; omega
  unfold CONS_BUFF at hb hl hcap
  by_cases hbs : ch = BackSpace ∨ ch = Delete
  · by_cases h0 : c.len = 0
    · refine ⟨c.emit (Event.ser_write ch), ?_, by simpa [Console.emit] using hb,
        by simpa [Console.emit, CONS_BUFF] using hl, ?_, rfl⟩
      · simp [recv_loop, hcr, hbs, h0, Console.emit, CONS_BUFF]
      · simp [Console.line, refStep, hbs, h0, Console.emit]
    · have hd : dec8 c.len = c.len - 1 := by unfold dec8; omega
      refine ⟨{ (c.emit (Event.ser_write ch)) with
                len := dec8 c.len
                buffer := c.buffer.set (dec8 c.len) 0 }, ?_, by simpa using hb,
        by simp only [hd, CONS_BUFF]; omega, ?_, rfl⟩
      · have : ¬ (dec8 c.len = 100) := by omega
        simp [recv_loop, hcr, hbs, h0, Console.emit, CONS_BUFF, this]
      · simp only [Console.line, refStep, hbs, if_true, take_set_self, hd]
        rw [List.dropLast_take (by omega)]
  · by_cases hlf : ch = LF
    · subst hlf
      refine ⟨c.emit (Event.ser_write LF), ?_, by simpa [Console.emit] using hb,
        by simpa [Console.emit, CONS_BUFF] using hl, ?_, rfl⟩
      · have : ¬ (c.len = 100) := by omega
        simp [recv_loop, hcr, hbs, Console.emit, CONS_BUFF, this]
      · simp [Console.line, refStep, hbs, Console.emit]
    · have hi : inc8 c.len = c.len + 1 := by unfold inc8; omega
      have hcap2 : c.len + 1 < 100 := by
        simp only [refStep, hbs, hlf, if_false, List.length_append, List.length_singleton,
          hlen] at hcap
        exact hcap
      refine ⟨{ (c.emit (Event.ser_write ch)) with
                buffer := c.buffer.set c.len ch
                len := inc8 c.len }, ?_, by simpa using hb,
        by simp only [hi, CONS_BUFF]; omega, ?_, rfl⟩
      · have : ¬ (inc8 c.len = 100) := by omega
        simp [recv_loop, hcr, hbs, hlf, Console.emit, CONS_BUFF, this]
      · simp only [Console.line, refStep, hbs, hlf, if_false, hi]
        rw [take_succ_set _ _ _ (by omega)]

theorem recv_loop_iter (body tail : List Nat) : ∀ (c : Console),
    c.buffer.length = CONS_BUFF → c.len < CONS_BUFF → (∀ x ∈ body, x ≠ CR) →
    (∀ n, n ≤ body.length → ((body.take n).foldl refStep c.line).length < CONS_BUFF) →
    ∃ c3 : Console, recv_loop (body ++ tail) c = recv_loop tail c3 ∧
      c3.buffer.length = CONS_BUFF ∧ c3.len < CONS_BUFF ∧
      c3.line = body.foldl refStep c.line ∧ c3.state = c.state := by
  induction body with
  | nil => intro c hb hl _ _; exact ⟨c, rfl, hb, hl, rfl, rfl⟩
  | cons ch body ih =>
    intro c hb hl hcr hcap
    obtain ⟨c1, e1, hb1, hl1, hline1, hs1⟩ := recv_loop_step ch (body ++ tail) c hb hl
      (hcr ch (List.mem_cons_self ch body)) (by simpa using hcap 1 (by simp))
    obtain ⟨c3, e3, hb3, hl3, hline3, hs3⟩ := ih c1 hb1 hl1
      (fun x hx => hcr x (List.mem_cons_of_mem ch hx))
      (fun n hn => by
        have := hcap (n + 1) (by simpa using hn)
        simpa [hline1] using this)
    exact ⟨c3, by rw [List.cons_append, e1, e3], hb3, hl3, by rw [hline3, hline1]; rfl,
      hs3.trans hs1⟩

theorem recv_loop_cr (rest : List Nat) (c : Console) (hl : c.len < CONS_BUFF) :
    (recv_loop (CR :: rest) c).state = SerialState.CONSOLE_COMMAND ∧
    (recv_loop (CR :: rest) c).len = c.len ∧
    (recv_loop (CR :: rest) c).line = c.line ∧
    cget (recv_loop (CR :: rest) c).buffer (recv_loop (CR :: rest) c).len = 0 ∧
    (recv_loop (CR :: rest) c).ser_rx = rest := by
  unfold CONS_BUFF at hl
  have hi : dec8 (inc8 c.len) = c.len := by unfold dec8 inc8; omega
  have h1 : CR ≠ BackSpace ∧ CR ≠ Delete ∧ CR ≠ LF := by decide
  simp only [recv_loop, Console.emit, h1.1, h1.2.1, h1.2.2, or_self, if_false, if_true,
    ne_eq, not_false_eq_true, or_true, hi, Console.line, take_set_self, cget_set_zero,
    and_self]

theorem recv_loop_overflow (ch : Nat) (rest : List Nat) (c : Console)
    (hl : c.len = CONS_BUFF - 1) (ho : ordinary ch) :
    (recv_loop (ch :: rest) c).state = SerialState.CONSOLE_COMMAND ∧
    (recv_loop (ch :: rest) c).len = CONS_BUFF - 1 ∧
    (recv_loop (ch :: rest) c).line = c.line ∧
    cget (recv_loop (ch :: rest) c).buffer (CONS_BUFF - 1) = 0 ∧
    (recv_loop (ch :: rest) c).ser_rx = rest := by
  obtain ⟨o1, o2, o3, o4⟩ := ho
  have hl2 : c.len = 99 := hl
  have hi : inc8 99 = 100 := by decide
  have hd : dec8 100 = 99 := by decide
  simp only [recv_loop, Console.emit, o1, o2, o3, o4, or_self, if_false, if_true, ne_eq,
    not_false_eq_true, hl2, hi, hd, CONS_BUFF, true_or, Console.line, take_set_self,
    cget_set_zero, and_self]

theorem foldl_refStep_ordinary (l : List Nat) : ∀ (acc : List Nat),
    (∀ x ∈ l, ordinary x) → l.foldl refStep acc = acc ++ l := by
  induction l with
  | nil => intro acc _; simp
  | cons x xs ih =>
    intro acc h
    obtain ⟨_, o2, o3, o4⟩ := h x (List.mem_cons_self x xs)
    rw [List.foldl_cons, ih _ (fun y hy => h y (List.mem_cons_of_mem x hy))]
    simp [refStep, o2, o3, o4]

theorem Recv_command (b : Build) (c : Console) (h : c.state = SerialState.CONSOLE_COMMAND) :
    (Recv b c).1 =
      { ((handleCommand b c c.buffer c.len).1.emit (Event.msg Msg.prompt)) with
        len := 0
        state := SerialState.CONSOLE_ACCUMULATING } := by
  simp only [Recv, h]

/-! ## Supervisor -/

theorem bqCallsOf_append (a c : List Event) :
    bqCallsOf (a ++ c) = bqCallsOf a ++ bqCallsOf c := by
  induction a with
  | nil => rfl
  | cons e es ih => cases e <;> simp [bqCallsOf, ih]

theorem quiet_step_refl (c : Console) : quiet_step c c := ⟨rfl, rfl, [], by simp, rfl⟩

theorem quiet_step_trans {c1 c2 c3 : Console} (h1 : quiet_step c1 c2) (h2 : quiet_step c2 c3) :
    quiet_step c1 c3 := by
  obtain ⟨a1, a2, e1, a3, a4⟩ := h1
  obtain ⟨b1, b2, e2, b3, b4⟩ := h2
  exact ⟨b1.trans a1, b2.trans a2, e1 ++ e2, by rw [b3, a3, List.append_assoc],
    by rw [bqCallsOf_append, a4, b4]; rfl⟩

theorem say_if_quiet (c : Console) (cond : Bool) (m : Msg) : quiet_step c (c.say_if cond m) := by
  unfold say_if
  split_ifs
  · exact ⟨rfl, rfl, [Event.msg m], rfl, rfl⟩
  · exact quiet_step_refl c

theorem stats_save_quiet (c : Console) : quiet_step c c.stats_save :=
  ⟨rfl, rfl, [Event.eeprom_write_stats], rfl, rfl⟩

theorem update_counters_quiet (c : Console) : quiet_step c c.update_counters := by
  unfold update_counters
  have h1 : quiet_step c (if c.bq769x_stats.batCycles_ ≠ c.m_BatCycles_prev then
      stats_save { c with m_BatCycles_prev := c.bq769x_stats.batCycles_ } else c) := by
    split_ifs
    · exact stats_save_quiet { c with m_BatCycles_prev := c.bq769x_stats.batCycles_ }
    · exact quiet_step_refl c
  refine quiet_step_trans h1 ?_
  simp only []
  split_ifs
  · exact stats_save_quiet _
  · exact quiet_step_refl _
  · exact stats_save_quiet _
  · exact quiet_step_refl _

theorem update_millis_quiet (now : Nat) (c : Console) : quiet_step c (c.update_millis now) := by
  unfold update_millis
  simp only []
  split_ifs <;> exact ⟨rfl, rfl, [], by simp, rfl⟩

theorem update_undervoltage_shd (c : Console) :
    c.update_undervoltage.shd = dec8 c.shd ∧
    c.update_undervoltage.m_lastUpdate = c.m_lastUpdate ∧
    ∃ evs, c.update_undervoltage.trace = c.trace ++ evs ∧
      (dec8 c.shd ≠ 0 → bqCallsOf evs = []) ∧
      (dec8 c.shd = 0 → shutdown_seq <:+: evs) := by
  unfold update_undervoltage
  simp only [Console.emit]
  split_ifs with hz
  · refine ⟨rfl, rfl, Event.msg Msg.undervoltage :: shutdown_seq, ?_, fun h => absurd hz h,
      fun _ => ⟨[Event.msg Msg.undervoltage], [], by simp⟩⟩
    simp [command_shutdown, stats_save, Console.emit, shutdown_seq]
  · exact ⟨rfl, rfl, [Event.msg Msg.undervoltage], rfl, fun _ => rfl, fun h => absurd h hz⟩

theorem update_tail_quiet (c : Console) (s1 s2 s3 : Bool) (now : Nat) :
    quiet_step c (((((c.say_if s1 Msg.short_circuit).say_if s2
      Msg.overcurrent_charge).update_counters.say_if s3 Msg.difference_too_big).update_millis
      now).emit (Event.job 0)) :=
  quiet_step_trans (say_if_quiet c s1 _) <|
  quiet_step_trans (say_if_quiet _ s2 _) <|
  quiet_step_trans (update_counters_quiet _) <|
  quiet_step_trans (say_if_quiet _ s3 _) <|
  quiet_step_trans (update_millis_quiet now _) ⟨rfl, rfl, [Event.job 0], rfl, rfl⟩

theorem update_work_uv (b : Build) (c0 : Console) (now : Nat) (p : BqPoll)
    (hu : p.error % 256 &&& b.STAT_UV ≠ 0) :
    (update_work b c0 now p).shd = dec8 c0.shd ∧
    (update_work b c0 now p).m_lastUpdate = now ∧
    ∃ evs, (update_work b c0 now p).trace = c0.trace ++ evs ∧
      (dec8 c0.shd ≠ 0 → bqCallsOf evs = [BqCall.update]) ∧
      (dec8 c0.shd = 0 → shutdown_seq <:+: evs) := by
  have hW : update_work b c0 now p =
      ((((((((c0.update_poll now p).say_if (p.error % 256 &&& b.STAT_OV != 0)
        Msg.overvoltage).update_undervoltage).say_if (p.error % 256 &&& b.STAT_SCD != 0)
        Msg.short_circuit).say_if (p.error % 256 &&& b.STAT_OCD != 0)
        Msg.overcurrent_charge).update_counters.say_if
        (decide (u16 ((p.maxCellVoltage : Int) - (p.minCellVoltage : Int)) > 100))
        Msg.difference_too_big).update_millis now).emit (Event.job 0)) := by
    simp only [update_work]
    rw [if_pos hu]
  obtain ⟨a1, a2, e1, a3, a4⟩ := say_if_quiet (c0.update_poll now p)
    (p.error % 256 &&& b.STAT_OV != 0) Msg.overvoltage
  obtain ⟨b1, b2, e2, b3, b4, b5⟩ := update_undervoltage_shd
    ((c0.update_poll now p).say_if (p.error % 256 &&& b.STAT_OV != 0) Msg.overvoltage)
  obtain ⟨d1, d2, e3, d3, d4⟩ := update_tail_quiet
    (((c0.update_poll now p).say_if (p.error % 256 &&& b.STAT_OV != 0)
      Msg.overvoltage).update_undervoltage)
    (p.error % 256 &&& b.STAT_SCD != 0) (p.error % 256 &&& b.STAT_OCD != 0)
    (decide (u16 ((p.maxCellVoltage : Int) - (p.minCellVoltage : Int)) > 100)) now
  have hp1 : (c0.update_poll now p).shd = c0.shd := rfl
  have hp2 : (c0.update_poll now p).m_lastUpdate = now := rfl
  have hp3 : (c0.update_poll now p).trace =
      c0.trace ++ [Event.job 1, Event.bq BqCall.update] := by
    simp [update_poll, Console.emit]
  rw [hW]
  refine ⟨by rw [d1, b1, a1, hp1], by rw [d2, b2, a2, hp2],
    [Event.job 1, Event.bq BqCall.update] ++ e1 ++ e2 ++ e3,
    by rw [d3, b3, a3, hp3]; simp only [List.append_assoc], ?_, ?_⟩
  · intro hz
    rw [a1, hp1] at b4
    simp only [bqCallsOf_append, a4, b4 hz, d4]
    rfl
  · intro hz
    rw [a1, hp1] at b5
    obtain ⟨s, t, hst⟩ := b5 hz
    exact ⟨[Event.job 1, Event.bq BqCall.update] ++ e1 ++ s, t ++ e3, by
      rw [← hst]; simp only [List.append_assoc]⟩

theorem tick_uv (b : Build) (c : Console) (t : Tick) (hf : fires c t = true)
    (hu : uv_flagged b t) :
    (tick b c t).shd = dec8 c.shd ∧
    (tick b c t).m_lastUpdate = t.millis % 4294967296 ∧
    ∃ evs, (tick b c t).trace = c.trace ++ evs ∧
      (dec8 c.shd ≠ 0 → bqCallsOf evs = [BqCall.update]) ∧
      (dec8 c.shd = 0 → shutdown_seq <:+: evs) := by
  simp only [fires, decide_eq_true_eq] at hf
  have hT : tick b c t = update_work b { c with millis := t.millis, alertInterruptFlag_ := t.force }
      (t.millis % 4294967296) t.poll := by
    simp only [tick, update, Console.Timer_millis, hf, if_true]
  rw [hT]
  exact update_work_uv b _ _ t.poll hu

theorem run_ticks_append (b : Build) (a l : List Tick) : ∀ c : Console,
    run_ticks b c (a ++ l) = run_ticks b (run_ticks b c a) l := by
  induction a with
  | nil => intro c; rfl
  | cons t ts ih => intro c; exact ih (tick b c t)

theorem all_fire_append (b : Build) (a l : List Tick) : ∀ c : Console,
    all_fire b c (a ++ l) = (all_fire b c a && all_fire b (run_ticks b c a) l) := by
  induction a with
  | nil => intro c; simp [all_fire, run_ticks]
  | cons t ts ih => intro c; simp [all_fire, run_ticks, ih, Bool.and_assoc]

theorem new_trace_of_append (c c2 : Console) (evs : List Event)
    (h : c2.trace = c.trace ++ evs) : new_trace c c2 = evs := by
  simp [new_trace, h]

theorem run_ticks_uv_quiet (b : Build) (ts : List Tick) : ∀ c : Console,
    all_fire b c ts = true → (∀ t ∈ ts, uv_flagged b t) → ts.length < c.shd → c.shd ≤ 255 →
    (run_ticks b c ts).shd = c.shd - ts.length ∧
    ∃ evs, (run_ticks b c ts).trace = c.trace ++ evs ∧ BqCall.shutdown ∉ bqCallsOf evs := by
  induction ts with
  | nil => intro c _ _ _ _; exact ⟨rfl, [], by simp [run_ticks], by simp [bqCallsOf]⟩
  | cons t ts ih =>
    intro c hf hu hlen hle
    simp only [all_fire, Bool.and_eq_true] at hf
    simp only [List.length_cons] at hlen
    obtain ⟨s1, _, e1, s3, s4, _⟩ := tick_uv b c t hf.1 (hu t (List.mem_cons_self t ts))
    have hd : dec8 c.shd = c.shd - 1 := by unfold dec8; omega
    rw [hd] at s1 s4
    obtain ⟨r1, e2, r2, r3⟩ := ih (tick b c t) hf.2
      (fun x hx => hu x (List.mem_cons_of_mem t hx)) (by rw [s1]; omega) (by rw [s1]; omega)
    refine ⟨by rw [run_ticks, r1, s1, List.length_cons]; omega, e1 ++ e2,
      by rw [run_ticks, r2, s3, List.append_assoc], ?_⟩
    rw [bqCallsOf_append, s4 (by omega)]
    simpa using r3

theorem uv_run_from_length (n : Nat) : ∀ m, (uv_run_from m n).length = n := by
  induction n with
  | zero => intro m; rfl
  | succ n ih => intro m; simp [uv_run_from, ih]

theorem uv_poll_flagged (m : Nat) :
    uv_flagged specBuild { millis := m, force := false, poll := uv_poll } := by
  show 0x08 % 256 &&& 0x08 ≠ 0
  decide

theorem uv_run_from_flagged (n : Nat) : ∀ m, ∀ t ∈ uv_run_from m n, uv_flagged specBuild t := by
  induction n with
  | zero => intro m t ht; simp [uv_run_from] at ht
  | succ n ih =>
    intro m t ht
    simp only [uv_run_from, List.mem_cons] at ht
    rcases ht with h | h
    · subst h; exact uv_poll_flagged _
    · exact ih _ t h

theorem uv_run_from_fires (n : Nat) : ∀ (m : Nat) (c : Console), c.m_lastUpdate = m →
    m + 250 * n < 4294967296 → all_fire specBuild c (uv_run_from m n) = true := by
  induction n with
  | zero => intro m c _ _; rfl
  | succ n ih =>
    intro m c hm hlt
    have hmod : (m + 250) % 4294967296 = m + 250 := Nat.mod_eq_of_lt (by omega)
    have hfire : fires c { millis := m + 250, force := false, poll := uv_poll } = true := by
      simp only [fires, decide_eq_true_eq, hm, hmod, u32]
      have : (((m + 250 : Nat) : Int) - (m : Int)) = 250 := by push_cast; ring
      rw [this]; decide
    obtain ⟨_, s2, _⟩ := tick_uv specBuild c { millis := m + 250, force := false, poll := uv_poll }
      hfire (uv_poll_flagged _)
    simp only [uv_run_from, all_fire, hfire, Bool.true_and]
    exact ih (m + 250) _ (by rw [s2, hmod]) (by omega)

/-! ## Stages of the supervisor -/

@[simp] theorem say_if_shd (c : Console) (s : Bool) (m : Msg) : (c.say_if s m).shd = c.shd := by
  unfold say_if; split_ifs <;> rfl

@[simp] theorem say_if_lastUpdate (c : Console) (s : Bool) (m : Msg) :
    (c.say_if s m).m_lastUpdate = c.m_lastUpdate := by
  unfold say_if; split_ifs <;> rfl

@[simp] theorem say_if_stats (c : Console) (s : Bool) (m : Msg) :
    (c.say_if s m).bq769x_stats = c.bq769x_stats := by
  unfold say_if; split_ifs <;> rfl

@[simp] theorem say_if_prevB (c : Console) (s : Bool) (m : Msg) :
    (c.say_if s m).m_BatCycles_prev = c.m_BatCycles_prev := by
  unfold say_if; split_ifs <;> rfl

@[simp] theorem say_if_prevC (c : Console) (s : Bool) (m : Msg) :
    (c.say_if s m).m_ChargedTimes_prev = c.m_ChargedTimes_prev := by
  unfold say_if; split_ifs <;> rfl

@[simp] theorem say_if_trace (c : Console) (s : Bool) (m : Msg) :
    (c.say_if s m).trace = c.trace ++ (if s then [Event.msg m] else []) := by
  unfold say_if; split_ifs <;> simp [Console.emit]

@[simp] theorem update_undervoltage_shd_eq (c : Console) :
    c.update_undervoltage.shd = dec8 c.shd := by
  unfold update_undervoltage; simp only [Console.emit]; split_ifs <;> rfl

@[simp] theorem update_undervoltage_lastUpdate (c : Console) :
    c.update_undervoltage.m_lastUpdate = c.m_lastUpdate := by
  unfold update_undervoltage; simp only [Console.emit]; split_ifs <;> rfl

@[simp] theorem update_undervoltage_batCycles (c : Console) :
    c.update_undervoltage.bq769x_stats.batCycles_ = c.bq769x_stats.batCycles_ := by
  unfold update_undervoltage; simp only [Console.emit]; split_ifs <;> rfl

@[simp] theorem update_undervoltage_chargedTimes (c : Console) :
    c.update_undervoltage.bq769x_stats.chargedTimes_ = c.bq769x_stats.chargedTimes_ := by
  unfold update_undervoltage; simp only [Console.emit]; split_ifs <;> rfl

@[simp] theorem update_undervoltage_prevB (c : Console) :
    c.update_undervoltage.m_BatCycles_prev = c.m_BatCycles_prev := by
  unfold update_undervoltage; simp only [Console.emit]; split_ifs <;> rfl

@[simp] theorem update_undervoltage_prevC (c : Console) :
    c.update_undervoltage.m_ChargedTimes_prev = c.m_ChargedTimes_prev := by
  unfold update_undervoltage; simp only [Console.emit]; split_ifs <;> rfl

@[simp] theorem update_undervoltage_trace (c : Console) :
    c.update_undervoltage.trace = c.trace ++
      (Event.msg Msg.undervoltage :: (if dec8 c.shd = 0 then shutdown_seq else [])) := by
  unfold update_undervoltage
  simp only [Console.emit]
  split_ifs <;> simp [command_shutdown, stats_save, Console.emit, shutdown_seq]

@[simp] theorem update_counters_shd (c : Console) : c.update_counters.shd = c.shd := by
  unfold update_counters; simp only []; split_ifs <;> rfl

@[simp] theorem update_counters_lastUpdate (c : Console) :
    c.update_counters.m_lastUpdate = c.m_lastUpdate := by
  unfold update_counters; simp only []; split_ifs <;> rfl

@[simp] theorem update_counters_batCycles (c : Console) :
    c.update_counters.bq769x_stats.batCycles_ = c.bq769x_stats.batCycles_ := by
  unfold update_counters; simp only []; split_ifs <;> rfl

@[simp] theorem update_counters_chargedTimes (c : Console) :
    c.update_counters.bq769x_stats.chargedTimes_ = c.bq769x_stats.chargedTimes_ := by
  unfold update_counters; simp only []; split_ifs <;> rfl

@[simp] theorem update_counters_prevB (c : Console) :
    c.update_counters.m_BatCycles_prev = c.bq769x_stats.batCycles_ := by
  unfold update_counters; simp only []; split_ifs with h1 h2 h3 <;> first | rfl | (simp only [stats_save] at *; omega)

@[simp] theorem update_counters_prevC (c : Console) :
    c.update_counters.m_ChargedTimes_prev = c.bq769x_stats.chargedTimes_ := by
  unfold update_counters; simp only []; split_ifs with h1 h2 h3 <;> first | rfl | (simp only [stats_save] at *; omega)

@[simp] theorem update_counters_trace (c : Console) :
    c.update_counters.trace = c.trace ++
      ((if c.bq769x_stats.batCycles_ ≠ c.m_BatCycles_prev then [Event.eeprom_write_stats]
        else []) ++
       (if c.bq769x_stats.chargedTimes_ ≠ c.m_ChargedTimes_prev then [Event.eeprom_write_stats]
        else [])) := by
  unfold update_counters
  simp only []
  split_ifs <;> simp_all [stats_save]

@[simp] theorem update_millis_shd (now : Nat) (c : Console) :
    (c.update_millis now).shd = c.shd := by
  unfold update_millis; simp only []; split_ifs <;> rfl

@[simp] theorem update_millis_lastUpdate (now : Nat) (c : Console) :
    (c.update_millis now).m_lastUpdate = c.m_lastUpdate := by
  unfold update_millis; simp only []; split_ifs <;> rfl

@[simp] theorem update_millis_stats (now : Nat) (c : Console) :
    (c.update_millis now).bq769x_stats = c.bq769x_stats := by
  unfold update_millis; simp only []; split_ifs <;> rfl

@[simp] theorem update_millis_prevB (now : Nat) (c : Console) :
    (c.update_millis now).m_BatCycles_prev = c.m_BatCycles_prev := by
  unfold update_millis; simp only []; split_ifs <;> rfl

@[simp] theorem update_millis_prevC (now : Nat) (c : Console) :
    (c.update_millis now).m_ChargedTimes_prev = c.m_ChargedTimes_prev := by
  unfold update_millis; simp only []; split_ifs <;> rfl

@[simp] theorem update_millis_trace (now : Nat) (c : Console) :
    (c.update_millis now).trace = c.trace := by
  unfold update_millis; simp only []; split_ifs <;> rfl

theorem update_work_trace (b : Build) (c0 : Console) (now : Nat) (p : BqPoll) :
    (update_work b c0 now p).trace = c0.trace ++ work_events b c0 p := by
  by_cases hu : p.error % 256 &&& b.STAT_UV ≠ 0
  · simp only [update_work]
    rw [if_pos hu]
    simp [update_poll, Console.emit, work_events, hu]
  · simp only [update_work]
    rw [if_neg hu]
    simp [update_poll, Console.emit, work_events, hu]

theorem update_work_shd (b : Build) (c0 : Console) (now : Nat) (p : BqPoll) :
    (update_work b c0 now p).shd =
      if p.error % 256 &&& b.STAT_UV ≠ 0 then dec8 c0.shd else c0.shd := by
  by_cases hu : p.error % 256 &&& b.STAT_UV ≠ 0
  · simp only [update_work]
    rw [if_pos hu, if_pos hu]
    simp [update_poll, Console.emit]
  · simp only [update_work]
    rw [if_neg hu, if_neg hu]
    simp [update_poll, Console.emit]

theorem update_work_lastUpdate (b : Build) (c0 : Console) (now : Nat) (p : BqPoll) :
    (update_work b c0 now p).m_lastUpdate = now := by
  by_cases hu : p.error % 256 &&& b.STAT_UV ≠ 0
  · simp only [update_work]
    rw [if_pos hu]
    simp [update_poll, Console.emit]
  · simp only [update_work]
    rw [if_neg hu]
    simp [update_poll, Console.emit]

theorem update_work_counters (b : Build) (c0 : Console) (now : Nat) (p : BqPoll) :
    (update_work b c0 now p).m_BatCycles_prev = p.stats.batCycles_ ∧
    (update_work b c0 now p).m_ChargedTimes_prev = p.stats.chargedTimes_ ∧
    (update_work b c0 now p).bq769x_stats.batCycles_ = p.stats.batCycles_ ∧
    (update_work b c0 now p).bq769x_stats.chargedTimes_ = p.stats.chargedTimes_ := by
  by_cases hu : p.error % 256 &&& b.STAT_UV ≠ 0
  · simp only [update_work]
    rw [if_pos hu]
    simp [update_poll, Console.emit]
  · simp only [update_work]
    rw [if_neg hu]
    simp [update_poll, Console.emit]

theorem update_fired (b : Build) (c : Console) (force : Bool) (p : BqPoll) (h : gate_open c) :
    update b c force p =
      (update_work b { c with alertInterruptFlag_ := force } c.Timer_millis p, false) := by
  unfold gate_open at h
  simp only [update, Console.Timer_millis] at h ⊢
  rw [if_pos h]

theorem update_suppressed (b : Build) (c : Console) (force : Bool) (p : BqPoll)
    (h : ¬ gate_open c) :
    update b c force p = ({ c with alertInterruptFlag_ := force }, force) := by
  unfold gate_open at h
  simp only [update, Console.Timer_millis] at h ⊢
  rw [if_neg h]

theorem update_polled_iff (b : Build) (c : Console) (force : Bool) (p : BqPoll) :
    polled c (update b c force p).1 ↔ gate_open c := by
  constructor
  · intro hp
    by_contra hg
    rw [update_suppressed b c force p hg] at hp
    simp [polled, new_trace, bqCallsOf] at hp
  · intro hg
    rw [update_fired b c force p hg]
    unfold polled
    have ht := update_work_trace b { c with alertInterruptFlag_ := force } c.Timer_millis p
    have hn : new_trace c (update_work b { c with alertInterruptFlag_ := force }
        c.Timer_millis p) = work_events b { c with alertInterruptFlag_ := force } p :=
      new_trace_of_append c _ _ ht
    show BqCall.update ∈ bqCallsOf (new_trace c (update_work b
      { c with alertInterruptFlag_ := force } c.Timer_millis p))
    rw [hn]
    simp [work_events, bqCallsOf_append, bqCallsOf]

/-- C13: with forced false, Console::update polls the driver and sets the time
of the last execution to now if at least 250 time units have elapsed, the
difference being taken modulo 2^32; otherwise the driver is not polled and the
countdown, the time of the last execution, the overflow count, the previous
timer value, the statistics (in memory and in the EEPROM) and the trace are
unchanged. -/
theorem C13_cadence_gate (b : Build) (c : Console) (p : BqPoll) :
    (gate_open c →
      polled c (update b c false p).1 ∧ (update b c false p).1.m_lastUpdate = c.Timer_millis) ∧
    (¬ gate_open c →
      ¬ polled c (update b c false p).1 ∧
      (update b c false p).1.shd = c.shd ∧
      (update b c false p).1.m_lastUpdate = c.m_lastUpdate ∧
      (update b c false p).1.m_millisOverflows = c.m_millisOverflows ∧
      (update b c false p).1.m_oldMillis = c.m_oldMillis ∧
      (update b c false p).1.bq769x_stats = c.bq769x_stats ∧
      (update b c false p).1.In_EEPROM_stats = c.In_EEPROM_stats ∧
      (update b c false p).1.trace = c.trace) := by
  constructor
  · intro hg
    refine ⟨(update_polled_iff b c false p).2 hg, ?_⟩
    rw [update_fired b c false p hg]
    exact update_work_lastUpdate b _ _ p
  · intro hg
    refine ⟨fun hp => hg ((update_polled_iff b c false p).1 hp), ?_⟩
    rw [update_suppressed b c false p hg]
    exact ⟨rfl, rfl, rfl, rfl, rfl, rfl, rfl⟩

/-- Witness of C13: a poll 300 ms after the last one, across the wrap of the
timer (the timer value is below the time of the last execution), and a call
100 ms after the last poll. -/
theorem C13_cadence_gate_witness :
    gate_open console_wrap ∧ console_wrap.Timer_millis < console_wrap.m_lastUpdate ∧
    polled console_wrap (update specBuild console_wrap false quiet_poll).1 ∧
    (update specBuild console_wrap false quiet_poll).1.m_lastUpdate = 200 ∧
    ¬ gate_open console_early ∧
    ¬ polled console_early (update specBuild console_early false quiet_poll).1 :=
  ⟨by decide!, by decide!,
   ((C13_cadence_gate specBuild console_wrap quiet_poll).1 (by decide!)).1,
   ((C13_cadence_gate specBuild console_wrap quiet_poll).1 (by decide!)).2.trans (by decide!),
   by decide!,
   ((C13_cadence_gate specBuild console_early quiet_poll).2 (by decide!)).1⟩

/-- C14, as stated, fails: 100 ms after the last poll a call with forced true
does not poll the driver; trace and countdown are as before. -/
theorem C14_forced_call_is_suppressed :
    ¬ gate_open console_early ∧
    ¬ polled console_early (update specBuild console_early true quiet_poll).1 ∧
    (update specBuild console_early true quiet_poll).1.trace = console_early.trace ∧
    (update specBuild console_early true quiet_poll).1.shd = console_early.shd := by
  decide!

/-- C14, amended: a call with forced true polls the driver exactly when the
cadence test passes, as a call with forced false does; when the test fails the
call only stores the flag in alertInterruptFlag_ and returns true. -/
theorem C14_forced_call_follows_cadence (b : Build) (c : Console) (p : BqPoll) :
    (polled c (update b c true p).1 ↔ gate_open c) ∧
    (¬ gate_open c → update b c true p = ({ c with alertInterruptFlag_ := true }, true)) :=
  ⟨update_polled_iff b c true p, update_suppressed b c true p⟩

/-- C15, as stated, fails: a call that polls the driver returns false, and a
forced call that the cadence test suppresses returns true. -/
theorem C15_return_value_inverted :
    polled console_due (update specBuild console_due false quiet_poll).1 ∧
    (update specBuild console_due false quiet_poll).2 = false ∧
    ¬ polled console_early (update specBuild console_early true quiet_poll).1 ∧
    (update specBuild console_early true quiet_poll).2 = true := by
  decide!

/-- C15, amended: Console::update returns false whenever it polled the driver;
when the cadence test suppressed the work it returns the forced flag; so it
returns true exactly for a forced call that was suppressed. -/
theorem C15_return_value (b : Build) (c : Console) (force : Bool) (p : BqPoll) :
    (polled c (update b c force p).1 → (update b c force p).2 = false) ∧
    (¬ polled c (update b c force p).1 → (update b c force p).2 = force) ∧
    ((update b c force p).2 = true ↔ (force = true ∧ ¬ polled c (update b c force p).1)) := by
  by_cases hg : gate_open c
  · have hp := (update_polled_iff b c force p).2 hg
    have h2 : (update b c force p).2 = false := by rw [update_fired b c force p hg]
    refine ⟨fun _ => h2, fun h => absurd hp h, ?_⟩
    rw [h2]
    simp [hp]
  · have hp : ¬ polled c (update b c force p).1 :=
      fun h => hg ((update_polled_iff b c force p).1 h)
    have h2 : (update b c force p).2 = force := by rw [update_suppressed b c force p hg]
    refine ⟨fun h => absurd h hp, fun _ => h2, ?_⟩
    rw [h2]
    simp [hp]

/-- Witness of C14, amended: a forced call 100 ms after the last poll. -/
theorem C14_forced_call_follows_cadence_witness :
    update specBuild console_early true quiet_poll =
      ({ console_early with alertInterruptFlag_ := true }, true) :=
  (C14_forced_call_follows_cadence specBuild console_early quiet_poll).2 (by decide!)

/-- Witness of C15, amended: the call 250 ms after start polls and returns
false; the forced call 100 ms after start does not poll and returns true. -/
theorem C15_return_value_witness :
    (update specBuild console_due false quiet_poll).2 = false ∧
    (update specBuild console_early true quiet_poll).2 = true :=
  ⟨(C15_return_value specBuild console_due false quiet_poll).1 (by decide!),
   (C15_return_value specBuild console_early true quiet_poll).2.1 (by decide!)⟩

/-! ## Undervoltage countdown and statistics writes -/

theorem statsWritesOf_append (a c : List Event) :
    statsWritesOf (a ++ c) = statsWritesOf a + statsWritesOf c := by
  induction a with
  | nil => simp [statsWritesOf]
  | cons e es ih => cases e <;> (simp [statsWritesOf, ih]; try omega)

theorem shutdownsOf_append (a c : List Event) :
    shutdownsOf (a ++ c) = shutdownsOf a + shutdownsOf c := by
  induction a with
  | nil => simp [shutdownsOf]
  | cons e es ih =>
    cases e with
    | bq k => cases k <;> (simp [shutdownsOf, ih]; try omega)
    | _ => simp [shutdownsOf, ih]

theorem shutdownsOf_ite_msg (P : Prop) [Decidable P] (m : Msg) :
    shutdownsOf (if P then [Event.msg m] else []) = 0 := by
  split_ifs <;> rfl

theorem shutdownsOf_ite_write (P : Prop) [Decidable P] :
    shutdownsOf (if P then [Event.eeprom_write_stats] else []) = 0 := by
  split_ifs <;> rfl

theorem work_events_shutdowns (b : Build) (c : Console) (p : BqPoll) :
    shutdownsOf (work_events b c p) =
      if p.error % 256 &&& b.STAT_UV ≠ 0 ∧ dec8 c.shd = 0 then 1 else 0 := by
  unfold work_events
  rw [shutdownsOf_append, shutdownsOf_append, shutdownsOf_append, shutdownsOf_append,
    shutdownsOf_append, shutdownsOf_append, shutdownsOf_append, shutdownsOf_append,
    shutdownsOf_ite_msg, shutdownsOf_ite_msg, shutdownsOf_ite_msg, shutdownsOf_ite_msg,
    shutdownsOf_ite_write, shutdownsOf_ite_write]
  by_cases hu : p.error % 256 &&& b.STAT_UV ≠ 0 <;> by_cases hz : dec8 c.shd = 0 <;>
    simp [hu, hz, shutdownsOf, shutdown_seq]

theorem bqCallsOf_ite_msg (P : Prop) [Decidable P] (m : Msg) :
    bqCallsOf (if P then [Event.msg m] else []) = [] := by
  split_ifs <;> rfl

theorem bqCallsOf_ite_write (P : Prop) [Decidable P] :
    bqCallsOf (if P then [Event.eeprom_write_stats] else []) = [] := by
  split_ifs <;> rfl

theorem work_events_bqCalls (b : Build) (c : Console) (p : BqPoll) :
    bqCallsOf (work_events b c p) =
      BqCall.update ::
        (if p.error % 256 &&& b.STAT_UV ≠ 0 ∧ dec8 c.shd = 0 then [BqCall.shutdown] else []) := by
  unfold work_events
  rw [bqCallsOf_append, bqCallsOf_append, bqCallsOf_append, bqCallsOf_append,
    bqCallsOf_append, bqCallsOf_append, bqCallsOf_append, bqCallsOf_append,
    bqCallsOf_ite_msg, bqCallsOf_ite_msg, bqCallsOf_ite_msg, bqCallsOf_ite_msg,
    bqCallsOf_ite_write, bqCallsOf_ite_write]
  by_cases hu : p.error % 256 &&& b.STAT_UV ≠ 0 <;> by_cases hz : dec8 c.shd = 0 <;>
    simp [hu, hz, bqCallsOf, shutdown_seq]

theorem statsWritesOf_ite_msg (P : Prop) [Decidable P] (m : Msg) :
    statsWritesOf (if P then [Event.msg m] else []) = 0 := by
  split_ifs <;> rfl

theorem statsWritesOf_ite_write (P : Prop) [Decidable P] :
    statsWritesOf (if P then [Event.eeprom_write_stats] else []) = if P then 1 else 0 := by
  split_ifs <;> rfl

theorem work_events_statsWrites (b : Build) (c : Console) (p : BqPoll) :
    statsWritesOf (work_events b c p) =
      shutdownsOf (work_events b c p) +
      (if p.stats.batCycles_ ≠ c.m_BatCycles_prev then 1 else 0) +
      (if p.stats.chargedTimes_ ≠ c.m_ChargedTimes_prev then 1 else 0) := by
  rw [work_events_shutdowns]
  unfold work_events
  rw [statsWritesOf_append, statsWritesOf_append, statsWritesOf_append, statsWritesOf_append,
    statsWritesOf_append, statsWritesOf_append, statsWritesOf_append, statsWritesOf_append,
    statsWritesOf_ite_msg, statsWritesOf_ite_msg, statsWritesOf_ite_msg,
    statsWritesOf_ite_msg, statsWritesOf_ite_write, statsWritesOf_ite_write]
  by_cases hu : p.error % 256 &&& b.STAT_UV ≠ 0 <;> by_cases hz : dec8 c.shd = 0 <;>
    simp [hu, hz, statsWritesOf, shutdown_seq]

theorem tick_fired (b : Build) (c : Console) (t : Tick) (h : fires c t = true) :
    tick b c t = update_work b { c with millis := t.millis, alertInterruptFlag_ := t.force }
      (t.millis % 4294967296) t.poll := by
  simp only [fires, decide_eq_true_eq] at h
  simp only [tick, update, Console.Timer_millis]
  rw [if_pos h]

theorem tick_suppressed (b : Build) (c : Console) (t : Tick) (h : fires c t = false) :
    tick b c t = { c with millis := t.millis, alertInterruptFlag_ := t.force } := by
  simp only [fires, decide_eq_false_iff_not] at h
  simp only [tick, update, Console.Timer_millis]
  rw [if_neg h]

theorem tick_trace (b : Build) (c : Console) (t : Tick) :
    (tick b c t).trace = c.trace ++ (if fires c t then work_events b c t.poll else []) := by
  by_cases h : fires c t = true
  · rw [tick_fired b c t h, if_pos h]
    exact update_work_trace b _ _ t.poll
  · have h2 : fires c t = false := by simpa using h
    rw [tick_suppressed b c t h2, if_neg h]
    simp

theorem tick_shd (b : Build) (c : Console) (t : Tick) :
    (tick b c t).shd = if fired_uv b c t then dec8 c.shd else c.shd := by
  by_cases h : fires c t = true
  · rw [tick_fired b c t h, update_work_shd]
    simp only [fired_uv, h, Bool.true_and, decide_eq_true_eq, uv_flagged]
  · have h2 : fires c t = false := by simpa using h
    rw [tick_suppressed b c t h2]
    simp [fired_uv, h2]

theorem tick_counters (b : Build) (c : Console) (t : Tick)
    (hp : c.m_BatCycles_prev = c.bq769x_stats.batCycles_ ∧
      c.m_ChargedTimes_prev = c.bq769x_stats.chargedTimes_)
    (hs : t.poll.stats.batCycles_ = c.bq769x_stats.batCycles_ ∧
      t.poll.stats.chargedTimes_ = c.bq769x_stats.chargedTimes_) :
    (tick b c t).m_BatCycles_prev = c.m_BatCycles_prev ∧
    (tick b c t).m_ChargedTimes_prev = c.m_ChargedTimes_prev ∧
    (tick b c t).bq769x_stats.batCycles_ = c.bq769x_stats.batCycles_ ∧
    (tick b c t).bq769x_stats.chargedTimes_ = c.bq769x_stats.chargedTimes_ := by
  by_cases h : fires c t = true
  · rw [tick_fired b c t h]
    obtain ⟨a1, a2, a3, a4⟩ := update_work_counters b
      { c with millis := t.millis, alertInterruptFlag_ := t.force } (t.millis % 4294967296) t.poll
    rw [a1, a2, a3, a4, hp.1, hp.2, hs.1, hs.2]
    exact ⟨rfl, rfl, rfl, rfl⟩
  · have h2 : fires c t = false := by simpa using h
    rw [tick_suppressed b c t h2]
    exact ⟨rfl, rfl, rfl, rfl⟩


theorem tick_new_trace (b : Build) (c : Console) (t : Tick) :
    new_trace c (tick b c t) = if fires c t then work_events b c t.poll else [] :=
  new_trace_of_append c _ _ (tick_trace b c t)

theorem run_ticks_trace (b : Build) (ts : List Tick) : ∀ c : Console,
    (run_ticks b c ts).trace = c.trace ++ new_trace c (run_ticks b c ts) := by
  induction ts with
  | nil => intro c; simp [run_ticks, new_trace]
  | cons t ts ih =>
    intro c
    have h1 := ih (tick b c t)
    have h2 := tick_trace b c t
    have h3 : (run_ticks b c (t :: ts)).trace = c.trace ++
        ((if fires c t then work_events b c t.poll else []) ++
          new_trace (tick b c t) (run_ticks b (tick b c t) ts)) := by
      rw [run_ticks, h1, h2, List.append_assoc]
    rw [new_trace_of_append c _ _ h3]
    exact h3

theorem run_ticks_new_trace_cons (b : Build) (c : Console) (t : Tick) (ts : List Tick) :
    new_trace c (run_ticks b c (t :: ts)) =
      new_trace c (tick b c t) ++ new_trace (tick b c t) (run_ticks b (tick b c t) ts) := by
  apply new_trace_of_append
  rw [run_ticks, run_ticks_trace b ts (tick b c t), tick_trace b c t, tick_new_trace,
    List.append_assoc]

theorem tick_shutdown_iff (b : Build) (c : Console) (t : Tick) :
    BqCall.shutdown ∈ bqCallsOf (new_trace c (tick b c t)) ↔
      fired_uv b c t = true ∧ dec8 c.shd = 0 := by
  rw [tick_new_trace]
  by_cases h : fires c t = true
  · rw [if_pos h, work_events_bqCalls]
    by_cases hu : t.poll.error % 256 &&& b.STAT_UV ≠ 0 <;> by_cases hz : dec8 c.shd = 0 <;>
      simp [fired_uv, h, uv_flagged, hu, hz]
  · have h2 : fires c t = false := by simpa using h
    simp [h2, fired_uv, bqCallsOf]

theorem run_ticks_shd (b : Build) (ts : List Tick) : ∀ c : Console, c.shd < 256 →
    (run_ticks b c ts).shd = (c.shd + 255 * count_fired_uv b c ts) % 256 := by
  induction ts with
  | nil => intro c h; simp only [run_ticks, count_fired_uv]; omega
  | cons t ts ih =>
    intro c h
    have hs := tick_shd b c t
    by_cases hf : fired_uv b c t = true
    · rw [if_pos hf] at hs
      have hlt : (tick b c t).shd < 256 := by rw [hs]; unfold dec8; omega
      rw [run_ticks, ih _ hlt, hs, count_fired_uv, if_pos hf]
      unfold dec8
      omega
    · rw [if_neg hf] at hs
      rw [run_ticks, ih _ (by rw [hs]; exact h), hs, count_fired_uv, if_neg hf]
      omega

theorem tick_writes_eq_shutdowns (b : Build) (c : Console) (t : Tick)
    (hp : c.m_BatCycles_prev = c.bq769x_stats.batCycles_ ∧
      c.m_ChargedTimes_prev = c.bq769x_stats.chargedTimes_)
    (hs : t.poll.stats.batCycles_ = c.bq769x_stats.batCycles_ ∧
      t.poll.stats.chargedTimes_ = c.bq769x_stats.chargedTimes_) :
    statsWritesOf (new_trace c (tick b c t)) = shutdownsOf (new_trace c (tick b c t)) := by
  rw [tick_new_trace]
  split_ifs
  · rw [work_events_statsWrites, hp.1, hp.2, hs.1, hs.2]
    simp
  · rfl

theorem run_writes_eq_shutdowns (b : Build) (ts : List Tick) : ∀ c : Console,
    (c.m_BatCycles_prev = c.bq769x_stats.batCycles_ ∧
      c.m_ChargedTimes_prev = c.bq769x_stats.chargedTimes_) →
    (∀ t ∈ ts, t.poll.stats.batCycles_ = c.bq769x_stats.batCycles_ ∧
      t.poll.stats.chargedTimes_ = c.bq769x_stats.chargedTimes_) →
    statsWritesOf (new_trace c (run_ticks b c ts)) =
      shutdownsOf (new_trace c (run_ticks b c ts)) := by
  induction ts with
  | nil => intro c _ _; simp [run_ticks, new_trace, statsWritesOf, shutdownsOf]
  | cons t ts ih =>
    intro c hp hs
    have ht := hs t (List.mem_cons_self t ts)
    obtain ⟨k1, k2, k3, k4⟩ := tick_counters b c t hp ht
    have h2 := ih (tick b c t) ⟨by rw [k1, k3]; exact hp.1, by rw [k2, k4]; exact hp.2⟩
      (fun x hx => by
        rw [k3, k4]
        exact hs x (List.mem_cons_of_mem t hx))
    rw [run_ticks_new_trace_cons, statsWritesOf_append, shutdownsOf_append,
      tick_writes_eq_shutdowns b c t hp ht, h2]

theorem run_no_shutdown (b : Build) (ts : List Tick) : ∀ c : Console, c.shd ≤ 255 →
    count_fired_uv b c ts < c.shd → shutdownsOf (new_trace c (run_ticks b c ts)) = 0 := by
  induction ts with
  | nil => intro c _ _; simp [run_ticks, new_trace, shutdownsOf]
  | cons t ts ih =>
    intro c hle hc
    have hs := tick_shd b c t
    rw [count_fired_uv] at hc
    rw [run_ticks_new_trace_cons, shutdownsOf_append, tick_new_trace]
    by_cases hf : fired_uv b c t = true
    · rw [if_pos hf] at hs hc
      have hd : dec8 c.shd = c.shd - 1 := by unfold dec8; omega
      rw [hd] at hs
      have hfire : fires c t = true := by
        simp only [fired_uv, Bool.and_eq_true] at hf; exact hf.1
      rw [if_pos hfire, work_events_shutdowns, ih _ (by rw [hs]; omega) (by rw [hs]; omega)]
      have : ¬ (dec8 c.shd = 0) := by rw [hd]; omega
      simp [this]
    · rw [if_neg hf] at hs hc
      rw [ih _ (by rw [hs]; exact hle) (by rw [hs]; omega)]
      by_cases hfire : fires c t = true
      · have hu : ¬ (t.poll.error % 256 &&& b.STAT_UV ≠ 0) := by
          intro hu
          apply hf
          simp [fired_uv, hfire, uv_flagged, hu]
        rw [if_pos hfire, work_events_shutdowns]
        simp [hu]
      · simp [hfire, shutdownsOf]

theorem all_fire_uv_count (b : Build) (ts : List Tick) : ∀ c : Console,
    all_fire b c ts = true → (∀ t ∈ ts, uv_flagged b t) → count_fired_uv b c ts = ts.length := by
  induction ts with
  | nil => intro c _ _; rfl
  | cons t ts ih =>
    intro c hf hu
    simp only [all_fire, Bool.and_eq_true] at hf
    have h1 : fired_uv b c t = true := by
      simp [fired_uv, hf.1, hu t (List.mem_cons_self t ts)]
    rw [count_fired_uv, if_pos h1, ih _ hf.2 (fun x hx => hu x (List.mem_cons_of_mem t hx))]
    simp only [List.length_cons]
    omega


theorem tick_lastUpdate (b : Build) (c : Console) (t : Tick) (h : fires c t = true) :
    (tick b c t).m_lastUpdate = t.millis % 4294967296 := by
  rw [tick_fired b c t h]
  exact update_work_lastUpdate b _ _ t.poll

theorem run_ticks_new_trace_append (b : Build) (c : Console) (a l : List Tick) :
    new_trace c (run_ticks b c (a ++ l)) =
      new_trace c (run_ticks b c a) ++
        new_trace (run_ticks b c a) (run_ticks b (run_ticks b c a) l) := by
  apply new_trace_of_append
  rw [run_ticks_append, run_ticks_trace b l (run_ticks b c a), run_ticks_trace b a c,
    List.append_assoc]

theorem uv_run_from_snoc (n : Nat) : ∀ m : Nat, uv_run_from m (n + 1) =
    uv_run_from m n ++ [{ millis := m + 250 * (n + 1), force := false, poll := uv_poll }] := by
  induction n with
  | zero => intro m; simp [uv_run_from]
  | succ n ih =>
    intro m
    rw [uv_run_from, ih (m + 250)]
    simp only [uv_run_from, List.cons_append]
    have : m + 250 + 250 * (n + 1) = m + 250 * (n + 1 + 1) := by omega
    rw [this]

theorem uv_run_from_lastUpdate (n : Nat) : ∀ (m : Nat) (c : Console), c.m_lastUpdate = m →
    m + 250 * n < 4294967296 →
    (run_ticks specBuild c (uv_run_from m n)).m_lastUpdate = m + 250 * n := by
  induction n with
  | zero => intro m c hm _; simpa [uv_run_from, run_ticks] using hm
  | succ n ih =>
    intro m c hm hlt
    have hf := uv_run_from_fires (n + 1) m c hm hlt
    simp only [uv_run_from, all_fire, Bool.and_eq_true] at hf
    have h1 := tick_lastUpdate specBuild c _ hf.1
    have hmod : (m + 250) % 4294967296 = m + 250 := Nat.mod_eq_of_lt (by omega)
    simp only [hmod] at h1
    rw [uv_run_from, run_ticks, ih (m + 250) _ h1 (by omega)]
    omega

theorem uv_run_from_steady (n : Nat) : ∀ m, ∀ t ∈ uv_run_from m n,
    t.poll.stats.batCycles_ = console0.bq769x_stats.batCycles_ ∧
    t.poll.stats.chargedTimes_ = console0.bq769x_stats.chargedTimes_ := by
  induction n with
  | zero => intro m t ht; simp [uv_run_from] at ht
  | succ n ih =>
    intro m t ht
    simp only [uv_run_from, List.mem_cons] at ht
    rcases ht with h | h
    · subst h; simp only [uv_poll, and_self]
    · exact ih _ t h

theorem run_ticks_singleton (b : Build) (c : Console) (t : Tick) :
    run_ticks b c [t] = tick b c t := rfl

theorem count_fired_uv_append (b : Build) (a l : List Tick) : ∀ c : Console,
    count_fired_uv b c (a ++ l) =
      count_fired_uv b c a + count_fired_uv b (run_ticks b c a) l := by
  induction a with
  | nil => intro c; simp [count_fired_uv, run_ticks]
  | cons t ts ih =>
    intro c
    rw [List.cons_append, count_fired_uv, count_fired_uv, run_ticks, ih]
    omega

theorem count_fired_uv_singleton (b : Build) (c : Console) (t : Tick) :
    count_fired_uv b c [t] = if fired_uv b c t = true then 1 else 0 := by
  simp [count_fired_uv]

theorem console0_after_254 :
    (run_ticks specBuild console0 (uv_run_from 0 254)).shd = 1 ∧
    (run_ticks specBuild console0 (uv_run_from 0 254)).m_lastUpdate = 63500 ∧
    count_fired_uv specBuild console0 (uv_run_from 0 254) = 254 := by
  have h0 : console0.m_lastUpdate = 0 := by decide!
  have hs : console0.shd = 255 := by decide!
  have hc : count_fired_uv specBuild console0 (uv_run_from 0 254) = 254 := by
    rw [all_fire_uv_count specBuild _ console0 (uv_run_from_fires 254 0 console0 h0 (by decide))
      (uv_run_from_flagged 254 0), uv_run_from_length]
  refine ⟨?_, ?_, hc⟩
  · rw [run_ticks_shd specBuild _ console0 (by rw [hs]; decide), hs, hc]
  · rw [uv_run_from_lastUpdate 254 0 console0 h0 (by decide)]

theorem console0_after_c11_run :
    fires (run_ticks specBuild console0 (uv_run_from 0 254)) c11_quiet_tick = true ∧
    (run_ticks specBuild console0 c11_run).shd = 1 ∧
    fired_uv specBuild (run_ticks specBuild console0 c11_run) c11_uv_tick = true ∧
    count_fired_uv specBuild console0 c11_run = 254 := by
  obtain ⟨s1, s2, s3⟩ := console0_after_254
  have hq : fires (run_ticks specBuild console0 (uv_run_from 0 254)) c11_quiet_tick = true := by
    simp only [fires, s2, c11_quiet_tick]; decide
  have hnq : fired_uv specBuild (run_ticks specBuild console0 (uv_run_from 0 254))
      c11_quiet_tick = false := by
    have : ¬ uv_flagged specBuild c11_quiet_tick := by decide
    simp [fired_uv, this]
  have hrun : run_ticks specBuild console0 c11_run =
      tick specBuild (run_ticks specBuild console0 (uv_run_from 0 254)) c11_quiet_tick := by
    rw [c11_run, run_ticks_append, run_ticks_singleton]
  have hshd : (run_ticks specBuild console0 c11_run).shd = 1 := by
    rw [hrun, tick_shd, hnq]; simpa using s1
  have hlast : (run_ticks specBuild console0 c11_run).m_lastUpdate = 63750 := by
    rw [hrun, tick_lastUpdate _ _ _ hq]; rfl
  refine ⟨hq, hshd, ?_, ?_⟩
  · have hf : fires (run_ticks specBuild console0 c11_run) c11_uv_tick = true := by
      simp only [fires, hlast, c11_uv_tick]; decide
    have hu : uv_flagged specBuild c11_uv_tick := by decide
    simp [fired_uv, hf, hu]
  · rw [c11_run]
    rw [count_fired_uv_append, s3, count_fired_uv_singleton, hnq]
    rfl

theorem c11_tick_shuts_down :
    BqCall.shutdown ∈ bqCallsOf (new_trace (run_ticks specBuild console0 c11_run)
      (tick specBuild (run_ticks specBuild console0 c11_run) c11_uv_tick)) := by
  obtain ⟨_, hshd, hf, _⟩ := console0_after_c11_run
  rw [tick_shutdown_iff, hshd]
  exact ⟨hf, by decide⟩

/-- C11, as stated, fails: after 254 fired undervoltage ticks a fired tick
without the undervoltage flag follows; the next undervoltage tick, a single
reading preceded by a tick without the flag, commands the shutdown. -/
theorem C11_interrupted_undervoltage_shuts_down :
    ¬ uv_flagged specBuild c11_quiet_tick ∧
    fires (run_ticks specBuild console0 (uv_run_from 0 254)) c11_quiet_tick = true ∧
    uv_flagged specBuild c11_uv_tick ∧
    BqCall.shutdown ∈ bqCallsOf (new_trace (run_ticks specBuild console0 c11_run)
      (tick specBuild (run_ticks specBuild console0 c11_run) c11_uv_tick)) :=
  ⟨by decide, console0_after_c11_run.1, by decide, c11_tick_shuts_down⟩

/-- C11, amended: after the construction of the console and any sequence of
supervisor ticks, a tick commands the debounced shutdown exactly when it
passes the cadence test, carries the undervoltage flag and the number of
fired undervoltage ticks before it is 254 modulo 256; so only if at least 254
fired undervoltage ticks came before it, consecutive or not (the countdown is
never reloaded). -/
theorem C11_shutdown_needs_254_earlier_undervoltage_ticks (b : Build) (ee_conf : bq769_conf)
    (ee_stats : bq769_stats) (millis : Nat) (rx : List Nat) (c : Console) (ts : List Tick)
    (t : Tick) (hc : c = Console.new b ee_conf ee_stats millis rx) :
    (BqCall.shutdown ∈ bqCallsOf (new_trace (run_ticks b c ts) (tick b (run_ticks b c ts) t)) ↔
      fired_uv b (run_ticks b c ts) t = true ∧ count_fired_uv b c ts % 256 = 254) ∧
    (BqCall.shutdown ∈ bqCallsOf (new_trace (run_ticks b c ts) (tick b (run_ticks b c ts) t)) →
      fires (run_ticks b c ts) t = true ∧ uv_flagged b t ∧ 254 ≤ count_fired_uv b c ts) := by
  have h255 : c.shd = 255 := by rw [hc]; rfl
  have hshd := run_ticks_shd b ts c (by rw [h255]; decide)
  rw [h255] at hshd
  have hiff : (BqCall.shutdown ∈ bqCallsOf (new_trace (run_ticks b c ts)
      (tick b (run_ticks b c ts) t)) ↔
      fired_uv b (run_ticks b c ts) t = true ∧ count_fired_uv b c ts % 256 = 254) := by
    rw [tick_shutdown_iff, hshd]
    unfold dec8
    constructor
    · rintro ⟨h1, h2⟩; exact ⟨h1, by omega⟩
    · rintro ⟨h1, h2⟩; exact ⟨h1, by omega⟩
  refine ⟨hiff, fun h => ?_⟩
  obtain ⟨h1, h2⟩ := hiff.1 h
  simp only [fired_uv, Bool.and_eq_true, decide_eq_true_eq] at h1
  exact ⟨h1.1, h1.2, by omega⟩

/-- Witness of C11, amended: on the run of the counterexample the tick that
shuts down is fired, carries the flag and has 254 fired undervoltage ticks
before it. -/
theorem C11_shutdown_needs_254_earlier_undervoltage_ticks_witness :
    fires (run_ticks specBuild console0 c11_run) c11_uv_tick = true ∧
    uv_flagged specBuild c11_uv_tick ∧
    254 ≤ count_fired_uv specBuild console0 c11_run :=
  (C11_shutdown_needs_254_earlier_undervoltage_ticks specBuild conf_blank stats_blank 0 []
    console0 c11_run c11_uv_tick rfl).2 c11_tick_shuts_down

theorem console0_prev_current :
    console0.m_BatCycles_prev = console0.bq769x_stats.batCycles_ ∧
    console0.m_ChargedTimes_prev = console0.bq769x_stats.chargedTimes_ := by
  decide!

/-- C12, as stated, fails: in the run of 255 undervoltage ticks neither
lifetime counter changes, and the statistics record is written once (by the
shutdown sequence of the 255th tick). -/
theorem C12_shutdown_writes_statistics :
    (∀ t ∈ uv_run, t.poll.stats.batCycles_ = console0.bq769x_stats.batCycles_ ∧
      t.poll.stats.chargedTimes_ = console0.bq769x_stats.chargedTimes_) ∧
    statsWritesOf (new_trace console0 (run_ticks specBuild console0 uv_run)) = 1 := by
  refine ⟨uv_run_from_steady 255 0, ?_⟩
  rw [run_writes_eq_shutdowns specBuild uv_run console0 console0_prev_current
    (uv_run_from_steady 255 0)]
  obtain ⟨s1, s2, s3⟩ := console0_after_254
  have hs : console0.shd = 255 := by decide!
  rw [uv_run, uv_run_from_snoc 254 0, run_ticks_new_trace_append, shutdownsOf_append,
    run_no_shutdown specBuild _ console0 (by rw [hs]) (by rw [s3, hs]; decide),
    run_ticks_singleton, tick_new_trace]
  have hf : fires (run_ticks specBuild console0 (uv_run_from 0 254))
      { millis := 0 + 250 * (254 + 1), force := false, poll := uv_poll } = true := by
    simp only [fires, s2]; decide
  rw [if_pos hf, work_events_shutdowns, s1]
  decide

/-- C12, amended: from a state in which the remembered counter values are
current, for every run of supervisor ticks whose polls leave both lifetime
counters as they are, the statistics record is written exactly once per
shutdown sequence of the undervoltage countdown and at no other time; it is
written zero times when the run has fewer fired undervoltage ticks than the
countdown still holds. -/
theorem C12_stats_written_only_by_shutdown (b : Build) (c : Console) (ts : List Tick)
    (hp : c.m_BatCycles_prev = c.bq769x_stats.batCycles_ ∧
      c.m_ChargedTimes_prev = c.bq769x_stats.chargedTimes_)
    (hs : ∀ t ∈ ts, t.poll.stats.batCycles_ = c.bq769x_stats.batCycles_ ∧
      t.poll.stats.chargedTimes_ = c.bq769x_stats.chargedTimes_) :
    statsWritesOf (new_trace c (run_ticks b c ts)) =
      shutdownsOf (new_trace c (run_ticks b c ts)) ∧
    (c.shd ≤ 255 → count_fired_uv b c ts < c.shd →
      statsWritesOf (new_trace c (run_ticks b c ts)) = 0) := by
  have h1 := run_writes_eq_shutdowns b ts c hp hs
  exact ⟨h1, fun hle hc => by rw [h1, run_no_shutdown b ts c hle hc]⟩

/-- Witness of C12, amended: 254 undervoltage ticks on a freshly constructed
console write the statistics zero times. -/
theorem C12_stats_written_only_by_shutdown_witness :
    statsWritesOf (new_trace console0 (run_ticks specBuild console0 (uv_run_from 0 254))) = 0 :=
  (C12_stats_written_only_by_shutdown specBuild console0 (uv_run_from 0 254)
    console0_prev_current (uv_run_from_steady 254 0)).2
    (by decide!) (by rw [console0_after_254.2.2]; decide!)

/-! ## Persistence: round trip and recovery -/

theorem take_length_pred_concat (xs : List Nat) (a : Nat) :
    (xs ++ [a]).take ((xs ++ [a]).length - 1) = xs := by
  simp

theorem le_bytes_one (x : Nat) : le_bytes 1 x = [x % 256] := rfl

theorem crc8_shift_lt (d : Nat) : crc8_shift d < 256 := by
  unfold crc8_shift
  split_ifs
  · exact Nat.xor_lt_two_pow (n := 8) (Nat.mod_lt _ (by decide)) (by decide)
  · exact Nat.mod_lt _ (by decide)

theorem crc8_ccitt_update_lt (a d : Nat) : crc8_ccitt_update a d < 256 := by
  unfold crc8_ccitt_update
  rw [Function.iterate_succ_apply']
  exact crc8_shift_lt _

theorem gencrc8_lt (data : List Nat) (len : Nat) : gencrc8 data len < 256 := by
  unfold gencrc8
  generalize data.take len = l
  induction l using List.reverseRecOn with
  | nil => simp
  | append_singleton xs x _ => rw [List.foldl_append]; exact crc8_ccitt_update_lt _ _

theorem conf_crc_ignores_crc8 (r : bq769_conf) (x : Nat) :
    gencrc8 (conf_bytes { r with crc8 := x }) ((conf_bytes { r with crc8 := x }).length - 1) =
      gencrc8 (conf_bytes r) ((conf_bytes r).length - 1) := by
  unfold gencrc8
  simp only [conf_bytes, le_bytes_one, take_length_pred_concat]

theorem stats_crc_ignores_crc8 (r : bq769_stats) (x : Nat) :
    gencrc8 (stats_bytes { r with crc8 := x })
      ((stats_bytes { r with crc8 := x }).length - 1) =
      gencrc8 (stats_bytes r) ((stats_bytes r).length - 1) := by
  unfold gencrc8
  simp only [stats_bytes, le_bytes_one, take_length_pred_concat]

theorem conf_save_valid (c : Console) :
    c.conf_save.In_EEPROM_conf = c.conf_save.bq769x_conf ∧
    c.conf_save.bq769x_conf.crc8 = gencrc8 (conf_bytes c.conf_save.bq769x_conf)
      ((conf_bytes c.conf_save.bq769x_conf).length - 1) := by
  refine ⟨rfl, ?_⟩
  simp only [conf_save, gencrc8, conf_bytes, le_bytes_one, take_length_pred_concat]

theorem stats_save_valid (c : Console) :
    c.stats_save.In_EEPROM_stats = c.stats_save.bq769x_stats ∧
    c.stats_save.bq769x_stats.crc8 = gencrc8 (stats_bytes c.stats_save.bq769x_stats)
      ((stats_bytes c.stats_save.bq769x_stats).length - 1) := by
  refine ⟨rfl, ?_⟩
  simp only [stats_save, gencrc8, stats_bytes, le_bytes_one, take_length_pred_concat]

theorem conf_load_ok (b : Build) (c : Console)
    (h : c.In_EEPROM_conf.crc8 = gencrc8 (conf_bytes c.In_EEPROM_conf)
      ((conf_bytes c.In_EEPROM_conf).length - 1)) :
    conf_load b c = { c with bq769x_conf := c.In_EEPROM_conf
                             trace := c.trace ++ [Event.msg Msg.conf_load, Event.msg Msg.load_ok] } := by
  simp only [conf_load, Console.emit]
  rw [if_neg (not_not.mpr h)]
  simp

theorem stats_load_ok (c : Console)
    (h : c.In_EEPROM_stats.crc8 = gencrc8 (stats_bytes c.In_EEPROM_stats)
      ((stats_bytes c.In_EEPROM_stats).length - 1)) :
    stats_load c = { c with bq769x_stats := c.In_EEPROM_stats
                            trace := c.trace ++ [Event.msg Msg.stats_load, Event.msg Msg.load_ok] } := by
  simp only [stats_load, Console.emit]
  rw [if_neg (not_not.mpr h)]
  simp

theorem conf_bytes_getLast (r : bq769_conf) :
    (conf_bytes r).getLast? = some (r.crc8 % 256) := by
  simp only [conf_bytes, le_bytes_one, List.getLast?_concat]

theorem stats_bytes_getLast (r : bq769_stats) :
    (stats_bytes r).getLast? = some (r.crc8 % 256) := by
  simp only [stats_bytes, le_bytes_one, List.getLast?_concat]

theorem new_of_valid (b : Build) (ee_conf : bq769_conf) (ee_stats : bq769_stats)
    (millis : Nat) (rx : List Nat)
    (h1 : ee_conf.crc8 = gencrc8 (conf_bytes ee_conf) ((conf_bytes ee_conf).length - 1))
    (h2 : ee_stats.crc8 = gencrc8 (stats_bytes ee_stats) ((stats_bytes ee_stats).length - 1)) :
    (Console.new b ee_conf ee_stats millis rx).bq769x_conf = ee_conf ∧
    (Console.new b ee_conf ee_stats millis rx).bq769x_stats = ee_stats ∧
    (Console.new b ee_conf ee_stats millis rx).In_EEPROM_conf = ee_conf ∧
    (Console.new b ee_conf ee_stats millis rx).In_EEPROM_stats = ee_stats ∧
    (Console.new b ee_conf ee_stats millis rx).trace =
      [Event.msg Msg.banner, Event.msg Msg.conf_load, Event.msg Msg.load_ok,
       Event.msg Msg.stats_load, Event.msg Msg.load_ok] := by
  let c0 : Console :=
    { bq769x_conf := ee_conf, bq769x_stats := ee_stats, alertInterruptFlag_ := false,
      handle_result := false, param_len := 0, handle_len := 0, m_lastUpdate := 0,
      m_oldMillis := 0, m_millisOverflows := 0, len := 0, m_BatCycles_prev := 0,
      m_ChargedTimes_prev := 0, shd := 0, buffer := List.replicate CONS_BUFF 0,
      state := SerialState.CONSOLE_STARTUP, handle_buffer := [], param := none,
      In_EEPROM_conf := ee_conf, In_EEPROM_stats := ee_stats, millis := millis,
      ser_rx := rx, trace := [Event.msg Msg.banner] }
  have hc1 : conf_load b c0 = _ := conf_load_ok b c0 h1
  have h2' : (conf_load b c0).In_EEPROM_stats.crc8 =
      gencrc8 (stats_bytes (conf_load b c0).In_EEPROM_stats)
        ((stats_bytes (conf_load b c0).In_EEPROM_stats).length - 1) := by
    rw [hc1]; exact h2
  have hc2 := stats_load_ok (conf_load b c0) h2'
  have hf : Console.new b ee_conf ee_stats millis rx =
      { (conf_load b c0).stats_load with
        m_BatCycles_prev := (conf_load b c0).stats_load.bq769x_stats.batCycles_
        m_ChargedTimes_prev := (conf_load b c0).stats_load.bq769x_stats.chargedTimes_
        shd := 255 } := rfl
  rw [hf, hc2, hc1]
  exact ⟨rfl, rfl, rfl, rfl, rfl⟩

/-- C16: round trip.  After conf_save (stats_save) the last byte of the stored
image is gencrc8 over all the bytes before it, and loading that image in any
other instance takes the OK path: the two messages of a successful load are
the only output, nothing is written, and the record in memory equals the saved
record field for field.  A freshly constructed instance over both saved images
holds both saved records. -/
theorem C16_round_trip (b : Build) (c fresh : Console) (millis : Nat) (rx : List Nat) :
    (let s := c.conf_save
     let f := conf_load b { fresh with In_EEPROM_conf := s.In_EEPROM_conf }
     (conf_bytes s.In_EEPROM_conf).getLast? =
        some (gencrc8 (conf_bytes s.In_EEPROM_conf) ((conf_bytes s.In_EEPROM_conf).length - 1)) ∧
     f.bq769x_conf = s.bq769x_conf ∧
     f.In_EEPROM_conf = s.In_EEPROM_conf ∧
     f.trace = fresh.trace ++ [Event.msg Msg.conf_load, Event.msg Msg.load_ok]) ∧
    (let s := c.stats_save
     let f := stats_load { fresh with In_EEPROM_stats := s.In_EEPROM_stats }
     (stats_bytes s.In_EEPROM_stats).getLast? =
        some (gencrc8 (stats_bytes s.In_EEPROM_stats)
          ((stats_bytes s.In_EEPROM_stats).length - 1)) ∧
     f.bq769x_stats = s.bq769x_stats ∧
     f.In_EEPROM_stats = s.In_EEPROM_stats ∧
     f.trace = fresh.trace ++ [Event.msg Msg.stats_load, Event.msg Msg.load_ok]) ∧
    (let s := c.conf_save.stats_save
     let f := Console.new b s.In_EEPROM_conf s.In_EEPROM_stats millis rx
     f.bq769x_conf = s.bq769x_conf ∧ f.bq769x_stats = s.bq769x_stats ∧
     f.In_EEPROM_conf = s.In_EEPROM_conf ∧ f.In_EEPROM_stats = s.In_EEPROM_stats ∧
     f.trace = [Event.msg Msg.banner, Event.msg Msg.conf_load, Event.msg Msg.load_ok,
                Event.msg Msg.stats_load, Event.msg Msg.load_ok]) := by
  have hc := conf_save_valid c
  have hs := stats_save_valid c
  have hs2 := stats_save_valid c.conf_save
  refine ⟨?_, ?_, ?_⟩
  · intro s f
    have hv : s.In_EEPROM_conf.crc8 = gencrc8 (conf_bytes s.In_EEPROM_conf)
        ((conf_bytes s.In_EEPROM_conf).length - 1) := by
      show c.conf_save.In_EEPROM_conf.crc8 = gencrc8 (conf_bytes c.conf_save.In_EEPROM_conf) _
      rw [hc.1]; exact hc.2
    have hf : f = _ := conf_load_ok b { fresh with In_EEPROM_conf := s.In_EEPROM_conf } hv
    refine ⟨?_, ?_, ?_, ?_⟩
    · rw [conf_bytes_getLast, ← hv, hv, Nat.mod_eq_of_lt (gencrc8_lt _ _)]
    · rw [hf]; exact hc.1
    · rw [hf]
    · rw [hf]
  · intro s f
    have hv : s.In_EEPROM_stats.crc8 = gencrc8 (stats_bytes s.In_EEPROM_stats)
        ((stats_bytes s.In_EEPROM_stats).length - 1) := by
      show c.stats_save.In_EEPROM_stats.crc8 = gencrc8 (stats_bytes c.stats_save.In_EEPROM_stats) _
      rw [hs.1]; exact hs.2
    have hf : f = _ := stats_load_ok { fresh with In_EEPROM_stats := s.In_EEPROM_stats } hv
    refine ⟨?_, ?_, ?_, ?_⟩
    · rw [stats_bytes_getLast, ← hv, hv, Nat.mod_eq_of_lt (gencrc8_lt _ _)]
    · rw [hf]; exact hs.1
    · rw [hf]
    · rw [hf]
  · intro s f
    have e1 : s.In_EEPROM_conf = c.conf_save.In_EEPROM_conf := rfl
    have e2 : s.bq769x_conf = c.conf_save.bq769x_conf := rfl
    have hv1 : s.In_EEPROM_conf.crc8 = gencrc8 (conf_bytes s.In_EEPROM_conf)
        ((conf_bytes s.In_EEPROM_conf).length - 1) := by
      rw [e1, hc.1]; exact hc.2
    have hv2 : s.In_EEPROM_stats.crc8 = gencrc8 (stats_bytes s.In_EEPROM_stats)
        ((stats_bytes s.In_EEPROM_stats).length - 1) := by
      show c.conf_save.stats_save.In_EEPROM_stats.crc8 =
        gencrc8 (stats_bytes c.conf_save.stats_save.In_EEPROM_stats) _
      rw [hs2.1]; exact hs2.2
    have hn := new_of_valid b s.In_EEPROM_conf s.In_EEPROM_stats millis rx hv1 hv2
    refine ⟨?_, ?_, hn.2.2.1, hn.2.2.2.1, hn.2.2.2.2⟩
    · rw [hn.1, e1, e2]; exact hc.1
    · rw [hn.2.1]; exact hs2.1

theorem conf_load_bad (b : Build) (c : Console)
    (h : c.In_EEPROM_conf.crc8 ≠ gencrc8 (conf_bytes c.In_EEPROM_conf)
      ((conf_bytes c.In_EEPROM_conf).length - 1)) :
    conf_load b c = conf_save
      { c with bq769x_conf := conf_default_rec b c.In_EEPROM_conf
               trace := c.trace ++ [Event.msg Msg.conf_load, Event.msg Msg.bad_crc] } := by
  simp only [conf_load, Console.emit]
  rw [if_pos h]
  simp [conf_default, Console.emit]

theorem stats_load_bad (c : Console)
    (h : c.In_EEPROM_stats.crc8 ≠ gencrc8 (stats_bytes c.In_EEPROM_stats)
      ((stats_bytes c.In_EEPROM_stats).length - 1)) :
    stats_load c = stats_save
      { c with bq769x_stats := stats_zero c.In_EEPROM_stats
               trace := c.trace ++ [Event.msg Msg.stats_load, Event.msg Msg.bad_crc] } := by
  simp only [stats_load, Console.emit]
  rw [if_pos h]
  simp

theorem RT_Beta_default (b : Build) (r : bq769_conf) (i : Nat)
    (hi : i < r.RT_Beta.length) (h : i = 0 ∨ (b.IC_BQ76940 = true ∧ i ≤ 2)) :
    (conf_default_rec b r).RT_Beta[i]? = some 3435 := by
  simp only [conf_default_rec]
  cases hb : b.IC_BQ76940
  · rcases h with h | h
    · subst h; simp [List.getElem?_set, hi]
    · rw [hb] at h; exact absurd h.1 (by decide)
  · simp only [if_true]
    have : i = 0 ∨ i = 1 ∨ i = 2 := by rcases h with h | h <;> omega
    rcases this with h | h | h
    · subst h; simp [List.getElem?_set]; exact List.length_pos.mp hi
    · subst h; simp [List.getElem?_set]; omega
    · subst h; simp [List.getElem?_set]; omega

/-- C17: corruption recovery.  When the stored checksum of the configuration
image differs from gencrc8 of the bytes before it, conf_load leaves every
parameter that conf_default assigns at its hard-coded default (RT_Beta[1] and
RT_Beta[2] are assigned in the build for the BQ76940), and when that of the
statistics image differs, stats_load leaves every field of the statistics other
than the save time and the checksum zero; in both cases the record is written
back at once: the stored image equals the record in memory and carries a valid
checksum, and the only output is the two messages of the load. -/
theorem C17_corruption_recovery (b : Build) (c : Console) :
    (c.In_EEPROM_conf.crc8 ≠ gencrc8 (conf_bytes c.In_EEPROM_conf)
        ((conf_bytes c.In_EEPROM_conf).length - 1) →
      ((conf_load b c).bq769x_conf.BQ_dbg = 0 ∧
       (conf_load b c).bq769x_conf.Allow_Charging = 1 ∧
       (conf_load b c).bq769x_conf.Allow_Discharging = 1 ∧
       (conf_load b c).bq769x_conf.RT_bits = b.BQ769X0_THERMISTORS ∧
       (conf_load b c).bq769x_conf.RS_uOhm = 1000 ∧
       (∀ i, i < c.In_EEPROM_conf.RT_Beta.length → (i = 0 ∨ (b.IC_BQ76940 = true ∧ i ≤ 2)) →
          (conf_load b c).bq769x_conf.RT_Beta[i]? = some 3435) ∧
       (conf_load b c).bq769x_conf.Cell_CapaNom_mV = 3600 ∧
       (conf_load b c).bq769x_conf.Cell_CapaFull_mV = 4180 ∧
       (conf_load b c).bq769x_conf.Batt_CapaNom_mAsec = 360000 ∧
       (conf_load b c).bq769x_conf.CurrentThresholdIdle_mA = 100 ∧
       (conf_load b c).bq769x_conf.Cell_TempCharge_min = 0 ∧
       (conf_load b c).bq769x_conf.Cell_TempCharge_max = 500 ∧
       (conf_load b c).bq769x_conf.Cell_TempDischarge_min = -200 ∧
       (conf_load b c).bq769x_conf.Cell_TempDischarge_max = 650 ∧
       (conf_load b c).bq769x_conf.BalancingInCharge = 1 ∧
       (conf_load b c).bq769x_conf.BalancingEnable = 1 ∧
       (conf_load b c).bq769x_conf.BalancingCellMin_mV = 3600 ∧
       (conf_load b c).bq769x_conf.BalancingCellMaxDifference_mV = 10 ∧
       (conf_load b c).bq769x_conf.BalancingIdleTimeMin_s = 1800 ∧
       (conf_load b c).bq769x_conf.Cell_OCD_mA = 5500 ∧
       (conf_load b c).bq769x_conf.Cell_OCD_ms = 3000 ∧
       (conf_load b c).bq769x_conf.Cell_SCD_mA = 80000 ∧
       (conf_load b c).bq769x_conf.Cell_SCD_us = 200 ∧
       (conf_load b c).bq769x_conf.Cell_ODP_mA = 40000 ∧
       (conf_load b c).bq769x_conf.Cell_ODP_ms = 2000 ∧
       (conf_load b c).bq769x_conf.Cell_OVP_mV = 4200 ∧
       (conf_load b c).bq769x_conf.Cell_OVP_sec = 2 ∧
       (conf_load b c).bq769x_conf.Cell_UVP_mV = 2850 ∧
       (conf_load b c).bq769x_conf.Cell_UVP_sec = 2 ∧
       (conf_load b c).bq769x_conf.adcCellsOffset_ =
          List.replicate c.In_EEPROM_conf.adcCellsOffset_.length 0) ∧
      (conf_load b c).bq769x_conf.ts = c.Timer_millis ∧
      (conf_load b c).In_EEPROM_conf = (conf_load b c).bq769x_conf ∧
      (conf_load b c).bq769x_conf.crc8 = gencrc8 (conf_bytes (conf_load b c).bq769x_conf)
        ((conf_bytes (conf_load b c).bq769x_conf).length - 1) ∧
      (conf_load b c).trace = c.trace ++
        [Event.msg Msg.conf_load, Event.msg Msg.bad_crc, Event.eeprom_write_conf]) ∧
    (c.In_EEPROM_stats.crc8 ≠ gencrc8 (stats_bytes c.In_EEPROM_stats)
        ((stats_bytes c.In_EEPROM_stats).length - 1) →
      ((stats_load c).bq769x_stats.adcGain_ = 0 ∧
       (stats_load c).bq769x_stats.adcOffset_ = 0 ∧
       (stats_load c).bq769x_stats.batCycles_ = 0 ∧
       (stats_load c).bq769x_stats.chargedTimes_ = 0 ∧
       (stats_load c).bq769x_stats.idCellMinVoltage_ = 0 ∧
       (stats_load c).bq769x_stats.idCellMaxVoltage_ = 0 ∧
       (stats_load c).bq769x_stats.idleTimestamp_ = 0 ∧
       (stats_load c).bq769x_stats.chargeTimestamp_ = 0 ∧
       (stats_load c).bq769x_stats.errorCounter_ =
          List.replicate c.In_EEPROM_stats.errorCounter_.length 0 ∧
       (stats_load c).bq769x_stats.errorTimestamps_ =
          List.replicate c.In_EEPROM_stats.errorTimestamps_.length 0 ∧
       (stats_load c).bq769x_stats.cellIdMap_ =
          List.replicate c.In_EEPROM_stats.cellIdMap_.length 0 ∧
       (stats_load c).bq769x_stats.cellVoltages_ =
          List.replicate c.In_EEPROM_stats.cellVoltages_.length 0 ∧
       (stats_load c).bq769x_stats.temperatures_ =
          List.replicate c.In_EEPROM_stats.temperatures_.length 0) ∧
      (stats_load c).bq769x_stats.ts = c.Timer_millis ∧
      (stats_load c).In_EEPROM_stats = (stats_load c).bq769x_stats ∧
      (stats_load c).bq769x_stats.crc8 = gencrc8 (stats_bytes (stats_load c).bq769x_stats)
        ((stats_bytes (stats_load c).bq769x_stats).length - 1) ∧
      (stats_load c).trace = c.trace ++
        [Event.msg Msg.stats_load, Event.msg Msg.bad_crc, Event.eeprom_write_stats]) := by
  constructor
  · intro h
    rw [conf_load_bad b c h]
    refine ⟨?_, ?_, (conf_save_valid _).1, (conf_save_valid _).2, ?_⟩
    · refine ⟨?_, ?_, ?_, ?_, ?_, ?_, ?_, ?_, ?_, ?_, ?_, ?_, ?_, ?_, ?_, ?_, ?_, ?_, ?_, ?_,
        ?_, ?_, ?_, ?_, ?_, ?_, ?_, ?_, ?_, ?_⟩
      case refine_6 =>
        intro i hi hd
        exact RT_Beta_default b c.In_EEPROM_conf i hi hd
      case refine_30 =>
        simp only [conf_save, conf_default_rec, List.map_const']
      all_goals simp only [conf_save, conf_default_rec]
    · simp only [conf_save, Timer_millis]
    · simp only [conf_save, List.append_assoc, List.cons_append, List.nil_append]
  · intro h
    rw [stats_load_bad c h]
    refine ⟨?_, ?_, (stats_save_valid _).1, (stats_save_valid _).2, ?_⟩
    · refine ⟨?_, ?_, ?_, ?_, ?_, ?_, ?_, ?_, ?_, ?_, ?_, ?_, ?_⟩
      all_goals simp only [stats_save, stats_zero, List.map_const']
    · simp only [stats_save, Timer_millis]
    · simp only [stats_save, List.append_assoc, List.cons_append, List.nil_append]

/-- Witness of C17: both stored images of console_corrupt fail the checksum
test; the loads restore the overvoltage threshold 4200 and the cycle count 0
and write valid images back. -/
theorem C17_corruption_recovery_witness :
    (conf_load specBuild console_corrupt).bq769x_conf.Cell_OVP_mV = 4200 ∧
    (conf_load specBuild console_corrupt).In_EEPROM_conf =
      (conf_load specBuild console_corrupt).bq769x_conf ∧
    (stats_load console_corrupt).bq769x_stats.batCycles_ = 0 ∧
    (stats_load console_corrupt).In_EEPROM_stats = (stats_load console_corrupt).bq769x_stats :=
  ⟨((C17_corruption_recovery specBuild console_corrupt).1 (by decide!)).1.2.2.2.2.2.2.2.2.2.2.2.2.2.2.2.2.2.2.2.2.2.2.2.2.2.1,
   ((C17_corruption_recovery specBuild console_corrupt).1 (by decide!)).2.2.1,
   ((C17_corruption_recovery specBuild console_corrupt).2 (by decide!)).1.2.2.1,
   ((C17_corruption_recovery specBuild console_corrupt).2 (by decide!)).2.2.1⟩

/-! ## Setters with special argument formats -/

theorem digitsVal_stop (tail : List Nat) (ht : isdigit (cget tail 0) = false) (acc : Nat) :
    digitsVal tail acc = acc := by
  cases tail with
  | nil => rfl
  | cons t ts =>
    have : isdigit t = false := by simpa [cget] using ht
    simp [digitsVal, this]

theorem digitsVal_text (ds : List Nat) (hds : ∀ d ∈ ds, d < 10) (tail : List Nat)
    (ht : isdigit (cget tail 0) = false) (acc : Nat) :
    digitsVal (digits_text ds ++ tail) acc = ds.foldl (fun a d => a * 10 + d) acc := by
  induction ds generalizing acc with
  | nil => simpa [digits_text] using digitsVal_stop tail ht acc
  | cons d ds ih =>
    have hd : d < 10 := hds d (List.mem_cons_self _ _)
    have hdig : isdigit (d + 48) = true := by simp [isdigit]; omega
    have ih2 := ih (fun e he => hds e (List.mem_cons_of_mem _ he)) (acc * 10 + d)
    simp only [digits_text, List.map_cons, List.cons_append, digitsVal, hdig, if_true,
      List.foldl_cons, Nat.add_sub_cancel] at ih2 ⊢
    exact ih2

theorem strtol10_text (ds : List Nat) (hne : ds ≠ []) (hds : ∀ d ∈ ds, d < 10)
    (tail : List Nat) (ht : isdigit (cget tail 0) = false) :
    strtol10 (digits_text ds ++ tail) = (decimal_value ds : Int) := by
  have hv := digitsVal_text ds hds tail ht 0
  cases ds with
  | nil => exact absurd rfl hne
  | cons d ds =>
    have hd : d < 10 := hds d (List.mem_cons_self _ _)
    have hsp : isspace (d + 48) = false := by simp [isspace]
    unfold strtol10
    simp only [digits_text, List.map_cons, List.cons_append] at hv ⊢
    rw [List.dropWhile_cons_of_neg (by simp [hsp])]
    split
    · rename_i r heq
      have : d + 48 = 45 := (List.cons.inj heq).1
      omega
    · rename_i r heq
      have : d + 48 = 43 := (List.cons.inj heq).1
      omega
    · rw [hv]; rfl

theorem arg_text_split (c : Console) (s : List Nat) (h : arg_text c s) :
    c.param_len = s.length ∧
    c.param.getD [] = s ++ (c.param.getD []).drop s.length ∧
    cget ((c.param.getD []).drop s.length) 0 = 0 := by
  obtain ⟨h1, h2, h3⟩ := h
  refine ⟨h1, ?_, ?_⟩
  · conv_lhs => rw [← List.take_append_drop s.length (c.param.getD [])]
    rw [h2]
  · simpa [cget, List.getD_eq_getElem?_getD] using h3

theorem s32_small (x : Int) (h0 : -2147483648 ≤ x) (h1 : x < 2147483648) : s32 x = x := by
  unfold s32; omega

theorem capacity_product (h : Nat) (h0 : 0 < h) (h1 : h * 3600 < 2 ^ 31) :
    s32 (h : Int) ≠ 0 ∧ s32 (s32 (s32 (h : Int) * 60) * 60) = ((h * 3600 : Nat) : Int) := by
  have e1 : s32 (h : Int) = h := s32_small _ (by omega) (by omega)
  have e2 : s32 ((h : Int) * 60) = (h : Int) * 60 := s32_small _ (by omega) (by omega)
  have e3 : s32 ((h : Int) * 60 * 60) = (h : Int) * 60 * 60 := s32_small _ (by omega) (by omega)
  rw [e1, e2, e3]
  constructor
  · omega
  · push_cast; ring

/-- C18: Console::cmd_Batt_CapaNom_mAsec with a non-empty argument.  When the
argument parses (atol) as a positive h whose product h*3600 fits the 32 bit
signed arithmetic of the setter, in particular when it is the decimal numeral
of such an h, the stored Batt_CapaNom_mAsec becomes h*3600; when the argument
parses as zero the setter only prints the usage hint and the parameter, and
the whole configuration is unchanged. -/
theorem C18_capacity_setter (b : Build) (c : Console) (hp : c.param_len ≠ 0) :
    (∀ h : Nat, 0 < h → h * 3600 < 2 ^ 31 → strtol10 (c.param.getD []) = (h : Int) →
      (cmd_Batt_CapaNom_mAsec b c).bq769x_conf.Batt_CapaNom_mAsec = ((h * 3600 : Nat) : Int)) ∧
    (∀ ds : List Nat, (∀ d ∈ ds, d < 10) → arg_text c (digits_text ds) →
      0 < decimal_value ds → decimal_value ds * 3600 < 2 ^ 31 →
      (cmd_Batt_CapaNom_mAsec b c).bq769x_conf.Batt_CapaNom_mAsec =
        ((decimal_value ds * 3600 : Nat) : Int)) ∧
    (atol (c.param.getD []) = 0 →
      (cmd_Batt_CapaNom_mAsec b c).bq769x_conf = c.bq769x_conf ∧
      (cmd_Batt_CapaNom_mAsec b c).trace = c.trace ++
        [Event.write_help b.STR_cmd_Batt_CapaNom_mAsec,
         Event.print_conf PrintParam.Conf_Batt_CapaNom_mAsec]) := by
  have key : ∀ h : Nat, 0 < h → h * 3600 < 2 ^ 31 → strtol10 (c.param.getD []) = (h : Int) →
      (cmd_Batt_CapaNom_mAsec b c).bq769x_conf.Batt_CapaNom_mAsec =
        ((h * 3600 : Nat) : Int) := by
    intro h h0 h1 hs
    obtain ⟨hn, hv⟩ := capacity_product h h0 h1
    have ht : atol (c.param.getD []) ≠ 0 := by unfold atol; rw [hs]; exact hn
    simp only [cmd_Batt_CapaNom_mAsec, if_pos hp, if_pos ht, print_conf, emit, withConf]
    unfold atol; rw [hs]; exact hv
  refine ⟨key, ?_, ?_⟩
  · intro ds hds ha h0 h1
    obtain ⟨_, hsplit, hterm⟩ := arg_text_split c _ ha
    have hne : ds ≠ [] := by
      rintro rfl
      simp [decimal_value] at h0
    refine key _ h0 h1 ?_
    rw [hsplit]
    exact strtol10_text ds hne hds _ (by rw [hterm]; rfl)
  · intro hz
    simp only [cmd_Batt_CapaNom_mAsec, if_pos hp, hz, ne_eq, not_true_eq_false, if_false,
      print_conf, emit, write_help, List.append_assoc, List.cons_append, List.nil_append,
      and_self]

/-- Witness of C18: the argument "10" stores 36000; the arguments "0" and
"abc" parse as zero and leave the configuration as it is. -/
theorem C18_capacity_setter_witness :
    (cmd_Batt_CapaNom_mAsec specBuild (with_arg console0 "10")).bq769x_conf.Batt_CapaNom_mAsec
      = 36000 ∧
    (cmd_Batt_CapaNom_mAsec specBuild (with_arg console0 "0")).bq769x_conf =
      (with_arg console0 "0").bq769x_conf ∧
    (cmd_Batt_CapaNom_mAsec specBuild (with_arg console0 "abc")).bq769x_conf =
      (with_arg console0 "abc").bq769x_conf := by
  refine ⟨?_, ?_, ?_⟩
  · have h := (C18_capacity_setter specBuild (with_arg console0 "10") (by decide!)).2.1 [1, 0]
      (by decide) (by decide!) (by decide) (by decide)
    exact h
  · exact ((C18_capacity_setter specBuild (with_arg console0 "0") (by decide!)).2.2
      (by decide!)).1
  · exact ((C18_capacity_setter specBuild (with_arg console0 "abc") (by decide!)).2.2
      (by decide!)).1

theorem rt_bits_spec (R x y z : Nat) (hR : R < 256) (hx : x < 2) (hy : y < 2) (hz : z < 2) :
    Nat.testBit (rt_bit (rt_bit (rt_bit R 0 x) 1 y) 2 z) 0 = decide (x = 1) ∧
    Nat.testBit (rt_bit (rt_bit (rt_bit R 0 x) 1 y) 2 z) 1 = decide (y = 1) ∧
    Nat.testBit (rt_bit (rt_bit (rt_bit R 0 x) 1 y) 2 z) 2 = decide (z = 1) ∧
    ∀ i, i < 8 → 3 ≤ i →
      Nat.testBit (rt_bit (rt_bit (rt_bit R 0 x) 1 y) 2 z) i = Nat.testBit R i := by
  interval_cases x <;> interval_cases y <;> interval_cases z <;> revert R <;> decide!

theorem s16_small (x : Int) (h0 : -32768 ≤ x) (h1 : x < 32768) : s16 x = x := by
  unfold s16; omega

theorem u8_small (n : Nat) (h : n < 256) : u8 (n : Int) = n := by
  unfold u8
  rw [Int.emod_eq_of_lt (by omega) (by omega)]
  rfl

theorem u16_small (n : Nat) (h : n < 65536) : u16 (n : Int) = n := by
  unfold u16
  rw [Int.emod_eq_of_lt (by omega) (by omega)]
  rfl

theorem atoi_text (ds : List Nat) (hne : ds ≠ []) (hds : ∀ d ∈ ds, d < 10)
    (tail : List Nat) (ht : isdigit (cget tail 0) = false) (hv : decimal_value ds < 32768) :
    atoi (digits_text ds ++ tail) = (decimal_value ds : Int) := by
  unfold atoi
  rw [strtol10_text ds hne hds tail ht]
  exact s16_small _ (by omega) (by omega)

/-- C19: Console::cmd_RT_bits with a non-empty argument.  When the length of
the argument is not 5 the setter only prints the usage hint and the parameter:
the configuration, RT_bits included, is unchanged.  When the argument is the
five characters `a b c`, each of a, b, c the digit 0 or 1, bit 0 of RT_bits
becomes a, bit 1 becomes b, bit 2 becomes c, and the bits 3 to 7 keep their
values. -/
theorem C19_RT_bits_setter (b : Build) (c : Console) (hp : c.param_len ≠ 0) :
    (c.param_len ≠ 5 →
      (cmd_RT_bits b c).bq769x_conf = c.bq769x_conf ∧
      (cmd_RT_bits b c).trace = c.trace ++
        [Event.write_help b.STR_cmd_RT_bits, Event.print_conf PrintParam.Conf_RT_bits]) ∧
    (∀ x y z : Nat, x ≤ 1 → y ≤ 1 → z ≤ 1 →
      arg_text c [x + 48, 32, y + 48, 32, z + 48] → c.bq769x_conf.RT_bits < 256 →
      Nat.testBit (cmd_RT_bits b c).bq769x_conf.RT_bits 0 = decide (x = 1) ∧
      Nat.testBit (cmd_RT_bits b c).bq769x_conf.RT_bits 1 = decide (y = 1) ∧
      Nat.testBit (cmd_RT_bits b c).bq769x_conf.RT_bits 2 = decide (z = 1) ∧
      ∀ i, 3 ≤ i → i ≤ 7 →
        Nat.testBit (cmd_RT_bits b c).bq769x_conf.RT_bits i =
          Nat.testBit c.bq769x_conf.RT_bits i) := by
  constructor
  · intro h5
    simp only [cmd_RT_bits, if_pos hp, if_neg h5, print_conf, emit, write_help,
      List.append_assoc, List.cons_append, List.nil_append, and_self]
  · intro x y z hx hy hz ha hR
    obtain ⟨hl, hsplit, hterm⟩ := arg_text_split c _ ha
    simp only [List.length_cons, List.length_nil] at hl hsplit hterm
    have hnd : isdigit (cget ((c.param.getD []).drop 5) 0) = false := by
      rw [hterm]; rfl
    have one : ∀ d : Nat, d ≤ 1 → ∀ e ∈ [d], e < 10 := by
      intro d hd e he
      rw [List.mem_singleton] at he
      omega
    have val : ∀ d : Nat, d ≤ 1 → decimal_value [d] = d := by
      intro d _
      simp [decimal_value]
    have a0 : c.atoi_param 0 = (x : Int) := by
      unfold atoi_param
      rw [hsplit]
      have := atoi_text [x] (by simp) (one x hx)
        (32 :: (y + 48) :: 32 :: (z + 48) :: (c.param.getD []).drop 5) rfl
        (by rw [val x hx]; omega)
      rw [val x hx] at this
      exact this
    have a2 : c.atoi_param 2 = (y : Int) := by
      unfold atoi_param
      rw [hsplit]
      have := atoi_text [y] (by simp) (one y hy)
        (32 :: (z + 48) :: (c.param.getD []).drop 5) rfl
        (by rw [val y hy]; omega)
      rw [val y hy] at this
      exact this
    have a4 : c.atoi_param 4 = (z : Int) := by
      unfold atoi_param
      rw [hsplit]
      have := atoi_text [z] (by simp) (one z hz) ((c.param.getD []).drop 5) hnd
        (by rw [val z hz]; omega)
      rw [val z hz] at this
      exact this
    have h5 : c.param_len = 5 := hl
    simp only [cmd_RT_bits, if_pos hp, if_pos h5, print_conf, emit, withConf, a0, a2, a4,
      u8_small x (by omega), u8_small y (by omega), u8_small z (by omega)]
    obtain ⟨r0, r1, r2, r3⟩ := rt_bits_spec c.bq769x_conf.RT_bits x y z hR
      (by omega) (by omega) (by omega)
    exact ⟨r0, r1, r2, fun i h3 h7 => r3 i (by omega) h3⟩

/-- Witness of C19: on the default mask 7 (bits 0, 1, 2 set) the argument
`1 0 1` clears bit 1 and keeps bits 0 and 2; the argument `1 0` of length 3 is
rejected. -/
theorem C19_RT_bits_setter_witness :
    (cmd_RT_bits specBuild (with_arg console0 "1 0 1")).bq769x_conf.RT_bits.testBit 0 = true ∧
    (cmd_RT_bits specBuild (with_arg console0 "1 0 1")).bq769x_conf.RT_bits.testBit 1 = false ∧
    (cmd_RT_bits specBuild (with_arg console0 "1 0 1")).bq769x_conf.RT_bits.testBit 2 = true ∧
    (cmd_RT_bits specBuild (with_arg console0 "1 0")).bq769x_conf =
      (with_arg console0 "1 0").bq769x_conf := by
  have h := (C19_RT_bits_setter specBuild (with_arg console0 "1 0 1") (by decide!)).2 1 0 1
    (by decide) (by decide) (by decide) (by decide!) (by decide!)
  have h2 := (C19_RT_bits_setter specBuild (with_arg console0 "1 0") (by decide!)).1
    (by decide!)
  exact ⟨h.1, h.2.1, h.2.2.1, h2.1⟩

theorem foldl_decimal_lt (ds : List Nat) (hds : ∀ d ∈ ds, d < 10) (acc : Nat) :
    ds.foldl (fun a d => a * 10 + d) acc < (acc + 1) * 10 ^ ds.length := by
  induction ds generalizing acc with
  | nil => simp
  | cons d ds ih =>
    have hd : d < 10 := hds d (List.mem_cons_self _ _)
    have h1 := ih (fun e he => hds e (List.mem_cons_of_mem _ he)) (acc * 10 + d)
    have h2 : (acc * 10 + d + 1) * 10 ^ ds.length ≤ (acc + 1) * 10 ^ (ds.length + 1) := by
      rw [pow_succ, ← mul_assoc, mul_comm ((acc + 1) * 10 ^ ds.length) 10, ← mul_assoc]
      exact Nat.mul_le_mul_right _ (by omega)
    simp only [List.foldl_cons, List.length_cons]
    omega

theorem decimal_value_lt (ds : List Nat) (hds : ∀ d ∈ ds, d < 10) :
    decimal_value ds < 10 ^ ds.length := by
  have := foldl_decimal_lt ds hds 0
  simpa [decimal_value] using this

theorem drop_field (F rest : List Nat) (n : Nat) (h : F.length + 1 = n) :
    (F ++ 32 :: rest).drop n = rest := by
  subst h
  simp

theorem set_three (R : List Nat) (h : 3 ≤ R.length) (v0 v1 v2 : Nat) :
    ((R.set 0 v0).set 1 v1).set 2 v2 = v0 :: v1 :: v2 :: R.drop 3 := by
  rcases R with _ | ⟨r0, _ | ⟨r1, _ | ⟨r2, rs⟩⟩⟩
  · simp at h
  · simp at h
  · simp at h
  · rfl

/-- C20: Console::cmd_RT_Beta with a non-empty argument.  When the length of
the argument is not 14 the setter only prints the usage hint and the
parameter: the configuration, the three entries of RT_Beta included, is
unchanged.  When the argument is made of three fields of four decimal digits
at the offsets 0, 5 and 10, one space between them, RT_Beta[0], RT_Beta[1] and
RT_Beta[2] become the values of the first, second and third field, and nothing
else in the configuration changes. -/
theorem C20_RT_Beta_setter (b : Build) (c : Console) (hp : c.param_len ≠ 0) :
    (c.param_len ≠ 14 →
      (cmd_RT_Beta b c).bq769x_conf = c.bq769x_conf ∧
      (cmd_RT_Beta b c).trace = c.trace ++
        [Event.write_help b.STR_cmd_RT_Beta, Event.print_conf PrintParam.Conf_RT_Beta]) ∧
    (∀ f0 f1 f2 : List Nat, f0.length = 4 → f1.length = 4 → f2.length = 4 →
      (∀ d ∈ f0, d < 10) → (∀ d ∈ f1, d < 10) → (∀ d ∈ f2, d < 10) →
      arg_text c (digits_text f0 ++ 32 :: (digits_text f1 ++ 32 :: digits_text f2)) →
      3 ≤ c.bq769x_conf.RT_Beta.length →
      (cmd_RT_Beta b c).bq769x_conf =
        { c.bq769x_conf with
          RT_Beta := decimal_value f0 :: decimal_value f1 :: decimal_value f2 ::
            c.bq769x_conf.RT_Beta.drop 3 }) := by
  constructor
  · intro h14
    simp only [cmd_RT_Beta, if_pos hp, if_neg h14, print_conf, emit, write_help,
      List.append_assoc, List.cons_append, List.nil_append, and_self]
  · intro f0 f1 f2 hl0 hl1 hl2 hd0 hd1 hd2 ha hR
    obtain ⟨hl, hsplit, hterm⟩ := arg_text_split c _ ha
    have hlen : (digits_text f0 ++ 32 :: (digits_text f1 ++ 32 :: digits_text f2)).length
        = 14 := by
      simp [digits_text, hl0, hl1, hl2]
    rw [hlen] at hl hsplit hterm
    have hnd : isdigit (cget ((c.param.getD []).drop 14) 0) = false := by
      rw [hterm]; rfl
    have hP : c.param.getD [] = digits_text f0 ++ 32 :: (digits_text f1 ++ 32 ::
        (digits_text f2 ++ (c.param.getD []).drop 14)) := by
      conv_lhs => rw [hsplit]
      simp only [List.append_assoc, List.cons_append]
    have ne : ∀ f : List Nat, f.length = 4 → f ≠ [] := by
      intro f hf h
      rw [h] at hf
      simp at hf
    have small : ∀ f : List Nat, f.length = 4 → (∀ d ∈ f, d < 10) →
        decimal_value f < 10000 := by
      intro f hf hd
      have := decimal_value_lt f hd
      rw [hf] at this
      omega
    have a0 : c.atoi_param 0 = (decimal_value f0 : Int) := by
      unfold atoi_param
      rw [hP, List.drop_zero]
      exact atoi_text f0 (ne f0 hl0) hd0 _ rfl (by have := small f0 hl0 hd0; omega)
    have a5 : c.atoi_param 5 = (decimal_value f1 : Int) := by
      unfold atoi_param
      rw [hP, drop_field _ _ 5 (by simp [digits_text, hl0])]
      exact atoi_text f1 (ne f1 hl1) hd1 _ rfl (by have := small f1 hl1 hd1; omega)
    have a10 : c.atoi_param 10 = (decimal_value f2 : Int) := by
      unfold atoi_param
      rw [hP, ← List.drop_drop 5 5, drop_field _ _ 5 (by simp [digits_text, hl0]),
        drop_field _ _ 5 (by simp [digits_text, hl1])]
      exact atoi_text f2 (ne f2 hl2) hd2 _ hnd (by have := small f2 hl2 hd2; omega)
    have h14 : c.param_len = 14 := hl
    simp only [cmd_RT_Beta, if_pos hp, if_pos h14, print_conf, emit, withConf, a0, a5, a10,
      u16_small _ (Nat.lt_trans (small f0 hl0 hd0) (by decide)),
      u16_small _ (Nat.lt_trans (small f1 hl1 hd1) (by decide)),
      u16_small _ (Nat.lt_trans (small f2 hl2 hd2) (by decide)),
      set_three _ hR]

/-- Witness of C20: the argument `3435 3380 3950` of 14 characters stores the
three values; the argument `3435 3380` of 9 characters is rejected. -/
theorem C20_RT_Beta_setter_witness :
    (cmd_RT_Beta specBuild (with_arg console0 "3435 3380 3950")).bq769x_conf.RT_Beta =
      [3435, 3380, 3950] ∧
    (cmd_RT_Beta specBuild (with_arg console0 "3435 3380 3950")).bq769x_conf.Cell_OVP_mV =
      (with_arg console0 "3435 3380 3950").bq769x_conf.Cell_OVP_mV ∧
    (cmd_RT_Beta specBuild (with_arg console0 "3435 3380")).bq769x_conf =
      (with_arg console0 "3435 3380").bq769x_conf := by
  have h := (C20_RT_Beta_setter specBuild (with_arg console0 "3435 3380 3950")
    (by decide!)).2 [3, 4, 3, 5] [3, 3, 8, 0] [3, 9, 5, 0] rfl rfl rfl
    (by decide) (by decide) (by decide) (by decide!) (by decide!)
  have h2 := (C20_RT_Beta_setter specBuild (with_arg console0 "3435 3380") (by decide!)).1
    (by decide!)
  refine ⟨?_, ?_, h2.1⟩
  · rw [h]
    decide!
  · rw [h]

/-! ## Faults that do not end operation -/

theorem mem_work_events (b : Build) (c : Console) (p : BqPoll) (e : Event)
    (h : e ∈ work_events b c p) :
    (e ∈ shutdown_seq ∧ p.error % 256 &&& b.STAT_UV ≠ 0 ∧ dec8 c.shd = 0) ∨
    e = Event.job 1 ∨ e = Event.bq BqCall.update ∨ e = Event.job 0 ∨
    e = Event.eeprom_write_stats ∨ ∃ m, e = Event.msg m ∧ m ≠ Msg.shutdown_hlp := by
  simp only [work_events, List.mem_append] at h
  rcases h with ((((((((h | h) | h) | h) | h) | h) | h) | h) | h)
  · simp only [List.mem_cons, List.mem_singleton, List.not_mem_nil, or_false] at h
    rcases h with h | h
    · exact Or.inr (Or.inl h)
    · exact Or.inr (Or.inr (Or.inl h))
  · split_ifs at h
    · exact Or.inr (Or.inr (Or.inr (Or.inr (Or.inr
        ⟨_, List.mem_singleton.mp h, by decide⟩))))
    · exact absurd h (List.not_mem_nil _)
  · split_ifs at h with hu hz
    · rcases List.mem_cons.mp h with h | h
      · exact Or.inr (Or.inr (Or.inr (Or.inr (Or.inr ⟨_, h, by decide⟩))))
      · exact Or.inl ⟨h, hu, hz⟩
    · rcases List.mem_cons.mp h with h | h
      · exact Or.inr (Or.inr (Or.inr (Or.inr (Or.inr ⟨_, h, by decide⟩))))
      · exact absurd h (List.not_mem_nil _)
    · exact absurd h (List.not_mem_nil _)
  · split_ifs at h
    · exact Or.inr (Or.inr (Or.inr (Or.inr (Or.inr
        ⟨_, List.mem_singleton.mp h, by decide⟩))))
    · exact absurd h (List.not_mem_nil _)
  · split_ifs at h
    · exact Or.inr (Or.inr (Or.inr (Or.inr (Or.inr
        ⟨_, List.mem_singleton.mp h, by decide⟩))))
    · exact absurd h (List.not_mem_nil _)
  · split_ifs at h
    · exact Or.inr (Or.inr (Or.inr (Or.inr (Or.inl (List.mem_singleton.mp h)))))
    · exact absurd h (List.not_mem_nil _)
  · split_ifs at h
    · exact Or.inr (Or.inr (Or.inr (Or.inr (Or.inl (List.mem_singleton.mp h)))))
    · exact absurd h (List.not_mem_nil _)
  · split_ifs at h
    · exact Or.inr (Or.inr (Or.inr (Or.inr (Or.inr
        ⟨_, List.mem_singleton.mp h, by decide⟩))))
    · exact absurd h (List.not_mem_nil _)
  · exact Or.inr (Or.inr (Or.inr (Or.inl (List.mem_singleton.mp h))))

theorem mem_tick_trace (b : Build) (c : Console) (t : Tick) (e : Event)
    (h : e ∈ new_trace c (tick b c t)) :
    fires c t = true ∧
    ((e ∈ shutdown_seq ∧ uv_flagged b t ∧ dec8 c.shd = 0) ∨
     e = Event.job 1 ∨ e = Event.bq BqCall.update ∨ e = Event.job 0 ∨
     e = Event.eeprom_write_stats ∨ ∃ m, e = Event.msg m ∧ m ≠ Msg.shutdown_hlp) := by
  rw [tick_new_trace] at h
  by_cases hf : fires c t = true
  · rw [if_pos hf] at h
    exact ⟨hf, mem_work_events b c t.poll e h⟩
  · rw [if_neg hf] at h
    exact absurd h (List.not_mem_nil _)

/-- C22: a supervisor call whose fault byte does not carry the undervoltage
bit, whatever other fault bits it carries, neither commands the shutdown nor
prints its notice and leaves the countdown as it is; no supervisor call forces
a restart or jumps to the boot loader, and one that commands the shutdown
passes the cadence test, carries the undervoltage bit and takes the countdown
to zero. -/
theorem C22_non_fatal_faults (b : Build) (c : Console) (t : Tick) :
    (¬ uv_flagged b t →
      BqCall.shutdown ∉ bqCallsOf (new_trace c (tick b c t)) ∧
      Event.msg Msg.shutdown_hlp ∉ new_trace c (tick b c t) ∧
      (tick b c t).shd = c.shd) ∧
    Event.forceRestart ∉ new_trace c (tick b c t) ∧
    Event.do_reboot ∉ new_trace c (tick b c t) ∧
    (BqCall.shutdown ∈ bqCallsOf (new_trace c (tick b c t)) →
      fires c t = true ∧ uv_flagged b t ∧ dec8 c.shd = 0) := by
  refine ⟨?_, ?_, ?_, ?_⟩
  · intro hu
    refine ⟨?_, ?_, ?_⟩
    · intro h
      have := (tick_shutdown_iff b c t).1 h
      simp [fired_uv, hu] at this
    · intro h
      obtain ⟨_, h⟩ := mem_tick_trace b c t _ h
      rcases h with h | h | h | h | h | ⟨m, h, hm⟩
      · exact hu h.2.1
      · exact absurd h (by decide)
      · exact absurd h (by decide)
      · exact absurd h (by decide)
      · exact absurd h (by decide)
      · exact hm (Event.msg.inj h).symm
    · rw [tick_shd]
      simp [fired_uv, hu]
  · intro h
    obtain ⟨_, h⟩ := mem_tick_trace b c t _ h
    rcases h with h | h | h | h | h | ⟨m, h, _⟩
    · exact absurd h.1 (by decide)
    · exact absurd h (by decide)
    · exact absurd h (by decide)
    · exact absurd h (by decide)
    · exact absurd h (by decide)
    · exact absurd h (by simp)
  · intro h
    obtain ⟨_, h⟩ := mem_tick_trace b c t _ h
    rcases h with h | h | h | h | h | ⟨m, h, _⟩
    · exact absurd h.1 (by decide)
    · exact absurd h (by decide)
    · exact absurd h (by decide)
    · exact absurd h (by decide)
    · exact absurd h (by decide)
    · exact absurd h (by simp)
  · intro h
    have := (tick_shutdown_iff b c t).1 h
    simp only [fired_uv, Bool.and_eq_true, decide_eq_true_eq] at this
    exact ⟨this.1.1, this.1.2, this.2⟩

/-- Witness of C22: the call at time 250 fires with the overvoltage, short
circuit and overcurrent bits set and leaves the countdown at 255 without a
shutdown. -/
theorem C22_non_fatal_faults_witness :
    fires console0 faults_tick = true ∧
    BqCall.shutdown ∉ bqCallsOf (new_trace console0 (tick specBuild console0 faults_tick)) ∧
    (tick specBuild console0 faults_tick).shd = console0.shd :=
  ⟨by decide!,
   ((C22_non_fatal_faults specBuild console0 faults_tick).1 (by decide)).1,
   ((C22_non_fatal_faults specBuild console0 faults_tick).1 (by decide)).2.2⟩

/-! ## Counters and uptime accounting -/

@[simp] theorem say_if_old (c : Console) (s : Bool) (m : Msg) :
    (c.say_if s m).m_oldMillis = c.m_oldMillis := by
  unfold say_if; split_ifs <;> rfl

@[simp] theorem say_if_overflows (c : Console) (s : Bool) (m : Msg) :
    (c.say_if s m).m_millisOverflows = c.m_millisOverflows := by
  unfold say_if; split_ifs <;> rfl

@[simp] theorem say_if_millis (c : Console) (s : Bool) (m : Msg) :
    (c.say_if s m).millis = c.millis := by
  unfold say_if; split_ifs <;> rfl

@[simp] theorem say_if_eestats (c : Console) (s : Bool) (m : Msg) :
    (c.say_if s m).In_EEPROM_stats = c.In_EEPROM_stats := by
  unfold say_if; split_ifs <;> rfl

@[simp] theorem update_undervoltage_old (c : Console) :
    c.update_undervoltage.m_oldMillis = c.m_oldMillis := by
  unfold update_undervoltage; simp only [Console.emit]; split_ifs <;> rfl

@[simp] theorem update_undervoltage_overflows (c : Console) :
    c.update_undervoltage.m_millisOverflows = c.m_millisOverflows := by
  unfold update_undervoltage; simp only [Console.emit]; split_ifs <;> rfl

@[simp] theorem update_undervoltage_millis (c : Console) :
    c.update_undervoltage.millis = c.millis := by
  unfold update_undervoltage; simp only [Console.emit]; split_ifs <;> rfl

@[simp] theorem update_counters_old (c : Console) :
    c.update_counters.m_oldMillis = c.m_oldMillis := by
  unfold update_counters; simp only []; split_ifs <;> rfl

@[simp] theorem update_counters_overflows (c : Console) :
    c.update_counters.m_millisOverflows = c.m_millisOverflows := by
  unfold update_counters; simp only []; split_ifs <;> rfl

@[simp] theorem update_counters_millis (c : Console) :
    c.update_counters.millis = c.millis := by
  unfold update_counters; simp only []; split_ifs <;> rfl

theorem update_counters_persisted (c : Console)
    (h : c.bq769x_stats.batCycles_ ≠ c.m_BatCycles_prev ∨
      c.bq769x_stats.chargedTimes_ ≠ c.m_ChargedTimes_prev) :
    c.update_counters.In_EEPROM_stats = c.update_counters.bq769x_stats := by
  unfold update_counters
  simp only []
  split_ifs with h1 h2 h2
  · rfl
  · rfl
  · rfl
  · rcases h with h | h
    · exact absurd h h1
    · exact absurd h h2

@[simp] theorem update_millis_old (now : Nat) (c : Console) :
    (c.update_millis now).m_oldMillis = now := by
  unfold update_millis; simp only []

@[simp] theorem update_millis_overflows (now : Nat) (c : Console) :
    (c.update_millis now).m_millisOverflows =
      if c.m_oldMillis > now then (c.m_millisOverflows + 1) % 4294967296
      else c.m_millisOverflows := by
  unfold update_millis; simp only []; split_ifs <;> rfl

@[simp] theorem update_millis_millis (now : Nat) (c : Console) :
    (c.update_millis now).millis = c.millis := by
  unfold update_millis; simp only []; split_ifs <;> rfl

@[simp] theorem update_millis_eestats (now : Nat) (c : Console) :
    (c.update_millis now).In_EEPROM_stats = c.In_EEPROM_stats := by
  unfold update_millis; simp only []; split_ifs <;> rfl

/-- The block of Console::update behind the cadence test ends with the
counter statements, the voltage notice and the overflow accounting, run on a
state that holds the polled counters and the remembered values, the timer
value and the overflow accounting of the state before the call. -/
theorem update_work_tail (b : Build) (c0 : Console) (now : Nat) (p : BqPoll) :
    ∃ c7 : Console,
      c7.bq769x_stats.batCycles_ = p.stats.batCycles_ ∧
      c7.bq769x_stats.chargedTimes_ = p.stats.chargedTimes_ ∧
      c7.m_BatCycles_prev = c0.m_BatCycles_prev ∧
      c7.m_ChargedTimes_prev = c0.m_ChargedTimes_prev ∧
      c7.m_oldMillis = c0.m_oldMillis ∧
      c7.m_millisOverflows = c0.m_millisOverflows ∧
      c7.millis = c0.millis ∧
      update_work b c0 now p =
        (((c7.update_counters).say_if
          (decide (u16 ((p.maxCellVoltage : Int) - (p.minCellVoltage : Int)) > 100))
          Msg.difference_too_big).update_millis now).emit (Event.job 0) := by
  by_cases hu : p.error % 256 &&& b.STAT_UV ≠ 0
  · refine ⟨_, ?_, ?_, ?_, ?_, ?_, ?_, ?_, rfl⟩ <;>
    · rw [if_pos hu]
      simp [update_poll, Console.emit]
  · refine ⟨_, ?_, ?_, ?_, ?_, ?_, ?_, ?_, rfl⟩ <;>
    · rw [if_neg hu]
      simp [update_poll, Console.emit]

theorem update_work_accounting (b : Build) (c0 : Console) (now : Nat) (p : BqPoll) :
    (update_work b c0 now p).m_oldMillis = now ∧
    (update_work b c0 now p).m_millisOverflows =
      (if c0.m_oldMillis > now then (c0.m_millisOverflows + 1) % 4294967296
       else c0.m_millisOverflows) ∧
    (update_work b c0 now p).millis = c0.millis := by
  obtain ⟨c7, _, _, _, _, h5, h6, h7, he⟩ := update_work_tail b c0 now p
  rw [he]
  simp [Console.emit, h5, h6, h7]

theorem update_work_persisted (b : Build) (c0 : Console) (now : Nat) (p : BqPoll)
    (h : p.stats.batCycles_ ≠ c0.m_BatCycles_prev ∨
      p.stats.chargedTimes_ ≠ c0.m_ChargedTimes_prev) :
    (update_work b c0 now p).In_EEPROM_stats = (update_work b c0 now p).bq769x_stats := by
  obtain ⟨c7, h1, h2, h3, h4, _, _, _, he⟩ := update_work_tail b c0 now p
  rw [he]
  have := update_counters_persisted c7 (by rw [h1, h2, h3, h4]; exact h)
  simp [Console.emit, this]

theorem debug_print_trace (c : Console) :
    c.debug_print.trace = c.trace ++
      [Event.debug_print
        ((c.m_millisOverflows * (4294967296 / 1000) + c.Timer_millis / 1000) % 4294967296)] := by
  simp only [debug_print, Console.emit]
  congr 3
  norm_num [Nat.add_mod]

/-- C26: in every supervisor call that passes the cadence test the overflow
count goes up by one (as a uint32_t) when the timer value is below the one
seen in the call before and keeps its value otherwise, and the timer value of
this call becomes the one seen; Console::debug_print prints
(overflow count * floor(2^32 / 1000) + timer value / 1000) modulo 2^32, the
constant of the code, 0xffffffff / 1000, being floor(2^32 / 1000) = 4294967. -/
theorem C26_uptime_accounting (b : Build) (c : Console) (t : Tick) :
    (fires c t = true →
      (t.millis % 4294967296 < c.m_oldMillis →
        (tick b c t).m_millisOverflows = (c.m_millisOverflows + 1) % 4294967296 ∧
        (c.m_millisOverflows + 1 < 4294967296 →
          (tick b c t).m_millisOverflows = c.m_millisOverflows + 1)) ∧
      (¬ t.millis % 4294967296 < c.m_oldMillis →
        (tick b c t).m_millisOverflows = c.m_millisOverflows) ∧
      (tick b c t).m_oldMillis = t.millis % 4294967296) ∧
    new_trace c c.debug_print =
      [Event.debug_print
        ((c.m_millisOverflows * (4294967296 / 1000) + c.Timer_millis / 1000) % 4294967296)] ∧
    (0xffffffff / 1000 = 4294967296 / 1000 ∧ 4294967296 / 1000 = 4294967) := by
  refine ⟨?_, new_trace_of_append c _ _ (debug_print_trace c), by decide⟩
  intro hf
  obtain ⟨h1, h2, _⟩ := update_work_accounting b
    { c with millis := t.millis, alertInterruptFlag_ := t.force } (t.millis % 4294967296) t.poll
  rw [← tick_fired b c t hf] at h1 h2
  refine ⟨?_, ?_, h1⟩
  · intro hlt
    have h3 : (tick b c t).m_millisOverflows = (c.m_millisOverflows + 1) % 4294967296 := by
      rw [h2]; exact if_pos hlt
    exact ⟨h3, fun hb => by rw [h3, Nat.mod_eq_of_lt hb]⟩
  · intro hge
    rw [h2]; exact if_neg hge

/-- Witness of C26: the call 300 ms after a poll at 4294967196 sees the timer
at 200, below the value seen before: the overflow count goes from 0 to 1. -/
theorem C26_uptime_accounting_witness :
    console_before_wrap.m_millisOverflows = 0 ∧
    (tick specBuild console_before_wrap wrap_tick).m_millisOverflows = 1 ∧
    (tick specBuild console_before_wrap wrap_tick).m_oldMillis = 200 := by
  have h := (C26_uptime_accounting specBuild console_before_wrap wrap_tick).1 (by decide!)
  have h0 : console_before_wrap.m_millisOverflows = 0 := by decide!
  refine ⟨h0, ?_, ?_⟩
  · rw [(h.1 (by decide!)).2 (by rw [h0]; decide), h0]
  · rw [h.2.2]
    decide

/-! ## Uptime across the wrap of the timer -/

theorem uptimesOf_append (a c : List Event) :
    uptimesOf (a ++ c) = uptimesOf a ++ uptimesOf c := by
  induction a with
  | nil => rfl
  | cons e es ih => cases e <;> simp [uptimesOf, ih]

theorem uptimesOf_none (l : List Event) (h : ∀ e ∈ l, ∀ u, e ≠ Event.debug_print u) :
    uptimesOf l = [] := by
  induction l with
  | nil => rfl
  | cons e es ih =>
    have ih2 := ih (fun x hx => h x (List.mem_cons_of_mem _ hx))
    cases e with
    | debug_print u => exact absurd rfl (h _ (List.mem_cons_self _ _) u)
    | _ => simpa [uptimesOf] using ih2

theorem tick_uptimes (b : Build) (c : Console) (t : Tick) :
    uptimesOf (new_trace c (tick b c t)) = [] := by
  apply uptimesOf_none
  intro e he u hu
  subst hu
  obtain ⟨_, h⟩ := mem_tick_trace b c t _ he
  rcases h with h | h | h | h | h | ⟨m, h, _⟩
  · exact absurd h.1 (by simp [shutdown_seq])
  · exact absurd h (by simp)
  · exact absurd h (by simp)
  · exact absurd h (by simp)
  · exact absurd h (by simp)
  · exact absurd h (by simp)

theorem step_trace (b : Build) (c : Console) (s : Step) :
    (step b c s).trace = c.trace ++ new_trace c (step b c s) := by
  cases s with
  | tick t =>
    show (tick b c t).trace = c.trace ++ new_trace c (tick b c t)
    rw [tick_new_trace, tick_trace]
  | print m =>
    have h := debug_print_trace { c with millis := m }
    have h2 : new_trace c (step b c (Step.print m)) = _ := new_trace_of_append c _ _ h
    rw [h2]
    exact h

theorem run_steps_trace (b : Build) (ss : List Step) : ∀ c : Console,
    (run_steps b c ss).trace = c.trace ++ new_trace c (run_steps b c ss) := by
  induction ss with
  | nil => intro c; simp [run_steps, new_trace]
  | cons s ss ih =>
    intro c
    have h1 := step_trace b c s
    have h2 := ih (step b c s)
    have h3 : (run_steps b c (s :: ss)).trace =
        c.trace ++ (new_trace c (step b c s) ++
          new_trace (step b c s) (run_steps b (step b c s) ss)) := by
      show (run_steps b (step b c s) ss).trace = _
      rw [h2, h1, List.append_assoc]
    rw [new_trace_of_append c _ _ h3]
    exact h3

theorem run_steps_new_trace_cons (b : Build) (c : Console) (s : Step) (ss : List Step) :
    new_trace c (run_steps b c (s :: ss)) =
      new_trace c (step b c s) ++ new_trace (step b c s) (run_steps b (step b c s) ss) := by
  apply new_trace_of_append
  show (run_steps b (step b c s) ss).trace = _
  rw [run_steps_trace, step_trace b c s, List.append_assoc]

theorem uptime_of_mono (T1 T2 : Nat) (h : T1 ≤ T2) : uptime_of T1 ≤ uptime_of T2 := by
  unfold uptime_of
  omega

theorem uptime_of_lt (T : Nat) (h : T < 1000 * 4294967296) : uptime_of T < 4294967296 := by
  unfold uptime_of
  omega

theorem tick_accounting (b : Build) (c : Console) (t : Tick) (A : Nat)
    (h1 : c.m_oldMillis = A % 4294967296) (h2 : c.m_millisOverflows = A / 4294967296)
    (hA : A ≤ t.millis) (hw : fires c t = true → t.millis < A + 4294967296)
    (hb : t.millis < 1000 * 4294967296) :
    (tick b c t).m_oldMillis = (if fires c t then t.millis else A) % 4294967296 ∧
    (tick b c t).m_millisOverflows = (if fires c t then t.millis else A) / 4294967296 := by
  by_cases hf : fires c t = true
  · obtain ⟨a1, a2, _⟩ := update_work_accounting b
      { c with millis := t.millis, alertInterruptFlag_ := t.force } (t.millis % 4294967296)
      t.poll
    rw [← tick_fired b c t hf] at a1 a2
    have hw2 := hw hf
    rw [if_pos hf, a1, a2]
    refine ⟨rfl, ?_⟩
    show (if c.m_oldMillis > t.millis % 4294967296 then (c.m_millisOverflows + 1) % 4294967296
      else c.m_millisOverflows) = _
    rw [h1, h2]
    split_ifs <;> omega
  · have hf2 : fires c t = false := by simpa using hf
    rw [tick_suppressed b c t hf2, if_neg hf]
    exact ⟨h1, h2⟩

theorem print_new_trace (b : Build) (c : Console) (m : Nat) :
    new_trace c (step b c (Step.print m)) =
      [Event.debug_print
        ((c.m_millisOverflows * (4294967296 / 1000) + m % 4294967296 / 1000) % 4294967296)] :=
  new_trace_of_append c _ _ (debug_print_trace { c with millis := m })

theorem print_uptime (b : Build) (c : Console) (m A : Nat)
    (h2 : c.m_millisOverflows = A / 4294967296) (hm : m / 4294967296 = A / 4294967296)
    (hb : m < 1000 * 4294967296) :
    uptimesOf (new_trace c (step b c (Step.print m))) = [uptime_of m] := by
  rw [print_new_trace, h2, ← hm]
  have : (m / 4294967296 * (4294967296 / 1000) + m % 4294967296 / 1000) % 4294967296 =
      uptime_of m := by
    unfold uptime_of
    omega
  rw [this]
  rfl

theorem steady_uptimes (b : Build) : ∀ (ss : List Step) (c : Console) (A L : Nat),
    c.m_oldMillis = A % 4294967296 → c.m_millisOverflows = A / 4294967296 → A ≤ L →
    steady b c A L ss → (∀ s ∈ ss, s.time < 1000 * 4294967296) →
    (∀ u ∈ uptimesOf (new_trace c (run_steps b c ss)), uptime_of L ≤ u) ∧
    List.Pairwise (· ≤ ·) (uptimesOf (new_trace c (run_steps b c ss))) := by
  intro ss
  induction ss with
  | nil =>
    intro c A L _ _ _ _ _
    have : new_trace c (run_steps b c []) = [] := by simp [run_steps, new_trace]
    rw [this]
    exact ⟨fun u hu => absurd hu (List.not_mem_nil _), List.Pairwise.nil⟩
  | cons s ss ih =>
    intro c A L h1 h2 hAL hst hb
    rw [run_steps_new_trace_cons, uptimesOf_append]
    cases s with
    | tick t =>
      obtain ⟨hLt, hw, hrest⟩ := hst
      have hbt : t.millis < 1000 * 4294967296 := hb (Step.tick t) (List.mem_cons_self _ _)
      obtain ⟨a1, a2⟩ := tick_accounting b c t A h1 h2 (le_trans hAL hLt) hw hbt
      have hA' : (if fires c t then t.millis else A) ≤ t.millis := by
        split_ifs
        · exact le_refl _
        · exact le_trans hAL hLt
      obtain ⟨i1, i2⟩ := ih (tick b c t) _ t.millis a1 a2 hA' hrest
        (fun s hs => hb s (List.mem_cons_of_mem _ hs))
      have hnil : uptimesOf (new_trace c (step b c (Step.tick t))) = [] := tick_uptimes b c t
      rw [hnil, List.nil_append]
      exact ⟨fun u hu => le_trans (uptime_of_mono L t.millis hLt) (i1 u hu), i2⟩
    | print m =>
      obtain ⟨hLm, hep, hrest⟩ := hst
      have hbm : m < 1000 * 4294967296 := hb (Step.print m) (List.mem_cons_self _ _)
      have hAm : A ≤ m := le_trans hAL hLm
      obtain ⟨i1, i2⟩ := ih (step b c (Step.print m)) A m h1 h2 hAm hrest
        (fun s hs => hb s (List.mem_cons_of_mem _ hs))
      rw [print_uptime b c m A h2 hep hbm]
      refine ⟨?_, ?_⟩
      · intro u hu
        rcases List.mem_append.mp hu with hu | hu
        · rw [List.mem_singleton.mp hu]
          exact uptime_of_mono L m hLm
        · exact le_trans (uptime_of_mono L m hLm) (i1 u hu)
      · exact List.pairwise_cons.mpr ⟨i1, i2⟩

theorem conf_load_accounting (b : Build) (c : Console) :
    (conf_load b c).m_oldMillis = c.m_oldMillis ∧
    (conf_load b c).m_millisOverflows = c.m_millisOverflows := by
  unfold conf_load
  simp only [Console.emit]
  split_ifs
  · simp only [conf_save, conf_default, and_self]
  · exact ⟨rfl, rfl⟩

theorem stats_load_accounting (c : Console) :
    (stats_load c).m_oldMillis = c.m_oldMillis ∧
    (stats_load c).m_millisOverflows = c.m_millisOverflows := by
  unfold stats_load
  simp only [Console.emit]
  split_ifs
  · simp only [stats_save, and_self]
  · exact ⟨rfl, rfl⟩

theorem new_accounting (b : Build) (ee_conf : bq769_conf) (ee_stats : bq769_stats)
    (millis : Nat) (rx : List Nat) :
    (Console.new b ee_conf ee_stats millis rx).m_oldMillis = 0 ∧
    (Console.new b ee_conf ee_stats millis rx).m_millisOverflows = 0 := by
  simp only [Console.new, (stats_load_accounting _).1, (stats_load_accounting _).2,
    (conf_load_accounting b _).1, (conf_load_accounting b _).2, and_self]

/-- C21, amended: in every run after construction in which times do not go
back, a supervisor call that passes the cadence test comes less than one
period of the 32 bit timer after the last one that did, every uptime is read
in the timer period of the last supervisor call that passed the cadence test,
and fewer than 1000 timer periods have gone by, each uptime
Console::debug_print computes is the uptime of the code at the time of the
reading, and greater than or equal to every uptime computed earlier. -/
theorem C21_uptime_monotonic_when_accounted (b : Build) (ee_conf : bq769_conf)
    (ee_stats : bq769_stats) (millis : Nat) (rx : List Nat) (c : Console) (ss : List Step)
    (hc : c = Console.new b ee_conf ee_stats millis rx)
    (hs : steady b c 0 0 ss) (hb : ∀ s ∈ ss, s.time < 1000 * 4294967296) :
    List.Pairwise (· ≤ ·) (uptimesOf (new_trace c (run_steps b c ss))) := by
  have h1 : c.m_oldMillis = 0 % 4294967296 := by
    rw [hc]
    exact (new_accounting b ee_conf ee_stats millis rx).1
  have h2 : c.m_millisOverflows = 0 / 4294967296 := by
    rw [hc]
    exact (new_accounting b ee_conf ee_stats millis rx).2
  exact (steady_uptimes b ss c 0 0 h1 h2 (le_refl _) hs hb).2
end protocol
namespace protocol
open Console

/-- Witness of C21, amended: over the wrap of the timer, with the supervisor
call after the wrap passing the cadence test, the uptimes read are 4294967,
4294967 and 4294969 s. -/
theorem C21_uptime_monotonic_when_accounted_witness :
    uptimesOf (new_trace console0 (run_steps specBuild console0 c21_steady_run)) =
      [4294967, 4294967, 4294969] ∧
    List.Pairwise (· ≤ ·)
      (uptimesOf (new_trace console0 (run_steps specBuild console0 c21_steady_run))) :=
  ⟨by decide!,
   C21_uptime_monotonic_when_accounted specBuild conf_blank stats_blank 0 [] console0
     c21_steady_run rfl (by decide!) (by decide)⟩

theorem tick_overflows (b : Build) (c : Console) (t : Tick) (hf : fires c t = true) :
    (tick b c t).m_oldMillis = t.millis % 4294967296 ∧
    (tick b c t).m_millisOverflows =
      (if c.m_oldMillis > t.millis % 4294967296 then (c.m_millisOverflows + 1) % 4294967296
       else c.m_millisOverflows) := by
  obtain ⟨a1, a2, _⟩ := update_work_accounting b
    { c with millis := t.millis, alertInterruptFlag_ := t.force } (t.millis % 4294967296) t.poll
  rw [← tick_fired b c t hf] at a1 a2
  exact ⟨a1, a2⟩

theorem fires_of_elapsed (c : Console) (t : Tick)
    (h : 250 ≤ (t.millis % 4294967296 + 4294967296 - c.m_lastUpdate) % 4294967296) :
    fires c t = true := by
  simp only [fires, decide_eq_true_eq, u32]
  omega

theorem wrap_raw (k : Nat) (h1 : 1 ≤ k) (h2 : k ≤ 1002) :
    k * 4294966296 % 4294967296 = 4294967296 - 1000 * k := by
  have h : k * 4294966296 = 4294967296 - 1000 * k + 4294967296 * (k - 1) := by omega
  rw [h, Nat.add_mul_mod_self_left]
  exact Nat.mod_eq_of_lt (by omega)

theorem wrap_run_state (n : Nat) (hn : n ≤ 1001) :
    (run_ticks specBuild console0 (wrap_run n)).m_lastUpdate = n * 4294966296 % 4294967296 ∧
    (run_ticks specBuild console0 (wrap_run n)).m_oldMillis = n * 4294966296 % 4294967296 ∧
    (run_ticks specBuild console0 (wrap_run n)).m_millisOverflows = n - 1 := by
  induction n with
  | zero =>
    have h1 : console0.m_lastUpdate = 0 := by decide!
    have h2 : console0.m_oldMillis = 0 := by decide!
    have h3 : console0.m_millisOverflows = 0 := by decide!
    exact ⟨h1, h2, h3⟩
  | succ n ih =>
    obtain ⟨i1, i2, i3⟩ := ih (by omega)
    have hrun : run_ticks specBuild console0 (wrap_run (n + 1)) =
        tick specBuild (run_ticks specBuild console0 (wrap_run n)) (wrap_tick_at (n + 1)) := by
      rw [wrap_run, run_ticks_append, run_ticks_singleton]
    have hm : (wrap_tick_at (n + 1)).millis = (n + 1) * 4294966296 := rfl
    have hf : fires (run_ticks specBuild console0 (wrap_run n)) (wrap_tick_at (n + 1)) = true := by
      apply fires_of_elapsed
      rw [i1, hm]; omega
    obtain ⟨a1, a2⟩ := tick_overflows specBuild _ _ hf
    rw [hrun]
    refine ⟨?_, ?_, ?_⟩
    · rw [tick_lastUpdate specBuild _ _ hf, hm]
    · rw [a1, hm]
    · rw [a2, i2, i3, hm, wrap_raw (n + 1) (by omega) (by omega)]
      rcases Nat.eq_zero_or_pos n with h0 | h0
      · subst h0
        decide
      · rw [wrap_raw n h0 (by omega), if_pos (by omega)]
        omega
end protocol
namespace protocol
open Console

theorem run_steps_ticks (b : Build) (ts : List Tick) : ∀ c : Console,
    run_steps b c (ts.map Step.tick) = run_ticks b c ts := by
  induction ts with
  | nil => intro c; rfl
  | cons t ts ih => intro c; exact ih (tick b c t)

theorem run_steps_append (b : Build) (a l : List Step) : ∀ c : Console,
    run_steps b c (a ++ l) = run_steps b (run_steps b c a) l := by
  induction a with
  | nil => intro c; rfl
  | cons s ss ih => intro c; exact ih (step b c s)

theorem run_steps_new_trace_append (b : Build) (c : Console) (a l : List Step) :
    new_trace c (run_steps b c (a ++ l)) =
      new_trace c (run_steps b c a) ++
        new_trace (run_steps b c a) (run_steps b (run_steps b c a) l) := by
  apply new_trace_of_append
  rw [run_steps_append, run_steps_trace b l, run_steps_trace b a c, List.append_assoc]

theorem run_ticks_uptimes (b : Build) (ts : List Tick) : ∀ c : Console,
    uptimesOf (new_trace c (run_ticks b c ts)) = [] := by
  induction ts with
  | nil => intro c; simp [run_ticks, new_trace, uptimesOf]
  | cons t ts ih =>
    intro c
    rw [run_ticks_new_trace_cons, uptimesOf_append, tick_uptimes, ih, List.append_nil]

theorem print_fields (b : Build) (c : Console) (m : Nat) :
    (step b c (Step.print m)).m_lastUpdate = c.m_lastUpdate ∧
    (step b c (Step.print m)).m_oldMillis = c.m_oldMillis ∧
    (step b c (Step.print m)).m_millisOverflows = c.m_millisOverflows :=
  ⟨rfl, rfl, rfl⟩

theorem c21_tail_uptimes (s : Console)
    (h1 : s.m_lastUpdate = 1000 * 4294966296 % 4294967296)
    (h2 : s.m_oldMillis = 1000 * 4294966296 % 4294967296)
    (h3 : s.m_millisOverflows = 1000 - 1) :
    uptimesOf (new_trace s (run_steps specBuild s
      [Step.print (1000 * 4294966296), Step.tick (wrap_tick_at 1001),
       Step.print (1001 * 4294966296)])) = [4294966000, 4293670] := by
  obtain ⟨p1, p2, p3⟩ := print_fields specBuild s (1000 * 4294966296)
  have hf : fires (step specBuild s (Step.print (1000 * 4294966296))) (wrap_tick_at 1001)
      = true := by
    apply fires_of_elapsed
    rw [p1, h1]
    decide
  obtain ⟨_, a2⟩ := tick_overflows specBuild _ _ hf
  rw [p2, p3, h2, h3] at a2
  have a3 : (step specBuild (step specBuild s (Step.print (1000 * 4294966296)))
      (Step.tick (wrap_tick_at 1001))).m_millisOverflows = 1000 := by
    show (tick specBuild (step specBuild s (Step.print (1000 * 4294966296)))
      (wrap_tick_at 1001)).m_millisOverflows = 1000
    rw [a2]
    decide
  have h4 : uptimesOf (new_trace (step specBuild s (Step.print (1000 * 4294966296)))
      (step specBuild (step specBuild s (Step.print (1000 * 4294966296)))
        (Step.tick (wrap_tick_at 1001)))) = [] :=
    tick_uptimes specBuild _ _
  rw [run_steps_new_trace_cons, uptimesOf_append, print_new_trace,
    run_steps_new_trace_cons, uptimesOf_append, h4,
    run_steps_new_trace_cons, uptimesOf_append, print_new_trace, a3, h3]
  simp [run_steps, new_trace, uptimesOf]

theorem c21_long_run_uptimes :
    uptimesOf (new_trace console0 (run_steps specBuild console0 c21_long_run)) =
      [4294966000, 4293670] := by
  obtain ⟨i1, i2, i3⟩ := wrap_run_state 1000 (by decide)
  rw [c21_long_run, run_steps_new_trace_append, uptimesOf_append, run_steps_ticks,
    run_ticks_uptimes, List.nil_append]
  exact c21_tail_uptimes _ i1 i2 i3

/-- C21, as stated, fails.  First run: the uptime read 96 ms before the timer
wraps is 4294967 s; 146 ms later the timer shows 50, the supervisor call at
that time is held back by the cadence test and the overflow is not yet
counted: the uptime read then is 0 s.  Second run: every overflow is counted,
but the uptime is itself a 32 bit number: read after the 1000th supervisor
call it is 4294966000 s, read after the 1001st, with 1000 overflows counted,
it is 4293670 s. -/
theorem C21_uptime_goes_back :
    List.Pairwise (· ≤ ·) (c21_run.map Step.time) ∧
    uptimesOf (new_trace console0 (run_steps specBuild console0 c21_run)) = [4294967, 0] ∧
    uptimesOf (new_trace console0 (run_steps specBuild console0 c21_long_run)) =
      [4294966000, 4293670] :=
  ⟨by decide, by decide!, c21_long_run_uptimes⟩

/-! ## Restore and the charge switches -/

theorem command_restore_conf (b : Build) (c : Console) :
    (command_restore b c).bq769x_conf = conf_default_rec b c.bq769x_conf := rfl

theorem RT_Beta_default_idem (b : Build) (R : List Nat) :
    (if b.IC_BQ76940 then
        (((if b.IC_BQ76940 then ((R.set 0 3435).set 1 3435).set 2 3435
           else R.set 0 3435).set 0 3435).set 1 3435).set 2 3435
      else (if b.IC_BQ76940 then ((R.set 0 3435).set 1 3435).set 2 3435
            else R.set 0 3435).set 0 3435) =
      (if b.IC_BQ76940 then ((R.set 0 3435).set 1 3435).set 2 3435 else R.set 0 3435) := by
  cases b.IC_BQ76940
  · simp only [Bool.false_eq_true, if_false]
    rcases R with _ | ⟨a, r⟩ <;> rfl
  · simp only [if_true]
    rcases R with _ | ⟨a, _ | ⟨b, _ | ⟨c, r⟩⟩⟩ <;> rfl

/-- C23: after Console::command_restore every parameter Console::conf_default
assigns holds its constant, whatever the configuration was before (RT_Beta[1]
and RT_Beta[2] are assigned in the build for the BQ76940), so a second restore
changes nothing; the constants satisfy the ordering rules of the setters
(undervoltage below overvoltage threshold, minimum below maximum of both
temperature pairs); and the only output is the five protection settings sent
to the driver with the constants as (threshold, duration) pairs. -/
theorem C23_restore (b : Build) (c : Console) :
    ((command_restore b c).bq769x_conf.BQ_dbg = 0 ∧
     (command_restore b c).bq769x_conf.Allow_Charging = 1 ∧
     (command_restore b c).bq769x_conf.Allow_Discharging = 1 ∧
     (command_restore b c).bq769x_conf.RT_bits = b.BQ769X0_THERMISTORS ∧
     (command_restore b c).bq769x_conf.RS_uOhm = 1000 ∧
     (∀ i, i < c.bq769x_conf.RT_Beta.length → (i = 0 ∨ (b.IC_BQ76940 = true ∧ i ≤ 2)) →
        (command_restore b c).bq769x_conf.RT_Beta[i]? = some 3435) ∧
     (command_restore b c).bq769x_conf.Cell_CapaNom_mV = 3600 ∧
     (command_restore b c).bq769x_conf.Cell_CapaFull_mV = 4180 ∧
     (command_restore b c).bq769x_conf.Batt_CapaNom_mAsec = 360000 ∧
     (command_restore b c).bq769x_conf.CurrentThresholdIdle_mA = 100 ∧
     (command_restore b c).bq769x_conf.Cell_TempCharge_min = 0 ∧
     (command_restore b c).bq769x_conf.Cell_TempCharge_max = 500 ∧
     (command_restore b c).bq769x_conf.Cell_TempDischarge_min = -200 ∧
     (command_restore b c).bq769x_conf.Cell_TempDischarge_max = 650 ∧
     (command_restore b c).bq769x_conf.BalancingInCharge = 1 ∧
     (command_restore b c).bq769x_conf.BalancingEnable = 1 ∧
     (command_restore b c).bq769x_conf.BalancingCellMin_mV = 3600 ∧
     (command_restore b c).bq769x_conf.BalancingCellMaxDifference_mV = 10 ∧
     (command_restore b c).bq769x_conf.BalancingIdleTimeMin_s = 1800 ∧
     (command_restore b c).bq769x_conf.Cell_OCD_mA = 5500 ∧
     (command_restore b c).bq769x_conf.Cell_OCD_ms = 3000 ∧
     (command_restore b c).bq769x_conf.Cell_SCD_mA = 80000 ∧
     (command_restore b c).bq769x_conf.Cell_SCD_us = 200 ∧
     (command_restore b c).bq769x_conf.Cell_ODP_mA = 40000 ∧
     (command_restore b c).bq769x_conf.Cell_ODP_ms = 2000 ∧
     (command_restore b c).bq769x_conf.Cell_OVP_mV = 4200 ∧
     (command_restore b c).bq769x_conf.Cell_OVP_sec = 2 ∧
     (command_restore b c).bq769x_conf.Cell_UVP_mV = 2850 ∧
     (command_restore b c).bq769x_conf.Cell_UVP_sec = 2 ∧
     (command_restore b c).bq769x_conf.adcCellsOffset_ =
        List.replicate c.bq769x_conf.adcCellsOffset_.length 0) ∧
    (command_restore b (command_restore b c)).bq769x_conf =
      (command_restore b c).bq769x_conf ∧
    ((command_restore b c).bq769x_conf.Cell_UVP_mV <
        (command_restore b c).bq769x_conf.Cell_OVP_mV ∧
     (command_restore b c).bq769x_conf.Cell_TempCharge_min <
        (command_restore b c).bq769x_conf.Cell_TempCharge_max ∧
     (command_restore b c).bq769x_conf.Cell_TempDischarge_min <
        (command_restore b c).bq769x_conf.Cell_TempDischarge_max) ∧
    new_trace c (command_restore b c) =
      [ Event.bq (BqCall.setShortCircuitProtection 80000 200),
        Event.bq (BqCall.setOvercurrentChargeProtection 5500 3000),
        Event.bq (BqCall.setOvercurrentDischargeProtection 40000 2000),
        Event.bq (BqCall.setCellUndervoltageProtection 2850 2),
        Event.bq (BqCall.setCellOvervoltageProtection 4200 2) ] := by
  refine ⟨?_, ?_, ?_, ?_⟩
  · rw [command_restore_conf]
    refine ⟨?_, ?_, ?_, ?_, ?_, ?_, ?_, ?_, ?_, ?_, ?_, ?_, ?_, ?_, ?_, ?_, ?_, ?_, ?_, ?_,
      ?_, ?_, ?_, ?_, ?_, ?_, ?_, ?_, ?_, ?_⟩
    case refine_6 =>
      intro i hi hd
      exact RT_Beta_default b c.bq769x_conf i hi hd
    case refine_30 =>
      simp only [conf_default_rec, List.map_const']
    all_goals simp only [conf_default_rec]
  · rw [command_restore_conf, command_restore_conf]
    simp only [conf_default_rec, List.map_map, RT_Beta_default_idem]
    rfl
  · rw [command_restore_conf]
    simp only [conf_default_rec]
    decide
  · apply new_trace_of_append
    simp only [command_restore, conf_begin_protect, conf_default, conf_default_rec]
end protocol
namespace protocol
open Console

/-- Witness of C23: restoring the changed configuration of console_custom
brings the third thermistor coefficient back to 3435 and the overvoltage
threshold back to 4200. -/
theorem C23_restore_witness :
    (command_restore specBuild console_custom).bq769x_conf.RT_Beta[2]? = some 3435 ∧
    (command_restore specBuild console_custom).bq769x_conf.Cell_OVP_mV = 4200 :=
  ⟨(C23_restore specBuild console_custom).1.2.2.2.2.2.1 2 (by decide!)
      (Or.inr ⟨rfl, le_refl 2⟩),
   (C23_restore specBuild console_custom).1.2.2.2.2.2.2.2.2.2.2.2.2.2.2.2.2.2.2.2.2.2.2.2.2.2.1⟩

/-- C24: with a non-empty argument the command `charge` sets Allow_Charging
and calls enableCharging of the driver when the argument parses to 1, and
clears it and calls disableCharging when the argument parses to 0; `discharge`
does the same with Allow_Discharging, enableDischarging and
disableDischarging; nothing else in the configuration changes.  With an empty
argument the configuration is unchanged and no driver operation is called. -/
theorem C24_charge_discharge_switches (b : Build) (c : Console) :
    (c.param_len ≠ 0 →
      (c.atoi_param 0 = 1 →
        (cmd_Allow_Charging b c).bq769x_conf = { c.bq769x_conf with Allow_Charging := 1 } ∧
        new_trace c (cmd_Allow_Charging b c) =
          [Event.bq BqCall.enableCharging, Event.print_conf PrintParam.Conf_Allow_Charging] ∧
        (cmd_Allow_Discharging b c).bq769x_conf =
          { c.bq769x_conf with Allow_Discharging := 1 } ∧
        new_trace c (cmd_Allow_Discharging b c) =
          [Event.bq BqCall.enableDischarging,
           Event.print_conf PrintParam.Conf_Allow_Discharging]) ∧
      (c.atoi_param 0 = 0 →
        (cmd_Allow_Charging b c).bq769x_conf = { c.bq769x_conf with Allow_Charging := 0 } ∧
        new_trace c (cmd_Allow_Charging b c) =
          [Event.bq BqCall.disableCharging, Event.print_conf PrintParam.Conf_Allow_Charging] ∧
        (cmd_Allow_Discharging b c).bq769x_conf =
          { c.bq769x_conf with Allow_Discharging := 0 } ∧
        new_trace c (cmd_Allow_Discharging b c) =
          [Event.bq BqCall.disableDischarging,
           Event.print_conf PrintParam.Conf_Allow_Discharging])) ∧
    (c.param_len = 0 →
      (cmd_Allow_Charging b c).bq769x_conf = c.bq769x_conf ∧
      new_trace c (cmd_Allow_Charging b c) =
        [Event.print_conf PrintParam.Conf_Allow_Charging] ∧
      (cmd_Allow_Discharging b c).bq769x_conf = c.bq769x_conf ∧
      new_trace c (cmd_Allow_Discharging b c) =
        [Event.print_conf PrintParam.Conf_Allow_Discharging]) := by
  refine ⟨fun hp => ⟨fun h1 => ?_, fun h0 => ?_⟩, fun hz => ?_⟩
  · refine ⟨?_, new_trace_of_append c _ _ ?_, ?_, new_trace_of_append c _ _ ?_⟩ <;>
      simp [cmd_Allow_Charging, cmd_Allow_Discharging, hp, h1, toBool01, withConf,
        Console.emit, print_conf]
  · refine ⟨?_, new_trace_of_append c _ _ ?_, ?_, new_trace_of_append c _ _ ?_⟩ <;>
      simp [cmd_Allow_Charging, cmd_Allow_Discharging, hp, h0, toBool01, withConf,
        Console.emit, print_conf]
  · refine ⟨?_, new_trace_of_append c _ _ ?_, ?_, new_trace_of_append c _ _ ?_⟩ <;>
      simp [cmd_Allow_Charging, cmd_Allow_Discharging, hz, Console.emit, print_conf]

/-- Witness of C24: `charge 0` clears Allow_Charging and calls
disableCharging, `discharge 1` sets Allow_Discharging and calls
enableDischarging, and the bare command leaves the configuration alone. -/
theorem C24_charge_discharge_switches_witness :
    (cmd_Allow_Charging specBuild (with_arg console0 "0")).bq769x_conf.Allow_Charging = 0 ∧
    new_trace (with_arg console0 "0") (cmd_Allow_Charging specBuild (with_arg console0 "0")) =
      [Event.bq BqCall.disableCharging, Event.print_conf PrintParam.Conf_Allow_Charging] ∧
    new_trace (with_arg console0 "1") (cmd_Allow_Discharging specBuild (with_arg console0 "1")) =
      [Event.bq BqCall.enableDischarging, Event.print_conf PrintParam.Conf_Allow_Discharging] ∧
    (cmd_Allow_Charging specBuild console0).bq769x_conf = console0.bq769x_conf := by
  have h0 := ((C24_charge_discharge_switches specBuild (with_arg console0 "0")).1
    (by decide!)).2 (by decide!)
  have h1 := ((C24_charge_discharge_switches specBuild (with_arg console0 "1")).1
    (by decide!)).1 (by decide!)
  have h2 := (C24_charge_discharge_switches specBuild console0).2 (by decide!)
  refine ⟨?_, h0.2.1, h1.2.2.2, h2.1⟩
  rw [h0.1]

/-! ## Argument extraction -/

theorem strncmp_P_prefix (k : List Nat) (hk : ∀ x ∈ k, x ≠ 0) (rest : List Nat) :
    strncmp_P (k ++ rest) k k.length = 0 := by
  induction k with
  | nil => rfl
  | cons x xs ih =>
    have hx : x ≠ 0 := hk x (List.mem_cons_self _ _)
    have ih2 := ih (fun y hy => hk y (List.mem_cons_of_mem _ hy))
    simp only [List.cons_append, List.length_cons, strncmp_P, cget, List.getD_cons_zero,
      ne_eq, not_true_eq_false, if_false, hx, List.drop_succ_cons, List.drop_zero]
    exact ih2

theorem cget_append_length (k : List Nat) (x : Nat) (rest : List Nat) :
    cget (k ++ x :: rest) k.length = x := by
  induction k with
  | nil => rfl
  | cons y ys ih => simpa [cget] using ih

theorem compare_all_append (b : Build) (pre post : List (List Nat × Handler)) :
    ∀ c : Console, compare_all b (pre ++ post) c = compare_all b post (compare_all b pre c) := by
  induction pre with
  | nil => intro c; rfl
  | cons e es ih => intro c; exact ih (compare_cmd b e.1 e.2 c)

/-- C27: for a keyword k (a C string of n < 256 bytes) and a line of L < 256
bytes that starts with k and a space, Console::compare_cmd calls the handler
of k with `param` pointing at the bytes after that space and
param_len = L - n - 1 (0 when nothing follows the space); for a line that is
exactly k it calls the handler with no argument and param_len = 0.
Console::handleCommand runs this compare_cmd of every registered keyword on
the line it was given. -/
theorem C27_argument_extraction (b : Build) (k : List Nat) (h : Handler) (c : Console)
    (hk : k.length < 256 ∧ ∀ x ∈ k, x ≠ 0) :
    (∀ arg tail : List Nat, c.handle_buffer = k ++ 32 :: (arg ++ tail) →
      c.handle_len = k.length + 1 + arg.length → c.handle_len < 256 →
      compare_cmd b k h c =
        { invoke b h { c with param := some (arg ++ tail)
                              param_len := c.handle_len - k.length - 1 } with
          handle_result := true } ∧
      k.length + 1 + (c.handle_len - k.length - 1) = c.handle_len ∧
      (arg = [] → c.handle_len - k.length - 1 = 0)) ∧
    (∀ tail : List Nat, c.handle_buffer = k ++ tail → c.handle_len = k.length →
      compare_cmd b k h c =
        { invoke b h { c with param := none, param_len := 0 } with handle_result := true }) ∧
    (∀ (pre post : List (List Nat × Handler)) (buffer : List Nat) (len : Nat),
      registry b = pre ++ (k, h) :: post →
      (compare_all b pre { c with handle_result := false, handle_buffer := buffer
                                  handle_len := len }).handle_buffer = buffer ∧
      (compare_all b pre { c with handle_result := false, handle_buffer := buffer
                                  handle_len := len }).handle_len = len ∧
      compare_all b (registry b) { c with handle_result := false, handle_buffer := buffer
                                          handle_len := len } =
        compare_all b post (compare_cmd b k h
          (compare_all b pre { c with handle_result := false, handle_buffer := buffer
                                      handle_len := len }))) := by
  have hlen : strlen_P k % 256 = k.length := by
    rw [strlen_P_eq_length k hk.2, Nat.mod_eq_of_lt hk.1]
  refine ⟨?_, ?_, ?_⟩
  · intro arg tail hb hl hlt
    refine ⟨?_, by omega, fun ha => by rw [hl, ha]; simp⟩
    have hm : strncmp_P c.handle_buffer k k.length = 0 := by
      rw [hb]; exact strncmp_P_prefix k hk.2 _
    have hsp : cget c.handle_buffer k.length = 32 := by
      rw [hb]; exact cget_append_length k 32 _
    have hd : c.handle_buffer.drop (k.length + 1) = arg ++ tail := by
      rw [hb]; exact drop_field k _ _ rfl
    have hpl : (c.handle_len - k.length - 1) % 256 = c.handle_len - k.length - 1 :=
      Nat.mod_eq_of_lt (by omega)
    unfold compare_cmd
    simp only [hlen, hm, if_true, hsp, hd, hpl]
    rw [if_pos ⟨by omega, trivial⟩]
  · intro tail hb hl
    have hm : strncmp_P c.handle_buffer k k.length = 0 := by
      rw [hb]; exact strncmp_P_prefix k hk.2 _
    unfold compare_cmd
    simp only [hlen, hm, if_true]
    rw [if_neg (by rw [hl]; intro hh; exact absurd hh.1 (lt_irrefl _))]
  · intro pre post buffer len hr
    obtain ⟨f1, f2, _⟩ := compare_all_frame b pre
      { c with handle_result := false, handle_buffer := buffer, handle_len := len }
    refine ⟨f1, f2, ?_⟩
    rw [hr, compare_all_append]
    rfl

/-- Witness of C27: on the line `charge 1` the handler of `charge` runs with
the argument `1` of length 1; on the line `charge` it runs without
argument. -/
theorem C27_argument_extraction_witness :
    compare_cmd specBuild (bytes "charge") Handler.cmd_Allow_Charging
        (console_line "charge 1") =
      { invoke specBuild Handler.cmd_Allow_Charging
          { console_line "charge 1" with
            param := some (bytes "1" ++ [])
            param_len := (console_line "charge 1").handle_len - (bytes "charge").length - 1 }
        with handle_result := true } ∧
    (console_line "charge 1").handle_len - (bytes "charge").length - 1 = 1 ∧
    compare_cmd specBuild (bytes "charge") Handler.cmd_Allow_Charging (console_line "charge") =
      { invoke specBuild Handler.cmd_Allow_Charging
          { console_line "charge" with param := none, param_len := 0 }
        with handle_result := true } := by
  have h := C27_argument_extraction specBuild (bytes "charge") Handler.cmd_Allow_Charging
  refine ⟨((h (console_line "charge 1") (by decide)).1 (bytes "1") [] (by decide!)
      (by decide!) (by decide!)).1, by decide!, ?_⟩
  exact (h (console_line "charge") (by decide)).2.1 [] (by decide!) (by decide!)

/-! ## Setters that test for positivity -/

set_option maxHeartbeats 1000000 in
/-- What every positivity-checked setter does with a non-empty argument: when
the atoi result, converted to the type of the local variable, is positive, the
field becomes the converted value; otherwise the configuration is unchanged
and the only output is the usage hint and the parameter. -/
theorem positivity_setter_spec (b : Build) (e : PositivitySetter)
    (he : e ∈ positivity_setters b) (c : Console) (hp : c.param_len ≠ 0) :
    (0 < e.conv (c.atoi_param 0) →
      e.field (e.run c).bq769x_conf = e.conv (c.atoi_param 0)) ∧
    (¬ 0 < e.conv (c.atoi_param 0) →
      (e.run c).bq769x_conf = c.bq769x_conf ∧
      new_trace c (e.run c) = [Event.write_help e.keyword, Event.print_conf e.shown]) := by
  simp only [positivity_setters, List.mem_cons, List.mem_singleton, List.not_mem_nil,
    or_false] at he
  rcases he with rfl | rfl | rfl | rfl | rfl | rfl | rfl | rfl | rfl | rfl | rfl
  all_goals
    dsimp only
    refine ⟨fun hpos => ?_, fun hneg => ⟨?_, new_trace_of_append c _ _ ?_⟩⟩ <;>
    · simp only [cmd_RS_uOhm, cmd_CurrentThresholdIdle_mA, cmd_BalancingCellMin_mV,
        cmd_BalancingCellMaxDifference_mV, cmd_BalancingIdleTimeMin_s, cmd_Cell_OCD_mA,
        cmd_Cell_OCD_ms, cmd_Cell_SCD_mA, cmd_Cell_SCD_us, cmd_Cell_ODP_mA, cmd_Cell_ODP_ms,
        withConf, Console.emit, print_conf, write_help, if_pos hp]
      split_ifs with h <;>
        first
        | rfl
        | (exfalso; omega)
        | (simp only [List.append_assoc, List.cons_append, List.nil_append])

theorem positivity_conv_zero (b : Build) (e : PositivitySetter)
    (he : e ∈ positivity_setters b) : e.conv 0 = 0 := by
  simp only [positivity_setters, List.mem_cons, List.mem_singleton, List.not_mem_nil,
    or_false] at he
  rcases he with rfl | rfl | rfl | rfl | rfl | rfl | rfl | rfl | rfl | rfl | rfl <;> rfl

theorem positivity_setters_length (b : Build) : (positivity_setters b).length = 11 := rfl

theorem positivity_setters_mem (b : Build) (i : Nat) (h : i < 11) :
    (positivity_setters b).get ⟨i, h⟩ ∈ positivity_setters b :=
  List.get_mem _ _ _

/-- C28: each of the eleven setters that test the parsed value for positivity
(shunt resistance, idle current threshold, balancing minimum cell voltage,
maximum difference and idle time, overcurrent-charge, short-circuit and
overcurrent-discharge current and duration), called with a non-empty argument
that atoi parses as zero, leaves the whole configuration unchanged; its only
output is the usage hint and the parameter, and no driver operation is
called. -/
theorem C28_zero_is_rejected (b : Build) (e : PositivitySetter)
    (he : e ∈ positivity_setters b) (c : Console) (hp : c.param_len ≠ 0)
    (hz : c.atoi_param 0 = 0) :
    (e.run c).bq769x_conf = c.bq769x_conf ∧
    new_trace c (e.run c) = [Event.write_help e.keyword, Event.print_conf e.shown] ∧
    bqCallsOf (new_trace c (e.run c)) = [] := by
  have h := (positivity_setter_spec b e he c hp).2
    (by rw [hz, positivity_conv_zero b e he]; decide)
  refine ⟨h.1, h.2, ?_⟩
  rw [h.2]
  rfl

/-- Witness of C28: the shunt resistance setter on "0" and the short-circuit
current setter on the text "abc", which atoi parses as zero. -/
theorem C28_zero_is_rejected_witness :
    (cmd_RS_uOhm specBuild (with_arg console0 "0")).bq769x_conf =
      (with_arg console0 "0").bq769x_conf ∧
    new_trace (with_arg console0 "abc") (cmd_Cell_SCD_mA specBuild (with_arg console0 "abc")) =
      [Event.write_help specBuild.STR_cmd_Cell_SCD_mA,
       Event.print_conf PrintParam.Conf_Cell_SCD_mA] :=
  ⟨(C28_zero_is_rejected specBuild _ (positivity_setters_mem specBuild 0 (by decide))
      (with_arg console0 "0") (by decide!) (by decide!)).1,
   (C28_zero_is_rejected specBuild _ (positivity_setters_mem specBuild 7 (by decide))
      (with_arg console0 "abc") (by decide!) (by decide!)).2.1⟩

theorem atoi_range (s : List Nat) : -32768 ≤ atoi s ∧ atoi s < 32768 := by
  unfold atoi s16
  omega

theorem atoi_param_range (c : Console) (off : Nat) :
    -32768 ≤ c.atoi_param off ∧ c.atoi_param off < 32768 :=
  atoi_range _

theorem u32_negative (v : Int) (h0 : -32768 ≤ v) (h1 : v < 0) :
    (u32 v : Int) = v + 4294967296 := by
  unfold u32
  omega

theorem u16_negative (v : Int) (h0 : -32768 ≤ v) (h1 : v < 0) :
    (u16 v : Int) = v + 65536 := by
  unfold u16
  omega

/-- C29, where the code departs from the claim: on the argument "-5" the
overcurrent-charge current setter and the balancing minimum voltage setter,
whose local variable is signed, reject the value and keep the configuration,
while the shunt resistance setter, whose local variable is unsigned, replaces
the prior value 1000 by 4294967291; the overcurrent-charge current setter on
"70000" stores 4464, the 16 bit result of atoi, and the balancing maximum
difference setter on "257" stores 1. -/
theorem C29_negative_and_oversized_values_are_stored :
    (with_arg console0 "-5").bq769x_conf.RS_uOhm = 1000 ∧
    (cmd_RS_uOhm specBuild (with_arg console0 "-5")).bq769x_conf.RS_uOhm = 4294967291 ∧
    (cmd_Cell_OCD_mA specBuild (with_arg console0 "-5")).bq769x_conf =
      (with_arg console0 "-5").bq769x_conf ∧
    (cmd_BalancingCellMin_mV specBuild (with_arg console0 "-5")).bq769x_conf =
      (with_arg console0 "-5").bq769x_conf ∧
    (cmd_Cell_OCD_mA specBuild (with_arg console0 "70000")).bq769x_conf.Cell_OCD_mA = 4464 ∧
    (cmd_BalancingCellMaxDifference_mV specBuild
      (with_arg console0 "257")).bq769x_conf.BalancingCellMaxDifference_mV = 1 := by
  decide!

/-! ## Detection of a changed byte -/

theorem crc8_unshift_shift : ∀ x, x < 256 → crc8_unshift^[8] (crc8_shift^[8] x) = x := by
  decide!

theorem crc8_round_injective (x y : Nat) (hx : x < 256) (hy : y < 256)
    (h : crc8_shift^[8] x = crc8_shift^[8] y) : x = y := by
  rw [← crc8_unshift_shift x hx, ← crc8_unshift_shift y hy, h]

theorem xor_lt_256 (a d : Nat) (ha : a < 256) (hd : d < 256) : a ^^^ d < 256 :=
  Nat.xor_lt_two_pow (n := 8) ha hd

theorem crc8_update_inj_acc (a1 a2 d : Nat) (h1 : a1 < 256) (h2 : a2 < 256) (hd : d < 256)
    (h : crc8_ccitt_update a1 d = crc8_ccitt_update a2 d) : a1 = a2 := by
  unfold crc8_ccitt_update at h
  have e := crc8_round_injective _ _ (Nat.mod_lt _ (by decide)) (Nat.mod_lt _ (by decide)) h
  rw [Nat.mod_eq_of_lt (xor_lt_256 a1 d h1 hd), Nat.mod_eq_of_lt (xor_lt_256 a2 d h2 hd)] at e
  exact Nat.xor_left_injective e

theorem crc8_update_inj_byte (a d1 d2 : Nat) (ha : a < 256) (h1 : d1 < 256) (h2 : d2 < 256)
    (h : crc8_ccitt_update a d1 = crc8_ccitt_update a d2) : d1 = d2 := by
  unfold crc8_ccitt_update at h
  have e := crc8_round_injective _ _ (Nat.mod_lt _ (by decide)) (Nat.mod_lt _ (by decide)) h
  rw [Nat.mod_eq_of_lt (xor_lt_256 a d1 ha h1), Nat.mod_eq_of_lt (xor_lt_256 a d2 ha h2)] at e
  exact Nat.xor_right_injective e

theorem foldl_crc_lt (l : List Nat) (a : Nat) (ha : a < 256) :
    l.foldl crc8_ccitt_update a < 256 := by
  induction l generalizing a with
  | nil => exact ha
  | cons x xs ih => exact ih _ (crc8_ccitt_update_lt a x)

theorem foldl_crc_inj_acc (l : List Nat) (hl : ∀ x ∈ l, x < 256) (a1 a2 : Nat)
    (h1 : a1 < 256) (h2 : a2 < 256)
    (h : l.foldl crc8_ccitt_update a1 = l.foldl crc8_ccitt_update a2) : a1 = a2 := by
  induction l generalizing a1 a2 with
  | nil => exact h
  | cons x xs ih =>
    have hx : x < 256 := hl x (List.mem_cons_self _ _)
    have := ih (fun y hy => hl y (List.mem_cons_of_mem _ hy)) _ _
      (crc8_ccitt_update_lt a1 x) (crc8_ccitt_update_lt a2 x) h
    exact crc8_update_inj_acc a1 a2 x h1 h2 hx this

/-- Changing one byte of the data changes the checksum. -/
theorem foldl_crc_set (body : List Nat) (hb : ∀ x ∈ body, x < 256) (i v : Nat)
    (hi : i < body.length) (hv : v < 256) (hne : body[i]? ≠ some v) (a : Nat) (ha : a < 256) :
    (body.set i v).foldl crc8_ccitt_update a ≠ body.foldl crc8_ccitt_update a := by
  induction body generalizing i a with
  | nil => simp at hi
  | cons x xs ih =>
    have hx : x < 256 := hb x (List.mem_cons_self _ _)
    have hxs : ∀ y ∈ xs, y < 256 := fun y hy => hb y (List.mem_cons_of_mem _ hy)
    cases i with
    | zero =>
      intro h
      simp only [List.set_cons_zero, List.foldl_cons] at h
      have e1 := foldl_crc_inj_acc xs hxs _ _ (crc8_ccitt_update_lt a v)
        (crc8_ccitt_update_lt a x) h
      have e2 := crc8_update_inj_byte a v x ha hv hx e1
      exact hne (by simp [e2])
    | succ j =>
      simp only [List.set_cons_succ, List.foldl_cons]
      exact ih hxs j (by simpa using hi) (by simpa using hne) _ (crc8_ccitt_update_lt a x)

theorem le_bytes_lt (n : Nat) : ∀ (x : Nat), ∀ y ∈ le_bytes n x, y < 256 := by
  induction n with
  | zero => intro x y hy; simp [le_bytes] at hy
  | succ n ih =>
    intro x y hy
    simp only [le_bytes, List.mem_cons] at hy
    rcases hy with h | h
    · rw [h]; exact Nat.mod_lt _ (by decide)
    · exact ih _ y h

theorem bytes_append (a c : List Nat) (ha : ∀ x ∈ a, x < 256) (hc : ∀ x ∈ c, x < 256) :
    ∀ x ∈ a ++ c, x < 256 := by
  intro x hx
  rcases List.mem_append.mp hx with h | h
  · exact ha x h
  · exact hc x h

theorem arr_bytes_lt (n : Nat) (l : List Nat) : ∀ y ∈ arr_bytes n l, y < 256 := by
  induction l with
  | nil => intro y hy; simp [arr_bytes] at hy
  | cons x xs ih => exact bytes_append _ _ (le_bytes_lt n x) ih

theorem arr_bytes_s_lt (n : Nat) (l : List Int) : ∀ y ∈ arr_bytes_s n l, y < 256 := by
  induction l with
  | nil => intro y hy; simp [arr_bytes_s] at hy
  | cons x xs ih => exact bytes_append _ _ (le_bytes_lt n _) ih

theorem conf_bytes_lt (r : bq769_conf) : ∀ y ∈ conf_bytes r, y < 256 := by
  unfold conf_bytes
  simp only [List.forall_mem_append]
  refine ⟨?_, ?_⟩
  repeat' apply And.intro
  all_goals
    first
    | exact le_bytes_lt _ _
    | exact arr_bytes_lt _ _
    | exact arr_bytes_s_lt _ _

theorem stats_bytes_lt (r : bq769_stats) : ∀ y ∈ stats_bytes r, y < 256 := by
  unfold stats_bytes
  simp only [List.forall_mem_append]
  refine ⟨?_, ?_⟩
  repeat' apply And.intro
  all_goals
    first
    | exact le_bytes_lt _ _
    | exact arr_bytes_lt _ _
    | exact arr_bytes_s_lt _ _

theorem gencrc8_concat (body : List Nat) (k : Nat) :
    gencrc8 (body ++ [k]) ((body ++ [k]).length - 1) = body.foldl crc8_ccitt_update 0 := by
  unfold gencrc8
  rw [take_length_pred_concat]

/-- In an image that passes the checksum test, a byte replaced by a different
byte makes the test fail, wherever the byte is. -/
theorem crc_ok_set (img : List Nat) (hb : ∀ x ∈ img, x < 256) (hok : crc_ok img) (i v : Nat)
    (hi : i < img.length) (hv : v < 256) (hne : img[i]? ≠ some v) :
    ¬ crc_ok (img.set i v) := by
  rcases List.eq_nil_or_concat img with rfl | ⟨body, k, himg⟩
  · simp at hi
  · rw [List.concat_eq_append] at himg
    subst himg
    have hbody : ∀ x ∈ body, x < 256 := fun x hx => hb x (List.mem_append_left _ hx)
    unfold crc_ok at hok ⊢
    rw [gencrc8_concat, List.getLast?_concat] at hok
    have hk : k = body.foldl crc8_ccitt_update 0 := Option.some.inj hok
    rw [List.length_append, List.length_singleton] at hi
    by_cases hlt : i < body.length
    · rw [List.set_append_left _ _ hlt, gencrc8_concat, List.getLast?_concat]
      intro h
      have h2 : k = (body.set i v).foldl crc8_ccitt_update 0 := Option.some.inj h
      rw [List.getElem?_append_left hlt] at hne
      exact foldl_crc_set body hbody i v hlt hv hne 0 (by decide) (h2.symm.trans hk)
    · have hi2 : i = body.length := by omega
      subst hi2
      have hs : (body ++ [k]).set body.length v = body ++ [v] := by
        rw [List.set_append_right _ _ (le_refl _)]
        simp
      rw [hs, gencrc8_concat, List.getLast?_concat]
      intro h
      have h2 : v = body.foldl crc8_ccitt_update 0 := Option.some.inj h
      apply hne
      rw [List.getElem?_append_right (le_refl _)]
      simp [h2, hk]

theorem crc_ok_conf (r : bq769_conf)
    (h : r.crc8 = gencrc8 (conf_bytes r) ((conf_bytes r).length - 1)) :
    crc_ok (conf_bytes r) := by
  unfold crc_ok
  rw [conf_bytes_getLast, ← h, h, Nat.mod_eq_of_lt (gencrc8_lt _ _)]

theorem crc_ok_stats (r : bq769_stats)
    (h : r.crc8 = gencrc8 (stats_bytes r) ((stats_bytes r).length - 1)) :
    crc_ok (stats_bytes r) := by
  unfold crc_ok
  rw [stats_bytes_getLast, ← h, h, Nat.mod_eq_of_lt (gencrc8_lt _ _)]

theorem conf_load_bad_trace (b : Build) (c : Console)
    (h : c.In_EEPROM_conf.crc8 ≠ gencrc8 (conf_bytes c.In_EEPROM_conf)
      ((conf_bytes c.In_EEPROM_conf).length - 1)) :
    (conf_load b c).trace = c.trace ++
      [Event.msg Msg.conf_load, Event.msg Msg.bad_crc, Event.eeprom_write_conf] := by
  rw [conf_load_bad b c h]
  simp only [conf_save, List.append_assoc, List.cons_append, List.nil_append]

theorem stats_load_bad_trace (c : Console)
    (h : c.In_EEPROM_stats.crc8 ≠ gencrc8 (stats_bytes c.In_EEPROM_stats)
      ((stats_bytes c.In_EEPROM_stats).length - 1)) :
    (stats_load c).trace = c.trace ++
      [Event.msg Msg.stats_load, Event.msg Msg.bad_crc, Event.eeprom_write_stats] := by
  rw [stats_load_bad c h]
  simp only [stats_save, List.append_assoc, List.cons_append, List.nil_append]

/-- C30: a changed byte is always detected.  In any image of bytes that passes
the checksum test, replacing the byte at any offset, data or checksum, by a
different byte makes the test fail.  So for the image Console::conf_save or
Console::stats_save writes and any record read back from that image with one
byte changed, the comparison of the next load fails and the load takes the
recovery path: notice, defaults or zeros, and the record written back. -/
theorem C30_single_byte_corruption_detected (b : Build) (c fresh : Console) (i v : Nat)
    (hv : v < 256) :
    (∀ img : List Nat, (∀ x ∈ img, x < 256) → crc_ok img → i < img.length →
      img[i]? ≠ some v → ¬ crc_ok (img.set i v)) ∧
    (∀ r : bq769_conf, i < (conf_bytes c.conf_save.In_EEPROM_conf).length →
      (conf_bytes c.conf_save.In_EEPROM_conf)[i]? ≠ some v →
      conf_bytes r = (conf_bytes c.conf_save.In_EEPROM_conf).set i v →
      r.crc8 ≠ gencrc8 (conf_bytes r) ((conf_bytes r).length - 1) ∧
      new_trace fresh (conf_load b { fresh with In_EEPROM_conf := r }) =
        [Event.msg Msg.conf_load, Event.msg Msg.bad_crc, Event.eeprom_write_conf]) ∧
    (∀ r : bq769_stats, i < (stats_bytes c.stats_save.In_EEPROM_stats).length →
      (stats_bytes c.stats_save.In_EEPROM_stats)[i]? ≠ some v →
      stats_bytes r = (stats_bytes c.stats_save.In_EEPROM_stats).set i v →
      r.crc8 ≠ gencrc8 (stats_bytes r) ((stats_bytes r).length - 1) ∧
      new_trace fresh (stats_load { fresh with In_EEPROM_stats := r }) =
        [Event.msg Msg.stats_load, Event.msg Msg.bad_crc, Event.eeprom_write_stats]) := by
  refine ⟨fun img hb hok hi hne => crc_ok_set img hb hok i v hi hv hne, ?_, ?_⟩
  · intro r hi hne hr
    have hsave := conf_save_valid c
    have hok : crc_ok (conf_bytes c.conf_save.In_EEPROM_conf) := by
      rw [hsave.1]; exact crc_ok_conf _ hsave.2
    have hbad : ¬ crc_ok (conf_bytes r) := by
      rw [hr]
      exact crc_ok_set _ (conf_bytes_lt _) hok i v hi hv hne
    have hcheck : r.crc8 ≠ gencrc8 (conf_bytes r) ((conf_bytes r).length - 1) :=
      fun h => hbad (crc_ok_conf r h)
    exact ⟨hcheck, new_trace_of_append fresh _ _
      (conf_load_bad_trace b { fresh with In_EEPROM_conf := r } hcheck)⟩
  · intro r hi hne hr
    have hsave := stats_save_valid c
    have hok : crc_ok (stats_bytes c.stats_save.In_EEPROM_stats) := by
      rw [hsave.1]; exact crc_ok_stats _ hsave.2
    have hbad : ¬ crc_ok (stats_bytes r) := by
      rw [hr]
      exact crc_ok_set _ (stats_bytes_lt _) hok i v hi hv hne
    have hcheck : r.crc8 ≠ gencrc8 (stats_bytes r) ((stats_bytes r).length - 1) :=
      fun h => hbad (crc_ok_stats r h)
    exact ⟨hcheck, new_trace_of_append fresh _ _
      (stats_load_bad_trace { fresh with In_EEPROM_stats := r } hcheck)⟩

/-- Witness of C30: the saved configuration image with the byte at offset 61
changed to 105 and the saved statistics image with the byte at offset 3
changed to 7 both fail the comparison of the load. -/
theorem C30_single_byte_corruption_detected_witness :
    conf_one_byte_off.crc8 ≠
      gencrc8 (conf_bytes conf_one_byte_off) ((conf_bytes conf_one_byte_off).length - 1) ∧
    stats_one_byte_off.crc8 ≠
      gencrc8 (stats_bytes stats_one_byte_off) ((stats_bytes stats_one_byte_off).length - 1) :=
  ⟨((C30_single_byte_corruption_detected specBuild console0 console0 61 105 (by decide)).2.1
      conf_one_byte_off (by decide!) (by decide!) (by decide!)).1,
   ((C30_single_byte_corruption_detected specBuild console0 console0 3 7 (by decide)).2.2
      stats_one_byte_off (by decide!) (by decide!) (by decide!)).1⟩

/-! ## Temperature limits and getters -/

theorem s16_atoi_param (c : Console) (off : Nat) : s16 (c.atoi_param off) = c.atoi_param off :=
  s16_small _ (atoi_param_range c off).1 (atoi_param_range c off).2

/-- C33: after Console::conf_default both temperature pairs are ordered
(minimum below maximum); each of the four temperature setters keeps both pairs
ordered for every state and argument; with a non-empty argument a minimum
setter stores the parsed value exactly when it is below the current maximum
and a maximum setter exactly when it is above the current minimum, and a
rejected value leaves the whole record, both limits included, as it was. -/
theorem C33_temperature_ordering (b : Build) (c : Console) :
    temp_ordered (conf_default b c).bq769x_conf ∧
    (temp_ordered c.bq769x_conf →
      temp_ordered (cmd_Cell_TempCharge_min b c).bq769x_conf ∧
      temp_ordered (cmd_Cell_TempCharge_max b c).bq769x_conf ∧
      temp_ordered (cmd_Cell_TempDischarge_min b c).bq769x_conf ∧
      temp_ordered (cmd_Cell_TempDischarge_max b c).bq769x_conf) ∧
    (c.param_len ≠ 0 →
      (c.atoi_param 0 < c.bq769x_conf.Cell_TempCharge_max →
        (cmd_Cell_TempCharge_min b c).bq769x_conf =
          { c.bq769x_conf with Cell_TempCharge_min := c.atoi_param 0 }) ∧
      (¬ c.atoi_param 0 < c.bq769x_conf.Cell_TempCharge_max →
        (cmd_Cell_TempCharge_min b c).bq769x_conf = c.bq769x_conf) ∧
      (c.atoi_param 0 > c.bq769x_conf.Cell_TempCharge_min →
        (cmd_Cell_TempCharge_max b c).bq769x_conf =
          { c.bq769x_conf with Cell_TempCharge_max := c.atoi_param 0 }) ∧
      (¬ c.atoi_param 0 > c.bq769x_conf.Cell_TempCharge_min →
        (cmd_Cell_TempCharge_max b c).bq769x_conf = c.bq769x_conf) ∧
      (c.atoi_param 0 < c.bq769x_conf.Cell_TempDischarge_max →
        (cmd_Cell_TempDischarge_min b c).bq769x_conf =
          { c.bq769x_conf with Cell_TempDischarge_min := c.atoi_param 0 }) ∧
      (¬ c.atoi_param 0 < c.bq769x_conf.Cell_TempDischarge_max →
        (cmd_Cell_TempDischarge_min b c).bq769x_conf = c.bq769x_conf) ∧
      (c.atoi_param 0 > c.bq769x_conf.Cell_TempDischarge_min →
        (cmd_Cell_TempDischarge_max b c).bq769x_conf =
          { c.bq769x_conf with Cell_TempDischarge_max := c.atoi_param 0 }) ∧
      (¬ c.atoi_param 0 > c.bq769x_conf.Cell_TempDischarge_min →
        (cmd_Cell_TempDischarge_max b c).bq769x_conf = c.bq769x_conf)) := by
  have hs := s16_atoi_param c 0
  refine ⟨?_, ?_, ?_⟩
  · simp only [conf_default, conf_default_rec, temp_ordered]
    decide
  · intro ho
    obtain ⟨h1, h2⟩ := ho
    simp only [temp_ordered, cmd_Cell_TempCharge_min, cmd_Cell_TempCharge_max,
      cmd_Cell_TempDischarge_min, cmd_Cell_TempDischarge_max, withConf, Console.emit,
      print_conf, write_help, hs]
    refine ⟨?_, ?_, ?_, ?_⟩ <;> split_ifs <;> exact ⟨by assumption, by assumption⟩
  · intro hp
    simp only [cmd_Cell_TempCharge_min, cmd_Cell_TempCharge_max, cmd_Cell_TempDischarge_min,
      cmd_Cell_TempDischarge_max, withConf, Console.emit, print_conf, write_help, hs,
      if_pos hp]
    refine ⟨?_, ?_, ?_, ?_, ?_, ?_, ?_, ?_⟩ <;> intro h <;>
      first
      | rw [if_pos h]
      | rw [if_neg h]

/-- Witness of C33: on the default limits (0 and 500, -200 and 650) the charge
minimum setter stores "100" and rejects "500", and the ordering holds after
both. -/
theorem C33_temperature_ordering_witness :
    (cmd_Cell_TempCharge_min specBuild
      (with_arg console0 "100")).bq769x_conf.Cell_TempCharge_min = 100 ∧
    (cmd_Cell_TempCharge_min specBuild (with_arg console0 "500")).bq769x_conf =
      (with_arg console0 "500").bq769x_conf ∧
    temp_ordered (cmd_Cell_TempCharge_min specBuild (with_arg console0 "100")).bq769x_conf := by
  have h1 := ((C33_temperature_ordering specBuild (with_arg console0 "100")).2.2
    (by decide!)).1 (by decide!)
  have h2 := ((C33_temperature_ordering specBuild (with_arg console0 "500")).2.2
    (by decide!)).2.1 (by decide!)
  have h3 := ((C33_temperature_ordering specBuild (with_arg console0 "100")).2.1
    (by decide!)).1
  refine ⟨?_, h2, h3⟩
  rw [h1]
  decide!

theorem compare_cmd_bare (b : Build) (k : List Nat) (h : Handler) (c : Console)
    (hk : k.length < 256 ∧ ∀ x ∈ k, x ≠ 0) (tail : List Nat)
    (hb : c.handle_buffer = k ++ tail) (hl : c.handle_len = k.length) :
    compare_cmd b k h c =
      { invoke b h { c with param := none, param_len := 0 } with handle_result := true } := by
  have hlen : strlen_P k % 256 = k.length := by
    rw [strlen_P_eq_length k hk.2, Nat.mod_eq_of_lt hk.1]
  have hm : strncmp_P c.handle_buffer k k.length = 0 := by
    rw [hb]; exact strncmp_P_prefix k hk.2 _
  unfold compare_cmd
  simp only [hlen, hm, if_true]
  rw [if_neg (by rw [hl]; intro hh; exact absurd hh.1 (lt_irrefl _))]

theorem compare_cmd_space (b : Build) (k : List Nat) (h : Handler) (c : Console)
    (hk : k.length < 256 ∧ ∀ x ∈ k, x ≠ 0) (tail : List Nat)
    (hb : c.handle_buffer = k ++ 32 :: tail) (hl : c.handle_len = k.length + 1) :
    compare_cmd b k h c =
      { invoke b h { c with param := some tail, param_len := 0 } with
        handle_result := true } := by
  have hlen : strlen_P k % 256 = k.length := by
    rw [strlen_P_eq_length k hk.2, Nat.mod_eq_of_lt hk.1]
  have hm : strncmp_P c.handle_buffer k k.length = 0 := by
    rw [hb]; exact strncmp_P_prefix k hk.2 _
  have hsp : cget c.handle_buffer k.length = 32 := by
    rw [hb]; exact cget_append_length k 32 _
  have hd : c.handle_buffer.drop (k.length + 1) = tail := by
    rw [hb]; exact drop_field k _ _ rfl
  have hpl : (c.handle_len - k.length - 1) % 256 = 0 := by
    rw [hl]; simp
  unfold compare_cmd
  simp only [hlen, hm, if_true, hsp, hd, hpl]
  rw [if_pos ⟨by omega, trivial⟩]

set_option maxHeartbeats 4000000 in
theorem invoke_getter (b : Build) (h : Handler) (c : Console) (hs : isSetter h = true)
    (hz : c.param_len = 0) :
    ∃ p, shown_param h = some p ∧
      invoke b h c = { c with trace := c.trace ++ [Event.handler h, Event.print_conf p] } := by
  cases h <;> simp only [isSetter, Bool.false_eq_true] at hs <;>
    refine ⟨_, rfl, ?_⟩ <;>
    simp [invoke, cmd_Allow_Charging, cmd_Allow_Discharging, cmd_BQ_dbg,
      cmd_RT_bits, cmd_RS_uOhm, cmd_RT_Beta, cmd_Cell_CapaNom_mV, cmd_Cell_CapaFull_mV,
      cmd_Batt_CapaNom_mAsec, cmd_CurrentThresholdIdle_mA, cmd_Cell_TempCharge_min,
      cmd_Cell_TempCharge_max, cmd_Cell_TempDischarge_min, cmd_Cell_TempDischarge_max,
      cmd_BalancingInCharge, cmd_BalancingEnable, cmd_BalancingCellMin_mV,
      cmd_BalancingCellMaxDifference_mV, cmd_BalancingIdleTimeMin_s, cmd_Cell_OCD_mA,
      cmd_Cell_OCD_ms, cmd_Cell_SCD_mA, cmd_Cell_SCD_us, cmd_Cell_ODP_mA, cmd_Cell_ODP_ms,
      cmd_Cell_OVP_mV, cmd_Cell_OVP_sec, cmd_Cell_UVP_mV, cmd_Cell_UVP_sec, Console.emit,
      print_conf, hz]

/-- C32: a configuration-parameter command with an empty argument only prints
its parameter.  For every handler of such a command, called with
param_len = 0, the state afterwards is the state before with the call of
print_conf for that parameter appended to the trace: the configuration record
is unchanged and no driver operation is called.  Console::compare_cmd calls
the handler that way both for the bare keyword and for the keyword followed by
one space. -/
theorem C32_getter_frame (b : Build) (h : Handler) (c : Console) (hs : isSetter h = true) :
    ∃ p, shown_param h = some p ∧
      (c.param_len = 0 →
        invoke b h c = { c with trace := c.trace ++ [Event.handler h, Event.print_conf p] } ∧
        (invoke b h c).bq769x_conf = c.bq769x_conf ∧
        bqCallsOf (new_trace c (invoke b h c)) = []) ∧
      (∀ k tail : List Nat, k.length < 256 → (∀ x ∈ k, x ≠ 0) →
        (c.handle_buffer = k ++ tail → c.handle_len = k.length →
          compare_cmd b k h c =
            { c with param := none, param_len := 0, handle_result := true,
                     trace := c.trace ++ [Event.handler h, Event.print_conf p] }) ∧
        (c.handle_buffer = k ++ 32 :: tail → c.handle_len = k.length + 1 →
          compare_cmd b k h c =
            { c with param := some tail, param_len := 0, handle_result := true,
                     trace := c.trace ++ [Event.handler h, Event.print_conf p] })) := by
  obtain ⟨p, hp, _⟩ := invoke_getter b h { c with param := none, param_len := 0 } hs rfl
  refine ⟨p, hp, ?_, ?_⟩
  · intro hz
    obtain ⟨p2, hp2, e2⟩ := invoke_getter b h c hs hz
    have hpp : p2 = p := Option.some.inj (hp2.symm.trans hp)
    rw [hpp] at e2
    refine ⟨e2, by rw [e2], ?_⟩
    have : new_trace c (invoke b h c) = [Event.handler h, Event.print_conf p] :=
      new_trace_of_append c _ _ (by rw [e2])
    rw [this]
    rfl
  · intro k tail hk1 hk2
    constructor
    · intro hb hl
      obtain ⟨p2, hp2, e2⟩ := invoke_getter b h { c with param := none, param_len := 0 } hs rfl
      have hpp : p2 = p := Option.some.inj (hp2.symm.trans hp)
      rw [compare_cmd_bare b k h c ⟨hk1, hk2⟩ tail hb hl, e2, hpp]
    · intro hb hl
      obtain ⟨p2, hp2, e2⟩ :=
        invoke_getter b h { c with param := some tail, param_len := 0 } hs rfl
      have hpp : p2 = p := Option.some.inj (hp2.symm.trans hp)
      rw [compare_cmd_space b k h c ⟨hk1, hk2⟩ tail hb hl, e2, hpp]

/-- Witness of C32: the lines `RS_uOhm` and `RS_uOhm` plus one space both
print the shunt resistance and nothing else. -/
theorem C32_getter_frame_witness :
    compare_cmd specBuild (bytes "RS_uOhm") Handler.cmd_RS_uOhm (console_line "RS_uOhm") =
      { console_line "RS_uOhm" with
        param := none
        param_len := 0
        handle_result := true
        trace := (console_line "RS_uOhm").trace ++
          [Event.handler Handler.cmd_RS_uOhm, Event.print_conf PrintParam.Conf_RS_uOhm] } ∧
    compare_cmd specBuild (bytes "RS_uOhm") Handler.cmd_RS_uOhm (console_line "RS_uOhm ") =
      { console_line "RS_uOhm " with
        param := some []
        param_len := 0
        handle_result := true
        trace := (console_line "RS_uOhm ").trace ++
          [Event.handler Handler.cmd_RS_uOhm, Event.print_conf PrintParam.Conf_RS_uOhm] } := by
  obtain ⟨p1, hp1, _, h1⟩ :=
    C32_getter_frame specBuild Handler.cmd_RS_uOhm (console_line "RS_uOhm") rfl
  obtain ⟨p2, hp2, _, h2⟩ :=
    C32_getter_frame specBuild Handler.cmd_RS_uOhm (console_line "RS_uOhm ") rfl
  have e1 : p1 = PrintParam.Conf_RS_uOhm := (Option.some.inj hp1).symm
  have e2 : p2 = PrintParam.Conf_RS_uOhm := (Option.some.inj hp2).symm
  subst e1
  subst e2
  exact ⟨(h1 (bytes "RS_uOhm") [] (by decide) (by decide)).1 (by decide!) (by decide!),
    (h2 (bytes "RS_uOhm") [] (by decide) (by decide)).2 (by decide!) (by decide!)⟩

/-! ## Bounds of the line buffer -/

theorem recv_loop_cons (ch : Nat) (rest : List Nat) (c : Console) :
    recv_loop (ch :: rest) c =
      if finalizes ch c then
        { recv_body ch c with
          len := dec8 (recv_body ch c).len
          buffer := (recv_body ch c).buffer.set (dec8 (recv_body ch c).len) 0
          state := SerialState.CONSOLE_COMMAND
          ser_rx := rest }
      else recv_loop rest (recv_body ch c) := rfl

theorem dec8_pos (n : Nat) (h0 : n ≠ 0) (h1 : n ≤ 100) : dec8 n = n - 1 := by
  unfold dec8; omega

theorem inc8_small (n : Nat) (h1 : n ≤ 99) : inc8 n = n + 1 := by
  unfold inc8; omega

theorem recv_body_fields (ch : Nat) (c : Console) :
    (recv_body ch c).len =
      (if ch = BackSpace ∨ ch = Delete then (if c.len ≠ 0 then dec8 c.len else c.len)
       else (if ch ≠ LF then inc8 c.len else c.len)) ∧
    (recv_body ch c).buffer.length = c.buffer.length ∧
    (recv_body ch c).state = c.state := by
  unfold recv_body
  simp only [Console.emit]
  split_ifs <;> simp

theorem recv_body_len (ch : Nat) (c : Console) (h : len_ok c) :
    (recv_body ch c).len ≤ CONS_BUFF ∧ (recv_body ch c).buffer.length = CONS_BUFF ∧
    (recv_body ch c).state = c.state ∧
    (ch = CR → (recv_body ch c).len ≠ 0) := by
  obtain ⟨h1, h2⟩ := h
  obtain ⟨f1, f2, f3⟩ := recv_body_fields ch c
  simp only [CONS_BUFF] at h1 h2 ⊢
  refine ⟨?_, by rw [f2, h2], f3, ?_⟩
  · rw [f1]
    unfold dec8 inc8
    split_ifs <;> omega
  · intro hcr
    rw [f1, hcr, if_neg (by decide), if_pos (by decide)]
    unfold inc8
    omega

theorem recv_body_next (ch : Nat) (c : Console) (h : len_ok c) (hf : ¬ finalizes ch c) :
    len_ok (recv_body ch c) := by
  obtain ⟨b1, b2, _, _⟩ := recv_body_len ch c h
  unfold finalizes at hf
  simp only [not_or] at hf
  refine ⟨?_, b2⟩
  have := hf.1
  simp only [CONS_BUFF] at b1 this ⊢
  omega

theorem recv_body_final (ch : Nat) (c : Console) (h : len_ok c) (hf : finalizes ch c) :
    (recv_body ch c).len ≠ 0 ∧ dec8 (recv_body ch c).len < CONS_BUFF ∧
    dec8 (recv_body ch c).len = (recv_body ch c).len - 1 := by
  obtain ⟨b1, _, _, b4⟩ := recv_body_len ch c h
  have hne : (recv_body ch c).len ≠ 0 := by
    rcases hf with hf | hf
    · rw [hf]; decide
    · exact b4 hf
  simp only [CONS_BUFF] at b1 ⊢
  have := dec8_pos _ hne b1
  exact ⟨hne, by omega, this⟩

theorem recv_writes_in_bounds (ch : Nat) (c : Console) (h : len_ok c) :
    ∀ i ∈ recv_writes ch c, i < CONS_BUFF := by
  intro i hi
  have h1 := h.1
  simp only [CONS_BUFF] at h1
  unfold recv_writes at hi
  rcases List.mem_append.mp hi with hi | hi
  · split_ifs at hi with ha hb hc
    · rw [List.mem_singleton.mp hi, dec8_pos c.len hb (by omega)]
      simp only [CONS_BUFF]; omega
    · exact absurd hi (List.not_mem_nil _)
    · rw [List.mem_singleton.mp hi]
      simp only [CONS_BUFF]; omega
    · exact absurd hi (List.not_mem_nil _)
  · split_ifs at hi with hf
    · rw [List.mem_singleton.mp hi]
      exact (recv_body_final ch c h hf).2.1
    · exact absurd hi (List.not_mem_nil _)

theorem recv_loop_ok : ∀ (rx : List Nat) (c : Console), len_ok c →
    len_ok (recv_loop rx c) ∧
    (c.state ≠ SerialState.CONSOLE_COMMAND →
      (recv_loop rx c).state = SerialState.CONSOLE_COMMAND →
      cget (recv_loop rx c).buffer (recv_loop rx c).len = 0) := by
  intro rx
  induction rx with
  | nil =>
    intro c h
    exact ⟨h, fun h1 h2 => absurd h2 h1⟩
  | cons ch rest ih =>
    intro c h
    rw [recv_loop_cons]
    by_cases hf : finalizes ch c
    · rw [if_pos hf]
      obtain ⟨_, b2, _, _⟩ := recv_body_len ch c h
      obtain ⟨_, f2, f3⟩ := recv_body_final ch c h hf
      refine ⟨⟨?_, ?_⟩, fun _ _ => cget_set_zero _ _⟩
      · show dec8 (recv_body ch c).len ≤ CONS_BUFF - 1
        simp only [CONS_BUFF] at f2 ⊢
        omega
      · show ((recv_body ch c).buffer.set (dec8 (recv_body ch c).len) 0).length = CONS_BUFF
        rw [List.length_set, b2]
    · rw [if_neg hf]
      obtain ⟨_, _, b3, _⟩ := recv_body_len ch c h
      obtain ⟨i1, i2⟩ := ih (recv_body ch c) (recv_body_next ch c h hf)
      exact ⟨i1, fun h1 h2 => i2 (by rw [b3]; exact h1) h2⟩

theorem recv_iters_ok : ∀ (rx : List Nat) (c : Console), len_ok c →
    ∀ it ∈ recv_iters rx c,
      len_ok it.2 ∧ (∀ i ∈ recv_writes it.1 it.2, i < CONS_BUFF) ∧
      (finalizes it.1 it.2 → (recv_body it.1 it.2).len ≠ 0) := by
  intro rx
  induction rx with
  | nil => intro c _ it hit; simp [recv_iters] at hit
  | cons ch rest ih =>
    intro c h it hit
    simp only [recv_iters, List.mem_cons] at hit
    rcases hit with hit | hit
    · rw [hit]
      exact ⟨h, recv_writes_in_bounds ch c h, fun hf => (recv_body_final ch c h hf).1⟩
    · split_ifs at hit with hf
      · exact absurd hit (List.not_mem_nil _)
      · exact ih (recv_body ch c) (recv_body_next ch c h hf) it hit

set_option maxHeartbeats 4000000 in
theorem invoke_line (b : Build) (h : Handler) (c : Console) :
    (invoke b h c).len = c.len ∧ (invoke b h c).buffer = c.buffer ∧
    (invoke b h c).state = c.state := by
  cases h <;>
    simp only [invoke, print_all_conf_eq, command_help_eq, cmd_conf_print, cmd_stats_print,
      cmd_stats_save, command_restore, command_save, command_bqregs, command_print,
      command_wdreset, command_bootloader, command_freemem, command_format_EEMEM,
      command_shutdown, cmd_Allow_Charging, cmd_Allow_Discharging, cmd_BQ_dbg, cmd_RT_bits,
      cmd_RS_uOhm, cmd_RT_Beta, cmd_Cell_CapaNom_mV, cmd_Cell_CapaFull_mV,
      cmd_Batt_CapaNom_mAsec, cmd_CurrentThresholdIdle_mA, cmd_Cell_TempCharge_min,
      cmd_Cell_TempCharge_max, cmd_Cell_TempDischarge_min, cmd_Cell_TempDischarge_max,
      cmd_BalancingInCharge, cmd_BalancingEnable, cmd_BalancingCellMin_mV,
      cmd_BalancingCellMaxDifference_mV, cmd_BalancingIdleTimeMin_s, cmd_Cell_OCD_mA,
      cmd_Cell_OCD_ms, cmd_Cell_SCD_mA, cmd_Cell_SCD_us, cmd_Cell_ODP_mA, cmd_Cell_ODP_ms,
      cmd_Cell_OVP_mV, cmd_Cell_OVP_sec, cmd_Cell_UVP_mV, cmd_Cell_UVP_sec, Console.emit,
      withConf, print_conf, write_help, print_all_stats, debug_print, stats_save, conf_save,
      conf_default, conf_default_rec, conf_begin_protect] <;>
    (try split_ifs) <;>
    simp only [and_self]

theorem compare_cmd_line (b : Build) (k : List Nat) (h : Handler) (c : Console) :
    (compare_cmd b k h c).len = c.len ∧ (compare_cmd b k h c).buffer = c.buffer ∧
    (compare_cmd b k h c).state = c.state := by
  unfold compare_cmd
  dsimp only
  split_ifs
  · exact invoke_line b h
      { c with param := some (c.handle_buffer.drop (strlen_P k % 256 + 1)),
               param_len := (c.handle_len - strlen_P k % 256 - 1) % 256 }
  · exact invoke_line b h { c with param := none, param_len := 0 }
  · exact ⟨rfl, rfl, rfl⟩

theorem compare_all_line (b : Build) (es : List (List Nat × Handler)) : ∀ c : Console,
    (compare_all b es c).len = c.len ∧ (compare_all b es c).buffer = c.buffer ∧
    (compare_all b es c).state = c.state := by
  induction es with
  | nil => intro c; exact ⟨rfl, rfl, rfl⟩
  | cons e es ih =>
    intro c
    obtain ⟨a1, a2, a3⟩ := compare_cmd_line b e.1 e.2 c
    obtain ⟨i1, i2, i3⟩ := ih (compare_cmd b e.1 e.2 c)
    exact ⟨i1.trans a1, i2.trans a2, i3.trans a3⟩

theorem handleCommand_line (b : Build) (c : Console) (buffer : List Nat) (len : Nat) :
    (handleCommand b c buffer len).1.len = c.len ∧
    (handleCommand b c buffer len).1.buffer = c.buffer ∧
    (handleCommand b c buffer len).1.state = c.state := by
  unfold handleCommand
  split_ifs with h0
  · exact ⟨rfl, rfl, rfl⟩
  · obtain ⟨a1, a2, a3⟩ := compare_all_line b (registry b)
      { c with handle_result := false, handle_buffer := buffer, handle_len := len }
    dsimp only
    split_ifs <;> exact ⟨a1, a2, a3⟩

theorem Recv_len_ok (b : Build) (c : Console) (h : len_ok c) : len_ok (Recv b c).1 := by
  unfold Recv
  cases hs : c.state with
  | CONSOLE_STARTUP => exact h
  | CONSOLE_ACCUMULATING => exact (recv_loop_ok c.ser_rx c h).1
  | CONSOLE_COMMAND =>
    obtain ⟨_, a2, _⟩ := handleCommand_line b c c.buffer c.len
    refine ⟨Nat.zero_le _, ?_⟩
    show (handleCommand b c c.buffer c.len).1.buffer.length = CONS_BUFF
    rw [a2]
    exact h.2

@[simp] theorem say_if_len (c : Console) (s : Bool) (m : Msg) :
    (c.say_if s m).len = c.len := by
  unfold say_if; split_ifs <;> rfl

@[simp] theorem say_if_buffer (c : Console) (s : Bool) (m : Msg) :
    (c.say_if s m).buffer = c.buffer := by
  unfold say_if; split_ifs <;> rfl

@[simp] theorem update_undervoltage_len (c : Console) :
    c.update_undervoltage.len = c.len := by
  unfold update_undervoltage; simp only [Console.emit]; split_ifs <;> rfl

@[simp] theorem update_undervoltage_buffer (c : Console) :
    c.update_undervoltage.buffer = c.buffer := by
  unfold update_undervoltage; simp only [Console.emit]; split_ifs <;> rfl

@[simp] theorem update_counters_len (c : Console) : c.update_counters.len = c.len := by
  unfold update_counters; simp only []; split_ifs <;> rfl

@[simp] theorem update_counters_buffer (c : Console) :
    c.update_counters.buffer = c.buffer := by
  unfold update_counters; simp only []; split_ifs <;> rfl

@[simp] theorem update_millis_len (now : Nat) (c : Console) :
    (c.update_millis now).len = c.len := by
  unfold update_millis; simp only []; split_ifs <;> rfl

@[simp] theorem update_millis_buffer (now : Nat) (c : Console) :
    (c.update_millis now).buffer = c.buffer := by
  unfold update_millis; simp only []; split_ifs <;> rfl

theorem update_work_line (b : Build) (c0 : Console) (now : Nat) (p : BqPoll) :
    (update_work b c0 now p).len = c0.len ∧ (update_work b c0 now p).buffer = c0.buffer := by
  by_cases hu : p.error % 256 &&& b.STAT_UV ≠ 0
  · simp only [update_work]
    rw [if_pos hu]
    simp [update_poll, Console.emit]
  · simp only [update_work]
    rw [if_neg hu]
    simp [update_poll, Console.emit]

theorem tick_line (b : Build) (c : Console) (t : Tick) :
    (tick b c t).len = c.len ∧ (tick b c t).buffer = c.buffer := by
  by_cases hf : fires c t = true
  · rw [tick_fired b c t hf]
    exact update_work_line b _ _ _
  · have hf2 : fires c t = false := by simpa using hf
    rw [tick_suppressed b c t hf2]
    exact ⟨rfl, rfl⟩

theorem conf_load_line (b : Build) (c : Console) :
    (conf_load b c).len = c.len ∧ (conf_load b c).buffer = c.buffer := by
  unfold conf_load
  simp only [Console.emit]
  split_ifs
  · simp only [conf_save, conf_default, and_self]
  · exact ⟨rfl, rfl⟩

theorem stats_load_line (c : Console) :
    (stats_load c).len = c.len ∧ (stats_load c).buffer = c.buffer := by
  unfold stats_load
  simp only [Console.emit]
  split_ifs
  · simp only [stats_save, and_self]
  · exact ⟨rfl, rfl⟩

theorem new_len_ok (b : Build) (ee_conf : bq769_conf) (ee_stats : bq769_stats)
    (millis : Nat) (rx : List Nat) : len_ok (Console.new b ee_conf ee_stats millis rx) := by
  unfold len_ok
  simp only [Console.new, (stats_load_line _).1, (stats_load_line _).2,
    (conf_load_line b _).1, (conf_load_line b _).2, List.length_replicate]
  exact ⟨Nat.zero_le _, trivial⟩

theorem op_step_len_ok (b : Build) (c : Console) (o : Op) (h : len_ok c) :
    len_ok (op_step b c o) := by
  cases o with
  | recv => exact Recv_len_ok b c h
  | tick t =>
    obtain ⟨a1, a2⟩ := tick_line b c t
    show (tick b c t).len ≤ CONS_BUFF - 1 ∧ (tick b c t).buffer.length = CONS_BUFF
    rw [a1, a2]
    exact h
  | arrive bytes => exact h

theorem run_ops_len_ok (b : Build) (os : List Op) : ∀ c : Console, len_ok c →
    len_ok (run_ops b c os) := by
  induction os with
  | nil => intro c h; exact h
  | cons o os ih => intro c h; exact ih _ (op_step_len_ok b c o h)

/-- C31: in every state the console reaches from its construction through
calls of Console::Recv and Console::update and the arrival of bytes, the
buffered length is at most CONS_BUFF - 1 (and the array has its CONS_BUFF
bytes); in a call of Console::Recv from such a state every iteration of the
byte loop starts with the length at most CONS_BUFF - 1, every index it writes
to (append, erase, terminator) is below CONS_BUFF, and the decrement that ends
the line is applied to a length that is not 0; when the call ends the line,
buffer[len] is the terminator and len is at most CONS_BUFF - 1. -/
theorem C31_input_buffer_safety (b : Build) (ee_conf : bq769_conf) (ee_stats : bq769_stats)
    (millis : Nat) (rx : List Nat) (ops : List Op) (c : Console)
    (hc : c = run_ops b (Console.new b ee_conf ee_stats millis rx) ops) :
    (c.len ≤ CONS_BUFF - 1 ∧ c.buffer.length = CONS_BUFF) ∧
    (∀ it ∈ recv_iters c.ser_rx c,
      it.2.len ≤ CONS_BUFF - 1 ∧ it.2.buffer.length = CONS_BUFF ∧
      (∀ i ∈ recv_writes it.1 it.2, i < CONS_BUFF) ∧
      (finalizes it.1 it.2 → (recv_body it.1 it.2).len ≠ 0)) ∧
    (c.state = SerialState.CONSOLE_ACCUMULATING →
      (Recv b c).1.state = SerialState.CONSOLE_COMMAND →
      cget (Recv b c).1.buffer (Recv b c).1.len = 0 ∧ (Recv b c).1.len ≤ CONS_BUFF - 1) := by
  have h : len_ok c := by
    rw [hc]
    exact run_ops_len_ok b ops _ (new_len_ok b ee_conf ee_stats millis rx)
  refine ⟨h, ?_, ?_⟩
  · intro it hit
    obtain ⟨a1, a2, a3⟩ := recv_iters_ok c.ser_rx c h it hit
    exact ⟨a1.1, a1.2, a2, a3⟩
  · intro hs hfin
    have hr : (Recv b c).1 = recv_loop c.ser_rx c := by
      unfold Recv
      rw [hs]
    rw [hr] at hfin ⊢
    obtain ⟨l1, l2⟩ := recv_loop_ok c.ser_rx c h
    exact ⟨l2 (by rw [hs]; decide) hfin, l1.1⟩

/-- Witness of C31: with `hi`, a backspace, `o` and a carriage return pending,
the call of Console::Recv ends the line `ho` with len = 2 and the terminator
at buffer[2]; the five iterations write to the indices 0, 1, 1, 1, 2, 2. -/
theorem C31_input_buffer_safety_witness :
    (recv_iters console_typing.ser_rx console_typing).map (fun it => recv_writes it.1 it.2) =
      [[0], [1], [1], [1], [2, 2]] ∧
    (Recv specBuild console_typing).1.len = 2 ∧
    cget (Recv specBuild console_typing).1.buffer (Recv specBuild console_typing).1.len = 0 ∧
    (Recv specBuild console_typing).1.len ≤ CONS_BUFF - 1 := by
  have h := (C31_input_buffer_safety specBuild conf_blank stats_blank 0 [104, 105, 8, 111, 13]
    [Op.recv] console_typing rfl).2.2 (by decide!) (by decide!)
  exact ⟨by decide!, by decide!, h.1, h.2⟩

/-! ## The line editor over many calls -/

@[simp] theorem say_if_state (c : Console) (s : Bool) (m : Msg) :
    (c.say_if s m).state = c.state := by
  unfold say_if; split_ifs <;> rfl

@[simp] theorem say_if_ser_rx (c : Console) (s : Bool) (m : Msg) :
    (c.say_if s m).ser_rx = c.ser_rx := by
  unfold say_if; split_ifs <;> rfl

@[simp] theorem update_undervoltage_state (c : Console) :
    c.update_undervoltage.state = c.state := by
  unfold update_undervoltage; simp only [Console.emit]; split_ifs <;> rfl

@[simp] theorem update_undervoltage_ser_rx (c : Console) :
    c.update_undervoltage.ser_rx = c.ser_rx := by
  unfold update_undervoltage; simp only [Console.emit]; split_ifs <;> rfl

@[simp] theorem update_counters_state (c : Console) : c.update_counters.state = c.state := by
  unfold update_counters; simp only []; split_ifs <;> rfl

@[simp] theorem update_counters_ser_rx (c : Console) :
    c.update_counters.ser_rx = c.ser_rx := by
  unfold update_counters; simp only []; split_ifs <;> rfl

@[simp] theorem update_millis_state (now : Nat) (c : Console) :
    (c.update_millis now).state = c.state := by
  unfold update_millis; simp only []; split_ifs <;> rfl

@[simp] theorem update_millis_ser_rx (now : Nat) (c : Console) :
    (c.update_millis now).ser_rx = c.ser_rx := by
  unfold update_millis; simp only []; split_ifs <;> rfl

theorem update_work_serial (b : Build) (c0 : Console) (now : Nat) (p : BqPoll) :
    (update_work b c0 now p).state = c0.state ∧
    (update_work b c0 now p).ser_rx = c0.ser_rx := by
  by_cases hu : p.error % 256 &&& b.STAT_UV ≠ 0
  · simp only [update_work]
    rw [if_pos hu]
    simp [update_poll, Console.emit]
  · simp only [update_work]
    rw [if_neg hu]
    simp [update_poll, Console.emit]

theorem tick_serial (b : Build) (c : Console) (t : Tick) :
    (tick b c t).state = c.state ∧ (tick b c t).ser_rx = c.ser_rx := by
  by_cases hf : fires c t = true
  · rw [tick_fired b c t hf]
    exact update_work_serial b _ _ _
  · have hf2 : fires c t = false := by simpa using hf
    rw [tick_suppressed b c t hf2]
    exact ⟨rfl, rfl⟩

theorem run_ops_append (b : Build) (a l : List Op) : ∀ c : Console,
    run_ops b c (a ++ l) = run_ops b (run_ops b c a) l := by
  induction a with
  | nil => intro c; rfl
  | cons o os ih => intro c; exact ih _

theorem run_ops_no_recv (b : Build) (os : List Op) : ∀ c : Console,
    (∀ o ∈ os, o ≠ Op.recv) →
    (run_ops b c os).state = c.state ∧ (run_ops b c os).len = c.len ∧
    (run_ops b c os).buffer = c.buffer ∧ (run_ops b c os).ser_rx = c.ser_rx ++ arrived os := by
  induction os with
  | nil => intro c _; exact ⟨rfl, rfl, rfl, by simp [run_ops, arrived]⟩
  | cons o os ih =>
    intro c h
    have hos : ∀ o ∈ os, o ≠ Op.recv := fun x hx => h x (List.mem_cons_of_mem o hx)
    obtain ⟨i1, i2, i3, i4⟩ := ih (op_step b c o) hos
    cases o with
    | recv => exact absurd rfl (h Op.recv (List.mem_cons_self _ _))
    | tick t =>
      obtain ⟨a1, a2⟩ := tick_line b c t
      obtain ⟨a3, a4⟩ := tick_serial b c t
      exact ⟨i1.trans a3, i2.trans a1, i3.trans a2, by rw [run_ops, i4]; simp only [op_step, a4, arrived]⟩
    | arrive bytes =>
      exact ⟨i1, i2, i3, by rw [run_ops, i4]; simp only [op_step, arrived, List.append_assoc]⟩

theorem line_length (c : Console) (hb : c.buffer.length = CONS_BUFF) (hl : c.len < CONS_BUFF) :
    c.line.length = c.len := by
  simp only [Console.line, List.length_take, hb]; omega

/-- One call of Console::Recv in the Accumulating state with pending bytes
that hold no carriage return and never fill the buffer: all of them are
consumed and the buffered line is the one the reference editor makes of them. -/
theorem Recv_accumulates (b : Build) (c : Console)
    (hs : c.state = SerialState.CONSOLE_ACCUMULATING)
    (hb : c.buffer.length = CONS_BUFF) (hl : c.len < CONS_BUFF)
    (hcr : ∀ x ∈ c.ser_rx, x ≠ CR)
    (hcap : ∀ n, n ≤ c.ser_rx.length →
      ((c.ser_rx.take n).foldl refStep c.line).length < CONS_BUFF) :
    (Recv b c).1.state = SerialState.CONSOLE_ACCUMULATING ∧
    (Recv b c).1.buffer.length = CONS_BUFF ∧ (Recv b c).1.len < CONS_BUFF ∧
    (Recv b c).1.ser_rx = [] ∧ (Recv b c).1.line = c.ser_rx.foldl refStep c.line := by
  have hR : (Recv b c).1 = recv_loop (c.ser_rx ++ []) c := by
    simp only [Recv, hs, List.append_nil]
  obtain ⟨c3, e3, hb3, hl3, hline3, hs3⟩ := recv_loop_iter c.ser_rx [] c hb hl hcr hcap
  rw [hR, e3]
  exact ⟨hs3.trans hs, hb3, hl3, rfl, hline3⟩

/-- One call of Console::Recv in the Accumulating state with a carriage
return pending behind bytes that never fill the buffer. -/
theorem Recv_finalizes (b : Build) (c : Console) (body rest : List Nat)
    (hs : c.state = SerialState.CONSOLE_ACCUMULATING)
    (hb : c.buffer.length = CONS_BUFF) (hl : c.len < CONS_BUFF)
    (hrx : c.ser_rx = body ++ CR :: rest) (hcr : ∀ x ∈ body, x ≠ CR)
    (hcap : ∀ n, n ≤ body.length → ((body.take n).foldl refStep c.line).length < CONS_BUFF) :
    (Recv b c).1.state = SerialState.CONSOLE_COMMAND ∧
    (Recv b c).1.len = (body.foldl refStep c.line).length ∧
    (Recv b c).1.line = body.foldl refStep c.line ∧
    cget (Recv b c).1.buffer (Recv b c).1.len = 0 ∧
    (Recv b c).1.ser_rx = rest := by
  have hR : (Recv b c).1 = recv_loop (body ++ CR :: rest) c := by
    simp only [Recv, hs, hrx]
  obtain ⟨c3, e3, hb3, hl3, hline3, _⟩ := recv_loop_iter body (CR :: rest) c hb hl hcr hcap
  obtain ⟨f1, f2, f3, f4, f5⟩ := recv_loop_cr rest c3 hl3
  rw [← e3, ← hR] at f1 f2 f3 f4 f5
  have hlen3 := line_length c3 hb3 hl3
  exact ⟨f1, by rw [f2, ← hlen3, hline3], by rw [f3, hline3], f4, f5⟩

/-- Calls of Console::Recv and Console::update and arrivals of bytes, as long
as no carriage return arrives and the buffer never fills: the console stays in
the Accumulating state, and the buffered line is the one the reference editor
makes of the bytes consumed so far, the others being still pending. -/
theorem run_ops_accumulating (b : Build) (os : List Op) : ∀ c : Console,
    c.state = SerialState.CONSOLE_ACCUMULATING → c.buffer.length = CONS_BUFF →
    c.len < CONS_BUFF → (∀ x ∈ c.ser_rx ++ arrived os, x ≠ CR) →
    (∀ n, n ≤ (c.ser_rx ++ arrived os).length →
      (((c.ser_rx ++ arrived os).take n).foldl refStep c.line).length < CONS_BUFF) →
    (run_ops b c os).state = SerialState.CONSOLE_ACCUMULATING ∧
    (run_ops b c os).buffer.length = CONS_BUFF ∧ (run_ops b c os).len < CONS_BUFF ∧
    ∃ consumed, consumed ++ (run_ops b c os).ser_rx = c.ser_rx ++ arrived os ∧
      (run_ops b c os).line = consumed.foldl refStep c.line := by
  induction os with
  | nil =>
    intro c hs hb hl _ _
    exact ⟨hs, hb, hl, [], by simp [run_ops, arrived], rfl⟩
  | cons o os ih =>
    intro c hs hb hl hcr hcap
    cases o with
    | recv =>
      simp only [arrived] at hcr hcap
      obtain ⟨r1, r2, r3, r4, r5⟩ := Recv_accumulates b c hs hb hl
        (fun x hx => hcr x (List.mem_append_left _ hx))
        (fun n hn => by
          have := hcap n (by rw [List.length_append]; omega)
          rwa [List.take_append_of_le_length hn] at this)
      obtain ⟨i1, i2, i3, consumed, i4, i5⟩ := ih (Recv b c).1 r1 r2 r3
        (fun x hx => hcr x (by rw [r4] at hx; exact List.mem_append_right _ hx))
        (fun n hn => by
          rw [r4] at hn ⊢
          rw [r5, List.nil_append, ← List.foldl_append, ← List.take_append]
          apply hcap
          rw [List.length_append]
          simpa using hn)
      refine ⟨i1, i2, i3, c.ser_rx ++ consumed, ?_, ?_⟩
      · show c.ser_rx ++ consumed ++ (run_ops b (Recv b c).1 os).ser_rx = _
        rw [List.append_assoc, i4, r4, List.nil_append]
        rfl
      · show (run_ops b (Recv b c).1 os).line = _
        rw [i5, r5, List.foldl_append]
    | tick t =>
      obtain ⟨a1, a2⟩ := tick_line b c t
      obtain ⟨a3, a4⟩ := tick_serial b c t
      have hline : (tick b c t).line = c.line := by simp only [Console.line, a1, a2]
      simp only [arrived] at hcr hcap
      obtain ⟨i1, i2, i3, consumed, i4, i5⟩ := ih (tick b c t) (a3.trans hs)
        (by rw [a2]; exact hb) (by rw [a1]; exact hl) (by rw [a4]; exact hcr)
        (by rw [a4, hline]; exact hcap)
      exact ⟨i1, i2, i3, consumed, by rw [← a4]; exact i4, by rw [← hline]; exact i5⟩
    | arrive bytes =>
      simp only [arrived, ← List.append_assoc] at hcr hcap
      obtain ⟨i1, i2, i3, consumed, i4, i5⟩ := ih { c with ser_rx := c.ser_rx ++ bytes } hs hb hl
        hcr hcap
      exact ⟨i1, i2, i3, consumed, by simp only [arrived, ← List.append_assoc]; exact i4, i5⟩

/-- One call of Console::Recv in the Accumulating state with enough ordinary
bytes pending to fill the buffer. -/
theorem Recv_overflows (b : Build) (c : Console)
    (hs : c.state = SerialState.CONSOLE_ACCUMULATING)
    (hb : c.buffer.length = CONS_BUFF) (hl : c.len < CONS_BUFF)
    (hlen : CONS_BUFF ≤ c.len + c.ser_rx.length)
    (ho : ∀ x ∈ c.ser_rx.take (CONS_BUFF - c.len), ordinary x) :
    (Recv b c).1.state = SerialState.CONSOLE_COMMAND ∧
    (Recv b c).1.len = CONS_BUFF - 1 ∧
    (Recv b c).1.line = c.line ++ c.ser_rx.take (CONS_BUFF - 1 - c.len) ∧
    cget (Recv b c).1.buffer (CONS_BUFF - 1) = 0 ∧
    (Recv b c).1.ser_rx = c.ser_rx.drop (CONS_BUFF - c.len) := by
  have hlinelen := line_length c hb hl
  unfold CONS_BUFF at hlen ho hl
  have hk : 99 - c.len < c.ser_rx.length := by omega
  have hsplit : c.ser_rx = c.ser_rx.take (99 - c.len) ++
      c.ser_rx[99 - c.len] :: c.ser_rx.drop (100 - c.len) := by
    conv_lhs => rw [← List.take_append_drop (99 - c.len) c.ser_rx]
    rw [List.drop_eq_getElem_cons hk]
    have : 99 - c.len + 1 = 100 - c.len := by omega
    rw [this]
  have hsub : ∀ x ∈ c.ser_rx.take (99 - c.len), ordinary x := fun x hx =>
    ho x ((List.take_subset_take_left c.ser_rx (by omega : 99 - c.len ≤ 100 - c.len)) hx)
  have ho99 : ordinary c.ser_rx[99 - c.len] := by
    apply ho
    rw [List.mem_take_iff_getElem]
    exact ⟨99 - c.len, by omega, rfl⟩
  have hR : (Recv b c).1 = recv_loop (c.ser_rx.take (99 - c.len) ++
      c.ser_rx[99 - c.len] :: c.ser_rx.drop (100 - c.len)) c := by
    simp only [Recv, hs]
    rw [← hsplit]
  obtain ⟨c3, e3, hb3, hl3, hline3, _⟩ := recv_loop_iter (c.ser_rx.take (99 - c.len))
    (c.ser_rx[99 - c.len] :: c.ser_rx.drop (100 - c.len)) c hb (by unfold CONS_BUFF; exact hl)
    (fun x hx => (hsub x hx).1)
    (fun n hn => by
      rw [foldl_refStep_ordinary _ _ (fun x hx => hsub x (List.mem_of_mem_take hx))]
      simp only [List.length_append, List.length_take, CONS_BUFF, hlinelen]
      omega)
  rw [foldl_refStep_ordinary _ _ hsub] at hline3
  have hlen3 : c3.len = 99 := by
    have h1 := line_length c3 hb3 hl3
    rw [hline3, List.length_append, List.length_take, hlinelen] at h1
    omega
  obtain ⟨f1, f2, f3, f4, f5⟩ := recv_loop_overflow c.ser_rx[99 - c.len]
    (c.ser_rx.drop (100 - c.len)) c3 hlen3 ho99
  rw [← e3, ← hR] at f1 f2 f3 f4 f5
  exact ⟨f1, f2, by rw [f3, hline3]; rfl, f4, f5⟩

/-- The arrival of bytes followed by events other than Console::Recv. -/
theorem run_ops_arrive_later (b : Build) (c : Console) (bytes : List Nat) (later : List Op)
    (hq : ∀ o ∈ later, o ≠ Op.recv) :
    (run_ops b c ([Op.arrive bytes] ++ later)).state = c.state ∧
    (run_ops b c ([Op.arrive bytes] ++ later)).len = c.len ∧
    (run_ops b c ([Op.arrive bytes] ++ later)).buffer = c.buffer ∧
    (run_ops b c ([Op.arrive bytes] ++ later)).line = c.line ∧
    (run_ops b c ([Op.arrive bytes] ++ later)).ser_rx = c.ser_rx ++ bytes ++ arrived later := by
  obtain ⟨q1, q2, q3, q4⟩ := run_ops_no_recv b later { c with ser_rx := c.ser_rx ++ bytes } hq
  refine ⟨q1, q2, q3, ?_, q4⟩
  show (run_ops b { c with ser_rx := c.ser_rx ++ bytes } later).line = c.line
  simp only [Console.line, q2, q3]

theorem run_ops_last_recv (b : Build) (c : Console) (ops later : List Op) (bytes : List Nat) :
    run_ops b c (ops ++ [Op.arrive bytes] ++ later ++ [Op.recv]) =
      (Recv b (run_ops b (run_ops b c ops) ([Op.arrive bytes] ++ later))).1 := by
  rw [List.append_assoc ops, run_ops_append, run_ops_append]
  rfl

/-- C8: the console is in the Accumulating state (buffer of CONS_BUFF bytes,
length below CONS_BUFF) and the input reaches it in any way: the events `ops`
are calls of Console::Recv, calls of Console::update and arrivals of bytes in
any order and number, so that the line may be consumed over many calls; then
the bytes `pre`, a carriage return and the bytes `rest` arrive, followed by
any events other than Console::Recv.  If the bytes before the carriage return
(those pending at the start, those arriving during `ops`, and `pre`) hold no
carriage return and the reference editor, started on the line buffered so far,
never holds CONS_BUFF characters on the way, the next call of Console::Recv
finalizes the line: the state is Command, the buffered line and its length are
those of the reference editor run over all these bytes, the byte after the line
is the terminator, what came after the carriage return stays pending, and the
following call of Console::Recv hands this buffer and length to handleCommand.
With an empty line at the start this is the reference editor run on the
input. -/
theorem C8_recv_refines_editor (b : Build) (c c1 : Console) (ops later : List Op)
    (pre rest : List Nat)
    (hs : c.state = SerialState.CONSOLE_ACCUMULATING)
    (hb : c.buffer.length = CONS_BUFF) (hl : c.len < CONS_BUFF)
    (hcr : ∀ x ∈ c.ser_rx ++ arrived ops ++ pre, x ≠ CR)
    (hcap : ∀ n, n ≤ (c.ser_rx ++ arrived ops ++ pre).length →
      (((c.ser_rx ++ arrived ops ++ pre).take n).foldl refStep c.line).length < CONS_BUFF)
    (hq : ∀ o ∈ later, o ≠ Op.recv)
    (h1 : c1 = run_ops b c (ops ++ [Op.arrive (pre ++ CR :: rest)] ++ later ++ [Op.recv])) :
    c1.state = SerialState.CONSOLE_COMMAND ∧
    c1.len = ((c.ser_rx ++ arrived ops ++ pre).foldl refStep c.line).length ∧
    c1.line = (c.ser_rx ++ arrived ops ++ pre).foldl refStep c.line ∧
    (c.len = 0 → c1.line = refEdit (c.ser_rx ++ arrived ops ++ pre)) ∧
    cget c1.buffer c1.len = 0 ∧
    c1.ser_rx = rest ++ arrived later ∧
    (Recv b c1).1 =
      { ((handleCommand b c1 c1.buffer c1.len).1.emit (Event.msg Msg.prompt)) with
        len := 0
        state := SerialState.CONSOLE_ACCUMULATING } := by
  obtain ⟨a1, a2, a3, consumed, a4, a5⟩ := run_ops_accumulating b ops c hs hb hl
    (fun x hx => hcr x (List.mem_append_left _ hx))
    (fun n hn => by
      have := hcap n (by rw [List.length_append]; omega)
      rwa [List.take_append_of_le_length hn] at this)
  obtain ⟨q1, q2, q3, hline, q4⟩ := run_ops_arrive_later b (run_ops b c ops)
    (pre ++ CR :: rest) later hq
  have hrun : c1 = (Recv b (run_ops b (run_ops b c ops)
      ([Op.arrive (pre ++ CR :: rest)] ++ later))).1 := by
    rw [h1, run_ops_last_recv]
  have htot : consumed ++ ((run_ops b c ops).ser_rx ++ pre) = c.ser_rx ++ arrived ops ++ pre := by
    rw [← List.append_assoc, a4]
  obtain ⟨f1, f2, f3, f4, f5⟩ := Recv_finalizes b _ ((run_ops b c ops).ser_rx ++ pre)
    (rest ++ arrived later) (q1.trans a1) (by rw [q3]; exact a2) (by rw [q2]; exact a3)
    (by rw [q4]; simp only [List.append_assoc, List.cons_append])
    (fun x hx => hcr x (by rw [← htot]; exact List.mem_append_right _ hx))
    (fun n hn => by
      rw [hline, a5, ← List.foldl_append, ← List.take_append, htot]
      apply hcap
      rw [← htot, List.length_append]
      omega)
  rw [← hrun] at f1 f2 f3 f4 f5
  rw [hline, a5, ← List.foldl_append, htot] at f2 f3
  refine ⟨f1, f2, f3, ?_, f4, f5, Recv_command b _ f1⟩
  intro h0
  have : c.line = [] := by simp [Console.line, h0]
  rw [f3, this]
  rfl

/-- Witness of C8: the bytes of `he`, a backspace and the bytes of `elp`,
consumed over three calls of Console::Recv, finalize at the carriage return to
the line `help` of length 4. -/
theorem C8_recv_refines_editor_witness :
    (run_ops specBuild console_h
      (typing_ops ++ [Op.arrive ([108, 112] ++ 13 :: [])] ++ [Op.tick cycle_tick] ++
        [Op.recv])).line = bytes "help" ∧
    (run_ops specBuild console_h
      (typing_ops ++ [Op.arrive ([108, 112] ++ 13 :: [])] ++ [Op.tick cycle_tick] ++
        [Op.recv])).len = 4 ∧
    refEdit [104, 101, 8, 101, 108, 112] = bytes "help" :=
  ⟨(C8_recv_refines_editor specBuild console_h _ typing_ops [Op.tick cycle_tick] [108, 112] []
      (by decide!) (by decide!) (by decide!) (by decide!) (by decide!) (by decide!)
      rfl).2.2.1.trans (by decide!),
   (C8_recv_refines_editor specBuild console_h _ typing_ops [Op.tick cycle_tick] [108, 112] []
      (by decide!) (by decide!) (by decide!) (by decide!) (by decide!) (by decide!)
      rfl).2.1.trans (by decide!),
   by decide!⟩

/-- C9: the console is in the Accumulating state with an empty or partly
filled buffer, and ordinary bytes reach it in any way: the events `ops` are
calls of Console::Recv, calls of Console::update and arrivals of bytes, during
which the buffered line stays short of CONS_BUFF; then the bytes `last` arrive
that take it to CONS_BUFF or beyond (followed by any events other than
Console::Recv).  The next call of Console::Recv finalizes the line when the
buffer is full: the state is Command, the length is CONS_BUFF - 1, the line is
the one buffered at the start followed by the input bytes up to CONS_BUFF - 1
characters in all (the first CONS_BUFF - 1 input bytes when the buffer was
empty), the byte after it is the terminator, and the input bytes after the one
that filled the buffer stay pending. -/
theorem C9_overflow_truncates (b : Build) (c c1 : Console) (ops later : List Op)
    (last : List Nat)
    (hs : c.state = SerialState.CONSOLE_ACCUMULATING)
    (hb : c.buffer.length = CONS_BUFF) (hl : c.len < CONS_BUFF)
    (hshort : c.len + (c.ser_rx ++ arrived ops).length < CONS_BUFF)
    (hlong : CONS_BUFF ≤ c.len + (c.ser_rx ++ arrived ops ++ last).length)
    (ho : ∀ x ∈ (c.ser_rx ++ arrived ops ++ last).take (CONS_BUFF - c.len), ordinary x)
    (hq : ∀ o ∈ later, o ≠ Op.recv)
    (h1 : c1 = run_ops b c (ops ++ [Op.arrive last] ++ later ++ [Op.recv])) :
    c1.state = SerialState.CONSOLE_COMMAND ∧
    c1.len = CONS_BUFF - 1 ∧
    c1.line = c.line ++ (c.ser_rx ++ arrived ops ++ last).take (CONS_BUFF - 1 - c.len) ∧
    (c.len = 0 → c1.line = (c.ser_rx ++ arrived ops ++ last).take (CONS_BUFF - 1)) ∧
    cget c1.buffer (CONS_BUFF - 1) = 0 ∧
    c1.ser_rx = (c.ser_rx ++ arrived ops ++ last).drop (CONS_BUFF - c.len) ++ arrived later := by
  have hlinelen := line_length c hb hl
  have hS : ∀ x ∈ c.ser_rx ++ arrived ops, ordinary x := by
    intro x hx
    apply ho
    rw [List.take_append_eq_append_take, List.take_of_length_le (by omega)]
    exact List.mem_append_left _ hx
  have hfold : ∀ n, ((c.ser_rx ++ arrived ops).take n).foldl refStep c.line =
      c.line ++ (c.ser_rx ++ arrived ops).take n := fun n =>
    foldl_refStep_ordinary _ _ (fun x hx => hS x (List.mem_of_mem_take hx))
  obtain ⟨a1, a2, a3, consumed, a4, a5⟩ := run_ops_accumulating b ops c hs hb hl
    (fun x hx => (hS x hx).1)
    (fun n hn => by
      rw [hfold, List.length_append, List.length_take, hlinelen]
      omega)
  have hcons : ∀ x ∈ consumed, ordinary x := fun x hx =>
    hS x (by rw [← a4]; exact List.mem_append_left _ hx)
  rw [foldl_refStep_ordinary _ _ hcons] at a5
  have alen := line_length _ a2 a3
  rw [a5, List.length_append, hlinelen] at alen
  obtain ⟨q1, q2, q3, hline, q4b⟩ := run_ops_arrive_later b (run_ops b c ops) last later hq
  have hrun : c1 = (Recv b (run_ops b (run_ops b c ops) ([Op.arrive last] ++ later))).1 := by
    rw [h1, run_ops_last_recv]
  have htot : consumed ++ ((run_ops b c ops).ser_rx ++ last ++ arrived later) =
      (c.ser_rx ++ arrived ops ++ last) ++ arrived later := by
    rw [← a4]; simp only [List.append_assoc]
  have hclen : consumed.length + (run_ops b c ops).ser_rx.length =
      (c.ser_rx ++ arrived ops).length := by
    rw [← a4, List.length_append]
  have htlen : (c.ser_rx ++ arrived ops ++ last).length =
      (c.ser_rx ++ arrived ops).length + last.length := List.length_append _ _
  have hk1 : CONS_BUFF - (run_ops b c ops).len + consumed.length = CONS_BUFF - c.len := by
    unfold CONS_BUFF at *; omega
  have hk2 : CONS_BUFF - 1 - (run_ops b c ops).len + consumed.length = CONS_BUFF - 1 - c.len := by
    unfold CONS_BUFF at *; omega
  have htake : ∀ k, k ≤ (c.ser_rx ++ arrived ops ++ last).length →
      consumed ++ ((run_ops b c ops).ser_rx ++ last ++ arrived later).take (k - consumed.length) =
      (c.ser_rx ++ arrived ops ++ last).take k ∨ k < consumed.length := by
    intro k hk
    by_cases hkc : k < consumed.length
    · exact Or.inr hkc
    · left
      obtain ⟨m, rfl⟩ : ∃ m, k = consumed.length + m := ⟨k - consumed.length, by omega⟩
      have e : ((c.ser_rx ++ arrived ops ++ last) ++ arrived later).take (consumed.length + m) =
          (c.ser_rx ++ arrived ops ++ last).take (consumed.length + m) :=
        List.take_append_of_le_length hk
      rw [Nat.add_sub_cancel_left, ← e, ← htot, List.take_append]
  obtain ⟨f1, f2, f3, f4, f5⟩ := Recv_overflows b _ (q1.trans a1) (by rw [q3]; exact a2)
    (by rw [q2]; exact a3)
    (by
      rw [q2, q4b]
      simp only [List.length_append] at hlong hclen ⊢
      omega)
    (by
      intro x hx
      rw [q2, q4b] at hx
      apply ho
      rcases htake (CONS_BUFF - c.len) (by unfold CONS_BUFF at *; omega) with h | h
      · rw [← h]
        apply List.mem_append_right
        have : CONS_BUFF - c.len - consumed.length = CONS_BUFF - (run_ops b c ops).len := by
          unfold CONS_BUFF at *; omega
        rw [this]
        exact hx
      · exfalso
        unfold CONS_BUFF at *
        omega)
  rw [← hrun] at f1 f2 f3 f4 f5
  rw [hline, q2, q4b] at f3
  rw [q2, q4b] at f5
  have hline1 : c1.line =
      c.line ++ (c.ser_rx ++ arrived ops ++ last).take (CONS_BUFF - 1 - c.len) := by
    rw [f3, a5, List.append_assoc]
    congr 1
    rcases htake (CONS_BUFF - 1 - c.len) (by unfold CONS_BUFF at *; omega) with h | h
    · rw [← h]
      have : CONS_BUFF - 1 - c.len - consumed.length =
          CONS_BUFF - 1 - (run_ops b c ops).len := by
        unfold CONS_BUFF at *; omega
      rw [this]
    · exfalso
      unfold CONS_BUFF at *
      omega
  refine ⟨f1, f2, hline1, ?_, f4, ?_⟩
  · intro h0
    have : c.line = [] := by simp [Console.line, h0]
    rw [hline1, this, h0]
    rfl
  · rw [f5]
    have e1 : CONS_BUFF - (run_ops b c ops).len + consumed.length = CONS_BUFF - c.len := hk1
    have : ((run_ops b c ops).ser_rx ++ last ++ arrived later).drop
        (CONS_BUFF - (run_ops b c ops).len) =
        (consumed ++ ((run_ops b c ops).ser_rx ++ last ++ arrived later)).drop
          (consumed.length + (CONS_BUFF - (run_ops b c ops).len)) := by
      rw [List.drop_append]
    rw [this, htot, Nat.add_comm, e1]
    exact List.drop_append_of_le_length (by unfold CONS_BUFF at *; omega)

/-- Witness of C9: 120 bytes `a`, of which 60 are consumed by a first call of
Console::Recv and 30 by a second, finalize in the third call to a line of 99
bytes `a`; the 20 bytes after the hundredth stay pending. -/
theorem C9_overflow_truncates_witness :
    (run_ops specBuild console_60
      (overflow_ops ++ [Op.arrive (List.replicate 30 97)] ++ [] ++ [Op.recv])).len = 99 ∧
    (run_ops specBuild console_60
      (overflow_ops ++ [Op.arrive (List.replicate 30 97)] ++ [] ++ [Op.recv])).line =
      List.replicate 99 97 ∧
    (run_ops specBuild console_60
      (overflow_ops ++ [Op.arrive (List.replicate 30 97)] ++ [] ++ [Op.recv])).ser_rx =
      List.replicate 20 97 :=
  ⟨(C9_overflow_truncates specBuild console_60 _ overflow_ops [] (List.replicate 30 97)
      (by decide!) (by decide!) (by decide!) (by decide!) (by decide!) (by decide!)
      (by decide!) rfl).2.1,
   ((C9_overflow_truncates specBuild console_60 _ overflow_ops [] (List.replicate 30 97)
      (by decide!) (by decide!) (by decide!) (by decide!) (by decide!) (by decide!)
      (by decide!) rfl).2.2.2.1 (by decide!)).trans (by decide!),
   (C9_overflow_truncates specBuild console_60 _ overflow_ops [] (List.replicate 30 97)
      (by decide!) (by decide!) (by decide!) (by decide!) (by decide!) (by decide!)
      (by decide!) rfl).2.2.2.2.2.trans (by decide!)⟩

/-! ## Debounce and persistence of the shutdown -/

theorem run_ticks_uv_no_notice (b : Build) (ts : List Tick) : ∀ c : Console,
    all_fire b c ts = true → (∀ t ∈ ts, uv_flagged b t) → ts.length < c.shd → c.shd ≤ 255 →
    Event.msg Msg.shutdown_hlp ∉ new_trace c (run_ticks b c ts) := by
  induction ts with
  | nil =>
    intro c _ _ _ _
    simp [run_ticks, new_trace]
  | cons t ts ih =>
    intro c hf hu hlen hle
    simp only [all_fire, Bool.and_eq_true] at hf
    simp only [List.length_cons] at hlen
    obtain ⟨s1, _, e1, s3, _, _⟩ := tick_uv b c t hf.1 (hu t (List.mem_cons_self t ts))
    have hd : dec8 c.shd = c.shd - 1 := by unfold dec8; omega
    rw [hd] at s1
    have hos : ∀ x ∈ ts, uv_flagged b x := fun x hx => hu x (List.mem_cons_of_mem t hx)
    obtain ⟨_, e2, r2, _⟩ := run_ticks_uv_quiet b ts (tick b c t) hf.2 hos
      (by rw [s1]; omega) (by rw [s1]; omega)
    have i1 := ih (tick b c t) hf.2 hos (by rw [s1]; omega) (by rw [s1]; omega)
    rw [new_trace_of_append _ _ _ r2] at i1
    have hrun : (run_ticks b c (t :: ts)).trace = c.trace ++ (e1 ++ e2) := by
      rw [run_ticks, r2, s3, List.append_assoc]
    rw [new_trace_of_append _ _ _ hrun]
    intro hmem
    rcases List.mem_append.mp hmem with h | h
    · rw [← new_trace_of_append _ _ _ s3] at h
      obtain ⟨_, h⟩ := mem_tick_trace b c t _ h
      rcases h with h | h | h | h | h | ⟨m, h, hm⟩
      · rw [hd] at h; omega
      · exact absurd h (by decide)
      · exact absurd h (by decide)
      · exact absurd h (by decide)
      · exact absurd h (by decide)
      · exact hm (Event.msg.inj h).symm
    · exact i1 h

theorem stats_save_stored (c : Console) :
    c.stats_save.In_EEPROM_stats = c.stats_save.bq769x_stats ∧
    crc_ok (stats_bytes c.stats_save.In_EEPROM_stats) := by
  have h := stats_save_valid c
  exact ⟨h.1, by rw [h.1]; exact crc_ok_stats _ h.2⟩

theorem update_counters_stored (c : Console)
    (h : c.In_EEPROM_stats = c.bq769x_stats ∧ crc_ok (stats_bytes c.In_EEPROM_stats)) :
    c.update_counters.In_EEPROM_stats = c.update_counters.bq769x_stats ∧
    crc_ok (stats_bytes c.update_counters.In_EEPROM_stats) := by
  unfold update_counters
  simp only []
  split_ifs
  · exact stats_save_stored _
  · exact stats_save_stored _
  · exact stats_save_stored _
  · exact h

theorem command_shutdown_eestats (c : Console) :
    c.command_shutdown.In_EEPROM_stats = c.stats_save.In_EEPROM_stats := rfl

theorem command_shutdown_stats (c : Console) :
    c.command_shutdown.bq769x_stats = c.stats_save.bq769x_stats := rfl

theorem update_undervoltage_stored (c : Console) (hz : dec8 c.shd = 0) :
    c.update_undervoltage.In_EEPROM_stats = c.update_undervoltage.bq769x_stats ∧
    crc_ok (stats_bytes c.update_undervoltage.In_EEPROM_stats) := by
  unfold update_undervoltage
  simp only [Console.emit]
  rw [if_pos hz, command_shutdown_eestats, command_shutdown_stats]
  exact stats_save_stored _

/-- A supervisor call that carries the undervoltage bit and takes the
countdown to zero leaves the statistics persisted. -/
theorem update_work_uv_stored (b : Build) (c0 : Console) (now : Nat) (p : BqPoll)
    (hu : p.error % 256 &&& b.STAT_UV ≠ 0) (hz : dec8 c0.shd = 0) :
    (update_work b c0 now p).In_EEPROM_stats = (update_work b c0 now p).bq769x_stats ∧
    crc_ok (stats_bytes (update_work b c0 now p).In_EEPROM_stats) := by
  have hW : update_work b c0 now p =
      ((((((((c0.update_poll now p).say_if (p.error % 256 &&& b.STAT_OV != 0)
        Msg.overvoltage).update_undervoltage).say_if (p.error % 256 &&& b.STAT_SCD != 0)
        Msg.short_circuit).say_if (p.error % 256 &&& b.STAT_OCD != 0)
        Msg.overcurrent_charge).update_counters.say_if
        (decide (u16 ((p.maxCellVoltage : Int) - (p.minCellVoltage : Int)) > 100))
        Msg.difference_too_big).update_millis now).emit (Event.job 0)) := by
    simp only [update_work]
    rw [if_pos hu]
  have h1 := update_undervoltage_stored
    ((c0.update_poll now p).say_if (p.error % 256 &&& b.STAT_OV != 0) Msg.overvoltage)
    (by rw [say_if_shd]; exact hz)
  have h2 := update_counters_stored
    (((((c0.update_poll now p).say_if (p.error % 256 &&& b.STAT_OV != 0)
      Msg.overvoltage).update_undervoltage).say_if (p.error % 256 &&& b.STAT_SCD != 0)
      Msg.short_circuit).say_if (p.error % 256 &&& b.STAT_OCD != 0) Msg.overcurrent_charge)
    (by simp only [say_if_eestats, say_if_stats]; exact h1)
  rw [hW]
  simpa only [Console.emit, update_millis_eestats, update_millis_stats, say_if_eestats,
    say_if_stats] using h2

theorem tick_uv_stored (b : Build) (c : Console) (t : Tick) (hf : fires c t = true)
    (hu : uv_flagged b t) (hz : dec8 c.shd = 0) :
    (tick b c t).In_EEPROM_stats = (tick b c t).bq769x_stats ∧
    crc_ok (stats_bytes (tick b c t).In_EEPROM_stats) := by
  rw [tick_fired b c t hf]
  exact update_work_uv_stored b _ _ t.poll hu hz

end protocol
